import Mathlib

/-!
# LeBonScam: the risk analyzer (`src/background/risk-analyzer.js`)

A shallow embedding of the `RiskAnalyzer` class and the properties of its
sub-analyzers and of its aggregation step.

Modelling conventions.

* JavaScript numbers are idealised as exact rationals (`ℚ`); rounding of
  doubles is not modelled.  A value whose numeric conversion is `NaN` is kept
  apart (`JSVal.nonNum`).
* `null` / `undefined` are `Option.none`.
* An object literal used as a lookup table (`weights[key]`) is an association
  list of its own properties; a key that is not an own property but is the name
  of a property inherited from `Object.prototype` finds that inherited value.
* Built-ins whose behaviour is not in the repository (`String.prototype.toLowerCase`,
  `RegExp`) are parameters, collected in `Engine`.
* The text analyzer (`src/utils/text-analyzer.js`) and the extraction methods of the
  content script (`src/content/content.js`) follow in their own namespaces; the DOM
  calls of the content script are the fields of `AdElement`.
-/

namespace LeBonScam

/-! ## JavaScript values -/

/-- A value that flows through the score arithmetic.  `num q` is a finite number.
`nonNum` stands for every value whose conversion to a number is `NaN`: `NaN`
itself, a function or object found on the prototype chain, and the strings that
`+=` builds once such a value has been added to a score. -/
inductive JSVal where
  | num (q : ℚ)
  | nonNum
  deriving DecidableEq

/-- The operator `a + b` on the values above (on two finite numbers it is the
sum; every other combination is `NaN` or a non-numeric string). -/
def JSVal.add : JSVal → JSVal → JSVal
  | .num a, .num b => .num (a + b)
  | _, _ => .nonNum

/-- The operator `a * b`. -/
def JSVal.mul : JSVal → JSVal → JSVal
  | .num a, .num b => .num (a * b)
  | _, _ => .nonNum

/-- The operator `a - b`. -/
def JSVal.sub : JSVal → JSVal → JSVal
  | .num a, .num b => .num (a - b)
  | _, _ => .nonNum

/-- The comparison `v >= q` against a numeric literal (false on `NaN`). -/
def JSVal.ge (v : JSVal) (q : ℚ) : Bool :=
  match v with
  | .num a => decide (q ≤ a)
  | .nonNum => false

/-- The comparison `p < v` of a finite number with a value (false on `NaN`). -/
def JSVal.gtNum (v : JSVal) (p : ℚ) : Bool :=
  match v with
  | .num a => decide (p < a)
  | .nonNum => false

/-- The names every object literal inherits from `Object.prototype`. -/
def objectPrototypeKeys : List String :=
  ["constructor", "__defineGetter__", "__defineSetter__", "hasOwnProperty",
   "__lookupGetter__", "__lookupSetter__", "isPrototypeOf", "propertyIsEnumerable",
   "toString", "valueOf", "__proto__", "toLocaleString"]

/-- The result of reading `table[key]` on an object literal with numeric own
properties. -/
inductive Property where
  | own (v : ℚ)
  | inherited
  | undefined
  deriving DecidableEq

/-- The read `table[key]`: own properties first, then the prototype chain. -/
def getProperty (table : List (String × ℚ)) (key : String) : Property :=
  match table.lookup key with
  | some v => .own v
  | none => if key ∈ objectPrototypeKeys then .inherited else .undefined

/-- The idiom `table[key] || dflt`: the default replaces a falsy read (`undefined`
or `0`); an inherited function or object is truthy and is kept. -/
def Property.orElse (p : Property) (dflt : ℚ) : JSVal :=
  match p with
  | .own v => if v = 0 then .num dflt else .num v
  | .inherited => .nonNum
  | .undefined => .num dflt

/-- The numeric conversion of a read `table[key]` (`undefined` and inherited
functions convert to `NaN`). -/
def Property.toVal (p : Property) : JSVal :=
  match p with
  | .own v => .num v
  | .inherited => .nonNum
  | .undefined => .nonNum

/-- The remainder `a % m` of JavaScript for a positive integer modulus `m`: the
sign follows the dividend.  For `a = n / d` it is `(n tmod (m * d)) / d`. -/
def jsRem (a : ℚ) (m : ℕ) : ℚ :=
  ((a.num.tmod ((m : ℤ) * (a.den : ℤ)) : ℤ) : ℚ) / (a.den : ℚ)

/-- The test `s.includes(sub)`. -/
def includes (s sub : String) : Bool :=
  decide (sub.toList <:+: s.toList)

/-- The built-ins the analyzer calls and the repository does not define. -/
structure Engine where
  /-- The method `String.prototype.toLowerCase`. -/
  toLowerCase : String → String
  /-- The result of `text.match(new RegExp(pattern, 'gi'))` as a number of matches:
  `none` when the constructor throws a `SyntaxError`, `some 0` when `match`
  returns `null`. -/
  regexMatches : (pattern : String) → (text : String) → Option ℕ

/-! ## Data model -/

/-- A finding pushed to a `threats` array.  Fields that an object literal does
not set are `none` (`undefined`). -/
structure Threat where
  type : String
  riskLevel : String
  reason : Option String := none
  category : Option String := none
  keyword : Option String := none
  weight : Option JSVal := none
  pattern : Option String := none
  /-- The field `matches` (a reserved word here, hence the underscore). -/
  matches_ : Option ℕ := none
  description : Option String := none
  deriving DecidableEq

/-- The object `{ score, threats, type }` returned by each sub-analyzer. -/
structure PartialResult where
  score : JSVal
  threats : List Threat
  type : String
  deriving DecidableEq

/-- The seller record `adData.seller`. -/
structure SellerData where
  name : Option String := none
  reviewCount : Option ℕ
  accountAge : Option ℤ
  similarItemsCount : Option ℕ
  deriving DecidableEq

/-- The ad record passed to `analyzeAd`. -/
structure AdData where
  title : String
  description : String
  price : Option ℚ
  location : Option String
  category : String
  photosCount : ℕ
  seller : Option SellerData
  deriving DecidableEq

/-- The object `analysis` returned by `analyzeAd`. -/
structure Assessment where
  riskScore : JSVal
  riskLevel : String
  detectedThreats : List Threat
  recommendations : List String
  timestamp : ℕ
  deriving DecidableEq

/-- One entry of `scamPatterns.text_patterns`. -/
structure PatternData where
  pattern : String
  risk_level : String
  description : String
  deriving DecidableEq

/-- The keyword document, as `Object.entries` enumerates it:
category, then risk level, then word list. -/
abbrev KeywordTable := List (String × List (String × List String))

/-- The entries of `scamPatterns.text_patterns`, as `Object.entries` enumerates them. -/
abbrev PatternTable := List (String × PatternData)

/-- The patterns document, as `json()` delivers it and `this.scamPatterns` holds it.
The property `text_patterns` is `none` when the document has no such property. -/
structure ScamPatterns where
  text_patterns : Option PatternTable
  deriving DecidableEq

/-! ## Utilities of the class -/

/-- The table `weights` of `getRiskWeight`. -/
def riskWeights : List (String × ℚ) := [("low", 5), ("medium", 15), ("high", 30)]

/-- The method `getRiskWeight`: `weights[riskLevel] || 5`. -/
def getRiskWeight (riskLevel : String) : JSVal :=
  (getProperty riskWeights riskLevel).orElse 5

/-- The table `suspiciousThresholds` of `isPriceSuspiciouslyLow`. -/
def suspiciousThresholds : List (String × ℚ) :=
  [("informatique", 50), ("telephonie", 30), ("electromenager", 20), ("vehicules", 500)]

/-- The method `isPriceSuspiciouslyLow`: `price < (suspiciousThresholds[category] || 10)`. -/
def isPriceSuspiciouslyLow (price : ℚ) (category : String) : Bool :=
  ((getProperty suspiciousThresholds category).orElse 10).gtNum price

/-- The array `vagueTerms` of `isLocationVague`. -/
def vagueTerms : List String := ["région", "proche", "alentours", "secteur", "environ"]

/-- The method `isLocationVague`. -/
def isLocationVague (E : Engine) (location : Option String) : Bool :=
  match location with
  | none => true
  | some loc =>
    if loc = "" then true
    else vagueTerms.any (fun term => includes (E.toLowerCase loc) term)

/-! ## Sub-analyzers -/

/-- The method `analyzeText` (keyword analysis of title and description), over
the keyword table held in `this.suspiciousKeywords`. -/
def analyzeText (E : Engine) (suspiciousKeywords : KeywordTable)
    (title description : String) : PartialResult :=
  let fullText := E.toLowerCase (title ++ " " ++ description)
  let acc : JSVal × List Threat :=
    suspiciousKeywords.foldl (fun acc entry =>
      entry.2.foldl (fun acc levelEntry =>
        levelEntry.2.foldl (fun acc keyword =>
          if includes fullText (E.toLowerCase keyword) then
            let weight := getRiskWeight levelEntry.1
            (acc.1.add weight,
             acc.2 ++ [{ type := "keyword", category := some entry.1, keyword := some keyword,
                         riskLevel := levelEntry.1, weight := some weight }])
          else acc) acc) acc) (.num 0, [])
  { score := acc.1, threats := acc.2, type := "text" }

/-- The method `analyzePrice`. -/
def analyzePrice (price : Option ℚ) (category : String) : PartialResult :=
  match price with
  | none => { score := .num 0, threats := [], type := "price" }
  | some price =>
    if price = 0 ∨ price ≤ 0 then { score := .num 0, threats := [], type := "price" }
    else
      let s0 : ℚ × List Threat := (0, [])
      let s1 : ℚ × List Threat :=
        if jsRem price 100 = 0 ∧ price > 200 then
          (s0.1 + 10, s0.2 ++ [{ type := "price_pattern",
                                 reason := some "Prix rond suspect pour objet de valeur",
                                 riskLevel := "low" }])
        else s0
      let s2 : ℚ × List Threat :=
        if jsRem price 100 = 99 ∨ jsRem price 100 = 95 then
          (s1.1 + 5, s1.2 ++ [{ type := "price_pattern",
                                reason := some "Prix psychologique inhabituel sur LeBonCoin",
                                riskLevel := "low" }])
        else s1
      let s3 : ℚ × List Threat :=
        if isPriceSuspiciouslyLow price category then
          (s2.1 + 50, s2.2 ++ [{ type := "price_too_low",
                                 reason := some "Prix anormalement bas pour cette catégorie",
                                 riskLevel := "high" }])
        else s2
      { score := .num s3.1, threats := s3.2, type := "price" }

/-- The method `analyzeSeller`. -/
def analyzeSeller (sellerData : Option SellerData) : PartialResult :=
  match sellerData with
  | none => { score := .num 0, threats := [], type := "seller" }
  | some sellerData =>
    let s0 : ℚ × List Threat := (0, [])
    let s1 : ℚ × List Threat :=
      if (match sellerData.accountAge with
          | none => false
          | some age => decide (age ≠ 0) && decide (age < 30)) then
        (s0.1 + 20, s0.2 ++ [{ type := "new_account", reason := some "Compte créé récemment",
                               riskLevel := "medium" }])
      else s0
    let s2 : ℚ × List Threat :=
      if sellerData.reviewCount = some 0 then
        (s1.1 + 15, s1.2 ++ [{ type := "no_reviews", reason := some "Aucun avis sur le vendeur",
                               riskLevel := "medium" }])
      else s1
    let s3 : ℚ × List Threat :=
      if (match sellerData.similarItemsCount with
          | none => false
          | some n => decide (n > 5)) then
        (s2.1 + 30, s2.2 ++ [{ type := "multiple_items",
                               reason := some "Vendeur avec beaucoup d'objets identiques",
                               riskLevel := "high" }])
      else s2
    { score := .num s3.1, threats := s3.2, type := "seller" }

/-- The method `analyzeBehavior`. -/
def analyzeBehavior (E : Engine) (adData : AdData) : PartialResult :=
  let s0 : ℚ × List Threat := (0, [])
  let s1 : ℚ × List Threat :=
    if adData.photosCount = 1 then
      (s0.1 + 15, s0.2 ++ [{ type := "single_photo", reason := some "Une seule photo fournie",
                             riskLevel := "medium" }])
    else s0
  let s2 : ℚ × List Threat :=
    if isLocationVague E adData.location then
      (s1.1 + 20, s1.2 ++ [{ type := "vague_location",
                             reason := some "Localisation volontairement vague",
                             riskLevel := "medium" }])
    else s1
  { score := .num s2.1, threats := s2.2, type := "behavior" }

/-- What a method can throw. -/
inductive JSError where
  | loadError
  | syntaxError (pattern : String)
  | typeError
  deriving DecidableEq

/-- The method `analyzePatterns`, over the entries of `this.scamPatterns.text_patterns`.
The `RegExp` constructor throws on a pattern that is not a regular expression. -/
def analyzePatterns (E : Engine) (textPatterns : PatternTable) (adData : AdData) :
    Except JSError PartialResult := do
  let fullText := E.toLowerCase (adData.title ++ " " ++ adData.description)
  let acc : JSVal × List Threat ← textPatterns.foldlM (fun acc entry =>
    match E.regexMatches entry.2.pattern fullText with
    | none => Except.error (JSError.syntaxError entry.2.pattern)
    | some 0 => pure acc
    | some (n + 1) =>
      let weight := getRiskWeight entry.2.risk_level
      pure (acc.1.add (weight.mul (.num ((n + 1 : ℕ) : ℚ))),
            acc.2 ++ [{ type := "pattern_match", pattern := some entry.1,
                        matches_ := some (n + 1), riskLevel := entry.2.risk_level,
                        description := some entry.2.description }])) (.num 0, [])
  pure { score := acc.1, threats := acc.2, type := "pattern" }

/-! ## Aggregation -/

/-- The table `weights` of `calculateFinalScore`. -/
def sourceWeights : List (String × ℚ) :=
  [("text", 1 / 4), ("price", 1 / 5), ("seller", 1 / 5), ("behavior", 3 / 20), ("pattern", 1 / 5)]

/-- The method `calculateFinalScore`: a left-to-right `reduce` from 0. -/
def calculateFinalScore (analyses : List PartialResult) : JSVal :=
  analyses.foldl (fun total analysis =>
    let weight := (getProperty sourceWeights analysis.type).orElse (1 / 10)
    total.add (analysis.score.mul weight)) (.num 0)

/-- The method `Array.prototype.findIndex`: the first index whose element
satisfies `p`, or `-1`. -/
def findIndex (p : α → Bool) (self : List α) : ℤ :=
  if self.findIdx p < self.length then (self.findIdx p : ℤ) else -1

/-- The method `Array.prototype.filter` with the callback `(element, index, array)`. -/
def filterIndexed (f : α → ℕ → List α → Bool) (self : List α) : List α :=
  (self.enum.filter (fun it => f it.2 it.1 self)).map Prod.snd

/-- One step of the sort below: `x`, which came later in the input than every
element of the list, is put before the first element that the comparator orders
strictly after it (`cmp x y < 0`). -/
def sortInsert (cmp : α → α → JSVal) (x : α) : List α → List α
  | [] => [x]
  | y :: ys =>
    if (match cmp x y with
        | .num v => decide (v < 0)
        | .nonNum => false) then x :: y :: ys
    else y :: sortInsert cmp x ys

/-- The method `Array.prototype.sort(comparefn)`.  ECMAScript requires the sort
to be stable and reads a comparator result `NaN` as `+0`; it is modelled by a
stable insertion sort.  For a comparator that is not a consistent ordering of
the elements the standard leaves the resulting order to the implementation, so
statements about that order are made for consistent comparators only. -/
def sort (cmp : α → α → JSVal) (self : List α) : List α :=
  self.foldl (fun acc x => sortInsert cmp x acc) []

/-- The table `riskOrder` of the comparator of `consolidateThreats`. -/
def riskOrder : List (String × ℚ) := [("high", 3), ("medium", 2), ("low", 1)]

/-- The comparator of `consolidateThreats`:
`riskOrder[b.riskLevel] - riskOrder[a.riskLevel]`. -/
def compareThreats (a b : Threat) : JSVal :=
  (getProperty riskOrder b.riskLevel).toVal.sub (getProperty riskOrder a.riskLevel).toVal

/-- The test `t.type === threat.type && t.reason === threat.reason`. -/
def sameThreat (threat t : Threat) : Bool :=
  t.type == threat.type && t.reason == threat.reason

/-- The array `allThreats` of `consolidateThreats`. -/
def allThreats (analyses : List PartialResult) : List Threat :=
  analyses.flatMap (fun analysis => analysis.threats)

/-- The array `uniqueThreats` of `consolidateThreats`. -/
def uniqueThreats (all : List Threat) : List Threat :=
  filterIndexed (fun threat index self => findIndex (sameThreat threat) self == (index : ℤ)) all

/-- The method `consolidateThreats`. -/
def consolidateThreats (analyses : List PartialResult) : List Threat :=
  sort compareThreats (uniqueThreats (allThreats analyses))

/-- The method `determineRiskLevel`. -/
def determineRiskLevel (score : JSVal) : String :=
  if score.ge 60 then "high"
  else if score.ge 30 then "medium"
  else "low"

/-- The method `generateRecommendations`. -/
def generateRecommendations (analysis : Assessment) : List String :=
  if analysis.riskLevel = "high" then
    ["⚠️ ATTENTION : Cette annonce présente plusieurs signaux d'alarme",
     "❌ Évitez cette annonce ou soyez extrêmement prudent",
     "🔍 Vérifiez l'identité du vendeur avant tout contact"]
  else if analysis.riskLevel = "medium" then
    ["⚡ Prudence recommandée pour cette annonce",
     "🤝 Privilégiez la remise en main propre",
     "💳 Évitez les paiements avant rencontre"]
  else
    ["✅ Annonce qui semble normale",
     "🛡️ Respectez les bonnes pratiques de sécurité"]

/-! ## The facade -/

/-- The fields of a `RiskAnalyzer` instance. -/
structure RiskAnalyzer where
  suspiciousKeywords : Option KeywordTable
  scamPatterns : Option ScamPatterns
  initialized : Bool
  deriving DecidableEq

/-- The constructor of `RiskAnalyzer`. -/
def RiskAnalyzer.new : RiskAnalyzer :=
  { suspiciousKeywords := none, scamPatterns := none, initialized := false }

/-- What the two `fetch` calls and the two `json()` calls of `initialize` deliver:
`fetched` is false when `Promise.all` rejects, and a document is `none` when its
`json()` rejects.  The keyword document is taken in the shape `analyzeText` reads
(category, tier, word list); the patterns document may lack `text_patterns`. -/
structure LoadOutcome where
  fetched : Bool
  keywords : Option KeywordTable
  patterns : Option ScamPatterns

/-- The method `initialize` (the name is reserved here): the instance after the
call, and whether it threw. -/
def initializeAnalyzer (self : RiskAnalyzer) (load : LoadOutcome) :
    RiskAnalyzer × Except JSError Unit :=
  if self.initialized then (self, .ok ())
  else if !load.fetched then (self, .error .loadError)
  else
    match load.keywords with
    | none => (self, .error .loadError)
    | some keywords =>
      match load.patterns with
      | none => ({ self with suspiciousKeywords := some keywords }, .error .loadError)
      | some scamPatterns =>
        ({ suspiciousKeywords := some keywords, scamPatterns := some scamPatterns,
           initialized := true }, .ok ())

/-- The method `analyzeAd`: the instance after the call, and the assessment or
the error thrown.  `now` is the value of `Date.now()`.  On a field that is `null`,
and on a patterns document without `text_patterns`, `Object.entries` throws a
`TypeError`. -/
def analyzeAd (self : RiskAnalyzer) (load : LoadOutcome) (E : Engine) (now : ℕ)
    (adData : AdData) : RiskAnalyzer × Except JSError Assessment :=
  let init : RiskAnalyzer × Except JSError Unit :=
    if !self.initialized then initializeAnalyzer self load else (self, .ok ())
  match init.2 with
  | .error e => (init.1, .error e)
  | .ok _ =>
    match init.1.suspiciousKeywords, init.1.scamPatterns with
    | some keywords, some { text_patterns := some patterns } =>
      let textAnalysis := analyzeText E keywords adData.title adData.description
      let priceAnalysis := analyzePrice adData.price adData.category
      let sellerAnalysis := analyzeSeller adData.seller
      let behaviorAnalysis := analyzeBehavior E adData
      match analyzePatterns E patterns adData with
      | .error e => (init.1, .error e)
      | .ok patternAnalysis =>
        let analyses :=
          [textAnalysis, priceAnalysis, sellerAnalysis, behaviorAnalysis, patternAnalysis]
        let riskScore := calculateFinalScore analyses
        let detectedThreats := consolidateThreats analyses
        let riskLevel := determineRiskLevel riskScore
        let analysis : Assessment :=
          { riskScore := riskScore, riskLevel := riskLevel, detectedThreats := detectedThreats,
            recommendations := [], timestamp := now }
        (init.1, .ok { analysis with recommendations := generateRecommendations analysis })
    | _, _ => (init.1, .error .typeError)

/-! ## Notions of the specification -/

/-- The rank of a risk tier (`high` 3, `medium` 2, `low` 1; any other string 0). -/
def tierRank (level : String) : ℕ :=
  if level = "high" then 3 else if level = "medium" then 2 else if level = "low" then 1 else 0

/-- The descriptor of a finding: its reason string, or its keyword, or its pattern
name.  The three are kept apart, so that a reason never equals a keyword. -/
inductive Descriptor where
  | reason (s : String)
  | keyword (s : String)
  | pattern (s : String)
  | absent
  deriving DecidableEq

/-- The descriptor a finding carries: the reason string when there is one, else
the keyword, else the pattern name. -/
def descriptor (t : Threat) : Descriptor :=
  match t.reason, t.keyword, t.pattern with
  | some r, _, _ => .reason r
  | none, some k, _ => .keyword k
  | none, none, some p => .pattern p
  | none, none, none => .absent

/-- The fusion weight of a source kind, as the specification states it. -/
def specWeight (source : String) : ℚ :=
  if source = "text" then 1 / 4
  else if source = "price" then 1 / 5
  else if source = "seller" then 1 / 5
  else if source = "behavior" then 3 / 20
  else if source = "pattern" then 1 / 5
  else 1 / 10

/-- The price floor of a category, as the specification states it. -/
def categoryFloor (category : String) : ℚ :=
  if category = "informatique" then 50
  else if category = "telephonie" then 30
  else if category = "electromenager" then 20
  else if category = "vehicules" then 500
  else 10

/-! ## Auxiliary definitions -/

/-- Deduplication by first occurrence, written recursively: `seen` holds the
elements already passed.  `uniqueThreats all` is proved equal to `keepFirst [] all`. -/
def keepFirst (seen : List Threat) : List Threat → List Threat
  | [] => []
  | t :: ts =>
    if seen.any (sameThreat t) then keepFirst (seen ++ [t]) ts
    else t :: keepFirst (seen ++ [t]) ts

/-! ## Findings and inputs used in examples -/

/-- The finding `round price` of `analyzePrice`. -/
def roundPrice : Threat :=
  { type := "price_pattern", reason := some "Prix rond suspect pour objet de valeur",
    riskLevel := "low" }

/-- The finding `unusual psychological price` of `analyzePrice`. -/
def psychologicalPrice : Threat :=
  { type := "price_pattern", reason := some "Prix psychologique inhabituel sur LeBonCoin",
    riskLevel := "low" }

/-- The finding `price_too_low` of `analyzePrice`. -/
def priceTooLow : Threat :=
  { type := "price_too_low", reason := some "Prix anormalement bas pour cette catégorie",
    riskLevel := "high" }

/-- The finding `new_account` of `analyzeSeller`. -/
def newAccount : Threat :=
  { type := "new_account", reason := some "Compte créé récemment", riskLevel := "medium" }

/-- The finding `no_reviews` of `analyzeSeller`. -/
def noReviews : Threat :=
  { type := "no_reviews", reason := some "Aucun avis sur le vendeur", riskLevel := "medium" }

/-- The finding `multiple_items` of `analyzeSeller`. -/
def multipleItems : Threat :=
  { type := "multiple_items", reason := some "Vendeur avec beaucoup d'objets identiques",
    riskLevel := "high" }

/-- The keyword finding for `urgent` in category `urgence`, tier `high`. -/
def keywordUrgent : Threat :=
  { type := "keyword", category := some "urgence", keyword := some "urgent", riskLevel := "high",
    weight := some (.num 30) }

/-- The keyword finding for `vite` in category `urgence`, tier `high`. -/
def keywordVite : Threat :=
  { type := "keyword", category := some "urgence", keyword := some "vite", riskLevel := "high",
    weight := some (.num 30) }

/-- A keyword document with one category and two high-tier keywords. -/
def exampleKeywords : KeywordTable := [("urgence", [("high", ["urgent", "vite"])])]

/-- An engine for texts that are already lowercase, and patterns that never match. -/
def plainEngine : Engine := { toLowerCase := fun s => s, regexMatches := fun _ _ => some 0 }

/-- An ad with no seller record. -/
def exampleAd : AdData :=
  { title := "Table", description := "", price := some 45, location := some "Lyon",
    category := "informatique", photosCount := 4, seller := none }

/-- An analyzer whose two documents are loaded and empty. -/
def loadedAnalyzer : RiskAnalyzer :=
  { suspiciousKeywords := some [], scamPatterns := some { text_patterns := some [] },
    initialized := true }

/-- A load that fails at the `fetch` step. -/
def failedLoad : LoadOutcome := { fetched := false, keywords := none, patterns := none }

/-- The price and seller results of an ad at 300 in `vehicules` whose seller has a
5-day-old account, no review and 8 similar items. -/
def exampleAnalyses : List PartialResult :=
  [{ score := .num 60, threats := [roundPrice, priceTooLow], type := "price" },
   { score := .num 65, threats := [newAccount, noReviews, multipleItems], type := "seller" }]

/-! ## Further findings and notions of the specification -/

/-- The finding `single_photo` of `analyzeBehavior`. -/
def singlePhoto : Threat :=
  { type := "single_photo", reason := some "Une seule photo fournie", riskLevel := "medium" }

/-- The finding `vague_location` of `analyzeBehavior`. -/
def vagueLocation : Threat :=
  { type := "vague_location", reason := some "Localisation volontairement vague",
    riskLevel := "medium" }

/-- The contribution of a seller finding to the seller score, as the specification
states it: 20 for `new_account`, 15 for `no_reviews`, 30 for `multiple_items`. -/
def sellerContribution (t : Threat) : ℚ :=
  if t.type = "new_account" then 20
  else if t.type = "no_reviews" then 15
  else if t.type = "multiple_items" then 30
  else 0

/-- A location is vague, as the specification states it: it is null, or empty, or
its lowercased form contains one of the vague terms. -/
def LocationVague (E : Engine) (location : Option String) : Prop :=
  location = none ∨ location = some "" ∨
    ∃ loc, location = some loc ∧ ∃ term ∈ vagueTerms, term.toList <:+: (E.toLowerCase loc).toList

/-- A seller whose account is 0 days old, with 12 reviews and 1 similar item. -/
def sellerAgeZero : SellerData :=
  { reviewCount := some 12, accountAge := some 0, similarItemsCount := some 1 }

/-- A lowercasing that maps the letters `A` to `Z` to `a` to `z` and leaves every other
character as it is: it agrees with `toLowerCase` on texts whose uppercase letters are
all among `A` to `Z`. -/
def asciiLower (s : String) : String :=
  String.mk (s.toList.map Char.toLower)

/-- An engine with the lowercasing above and patterns that never match. -/
def asciiEngine : Engine := { toLowerCase := asciiLower, regexMatches := fun _ _ => some 0 }

/-- An ad with one photo, located at `Secteur Lyon`. -/
def vagueAd : AdData :=
  { title := "Table", description := "", price := none, location := some "Secteur Lyon",
    category := "unknown", photosCount := 1, seller := none }

/-- The (category, tier, keyword) triples of a keyword table, in table order. -/
def keywordTriples (table : KeywordTable) : List (String × String × String) :=
  table.flatMap (fun entry =>
    entry.2.flatMap (fun levelEntry =>
      levelEntry.2.map (fun keyword => (entry.1, levelEntry.1, keyword))))

/-- The tier weight, as the specification states it: low 5, medium 15, high 30 (no
weight is stated for another string; it is 0 here). -/
def tierWeight (tier : String) : ℚ :=
  if tier = "low" then 5 else if tier = "medium" then 15 else if tier = "high" then 30 else 0

/-- The keyword finding of a (category, tier, keyword) triple. -/
def keywordFinding (triple : String × String × String) : Threat :=
  { type := "keyword", category := some triple.1, keyword := some triple.2.2,
    riskLevel := triple.2.1, weight := some (getRiskWeight triple.2.1) }

/-- One step of the keyword scan of `analyzeText`, on a (category, tier, keyword) triple. -/
def keywordStep (E : Engine) (fullText : String) (acc : JSVal × List Threat)
    (triple : String × String × String) : JSVal × List Threat :=
  if includes fullText (E.toLowerCase triple.2.2) then
    (acc.1.add (getRiskWeight triple.2.1), acc.2 ++ [keywordFinding triple])
  else acc

/-- The `pattern_match` finding of a pattern entry with `n` matches. -/
def patternFinding (entry : String × PatternData) (n : ℕ) : Threat :=
  { type := "pattern_match", pattern := some entry.1, matches_ := some n,
    riskLevel := entry.2.risk_level, description := some entry.2.description }

/-- One step of the pattern scan of `analyzePatterns`. -/
def patternStep (E : Engine) (fullText : String) (acc : JSVal × List Threat)
    (entry : String × PatternData) : Except JSError (JSVal × List Threat) :=
  match E.regexMatches entry.2.pattern fullText with
  | none => Except.error (JSError.syntaxError entry.2.pattern)
  | some 0 => pure acc
  | some (n + 1) =>
    pure (acc.1.add ((getRiskWeight entry.2.risk_level).mul (.num ((n + 1 : ℕ) : ℚ))),
          acc.2 ++ [patternFinding entry (n + 1)])

/-- A keyword document with tiers `high` and `low` in one category. -/
def mixedKeywords : KeywordTable :=
  [("urgence", [("high", ["urgent", "vite"]), ("low", ["soir"])])]

/-- A pattern table with one medium pattern. -/
def examplePatterns : PatternTable :=
  [("bang", { pattern := "!!", risk_level := "medium", description := "exclamations" }),
   ("mail", { pattern := "@", risk_level := "high", description := "email" })]

/-- An engine with the lowercasing above, for which the pattern `!!` matches twice and
every other pattern does not match. -/
def bangEngine : Engine :=
  { toLowerCase := asciiLower,
    regexMatches := fun pattern _ => if pattern = "!!" then some 2 else some 0 }

/-- The first example ad of the specification. -/
def exampleOne : AdData :=
  { title := "iPhone 14 urgent urgent!! départ ce soir", description := "", price := some 300,
    location := some "région proche", category := "telephonie", photosCount := 1,
    seller := some { reviewCount := some 0, accountAge := some 5, similarItemsCount := some 8 } }

/-- The second example ad of the specification. -/
def exampleTwo : AdData :=
  { title := "Table basse bois", description := "Bon état, à récupérer sur place",
    price := some 45, location := some "Lyon 3e", category := "informatique", photosCount := 4,
    seller := some { reviewCount := some 12, accountAge := some 400,
                     similarItemsCount := some 1 } }

/-- An analyzer whose two documents are loaded. -/
def RiskAnalyzer.loaded (keywords : KeywordTable) (patterns : PatternTable) : RiskAnalyzer :=
  { suspiciousKeywords := some keywords, scamPatterns := some { text_patterns := some patterns },
    initialized := true }
/-! ## The text analyzer (`src/utils/text-analyzer.js`) -/

namespace TextAnalyzer

/-- The built-ins the text analyzer calls and the repository does not define. -/
structure TextEngine where
  /-- The method `String.prototype.toLowerCase`. -/
  toLowerCase : String → String
  /-- The result of `text.match(re)` for a regular expression with the `g` flag, given
  by its source and its flags: the matched substrings in order, and the empty list when
  `match` returns `null`. -/
  matchAll : (source : String) → (flags : String) → (text : String) → List String

/-- The property `length` of a string: its number of UTF-16 code units. -/
def utf16Length (s : List Char) : ℕ :=
  (s.map (fun c => if c.val ≥ 0x10000 then 2 else 1)).sum

/-- The class `\w` of a regular expression without the `u` flag: `[A-Za-z0-9_]`. -/
def isWordChar (c : Char) : Bool :=
  c.isAlphanum || c == '_'

/-- The class `\s`, which is also what `trim` removes. -/
def isSpaceChar (c : Char) : Bool :=
  (0x09 ≤ c.val && c.val ≤ 0x0D) || c.val == 0x20 || c.val == 0xA0 || c.val == 0x1680 ||
  (0x2000 ≤ c.val && c.val ≤ 0x200A) || c.val == 0x2028 || c.val == 0x2029 ||
  c.val == 0x202F || c.val == 0x205F || c.val == 0x3000 || c.val == 0xFEFF

/-- The class `[.!?]`. -/
def isSentenceEnd (c : Char) : Bool :=
  c == '.' || c == '!' || c == '?'

/-- The class `[aeiouAEIOU]`. -/
def isVowel (c : Char) : Bool :=
  c ∈ ['a', 'e', 'i', 'o', 'u', 'A', 'E', 'I', 'O', 'U']

/-- The method `trim`. -/
def trim (s : List Char) : List Char :=
  ((s.dropWhile isSpaceChar).reverse.dropWhile isSpaceChar).reverse

/-- The call `s.split(re)` for `re` one or more characters of a class (`/\s+/`,
`/[.!?]+/`): the pieces between the maximal runs of the class.  `cur` is the piece
being read, reversed, and `inRun` tells that the last character was in the class. -/
def splitRuns (p : Char → Bool) (cur : List Char) (inRun : Bool) :
    List Char → List (List Char)
  | [] => [cur.reverse]
  | c :: cs =>
    if p c then
      if inRun then splitRuns p cur true cs
      else cur.reverse :: splitRuns p [] true cs
    else splitRuns p (c :: cur) false cs

/-- The call `s.split(/\s+/)`. -/
def splitSpaces (s : List Char) : List (List Char) :=
  splitRuns isSpaceChar [] false s

/-- The call `s.split(/[.!?]+/)`. -/
def splitSentences (s : List Char) : List (List Char) :=
  splitRuns isSentenceEnd [] false s

/-- The call `s.replace(/[^\w\s]/g, ' ')`: a character outside both classes becomes a
space, one per UTF-16 code unit. -/
def replaceNonWord (s : List Char) : List Char :=
  s.flatMap (fun c =>
    if isWordChar c || isSpaceChar c then [c]
    else if c.val ≥ 0x10000 then [' ', ' '] else [' '])

/-- The call `s.replace(/\s+/g, ' ')`: every maximal run of spaces becomes one space. -/
def collapseSpaces (inRun : Bool) : List Char → List Char
  | [] => []
  | c :: cs =>
    if isSpaceChar c then
      if inRun then collapseSpaces true cs else ' ' :: collapseSpaces true cs
    else c :: collapseSpaces false cs

/-- The method `preprocessText`. -/
def preprocessText (E : TextEngine) (text : String) : String :=
  String.mk (trim (collapseSpaces false (replaceNonWord (E.toLowerCase text).toList)))

/-- The array `frenchStopWords`. -/
def frenchStopWords : List String :=
  ["le", "de", "et", "à", "un", "il", "être", "et", "en", "avoir", "que", "pour",
   "dans", "ce", "son", "une", "sur", "avec", "ne", "se", "pas", "tout", "plus",
   "par", "grand", "en", "une", "pour", "que", "les", "des", "est", "du", "la"]

/-- The method `countWords`. -/
def countWords (text : String) : ℕ :=
  ((splitSpaces text.toList).filter (fun word =>
    decide (utf16Length word > 1) && !(frenchStopWords.contains (String.mk word)))).length

/-- The object returned by `getSentences`. -/
structure Sentences where
  count : ℕ
  avgLength : ℚ
  sentences : List String
  deriving DecidableEq

/-- The method `getSentences`.  The average `sum / count || 0` is 0 when there is no
sentence. -/
def getSentences (text : String) : Sentences :=
  let sentences := (splitSentences text.toList).filter (fun s => decide (utf16Length (trim s) > 0))
  { count := sentences.length,
    avgLength :=
      if sentences.length = 0 then 0
      else ((sentences.map utf16Length).sum : ℚ) / (sentences.length : ℚ),
    sentences := sentences.map (fun s => String.mk (trim s)) }

/-- An entry `{ pattern, matches, weight }` of a `matches` array. -/
structure IndicatorMatch where
  pattern : String
  /-- The field `matches`. -/
  matches_ : ℕ
  weight : ℚ
  deriving DecidableEq

/-- The object `{ score, matches }` of the urgency and emotional scores. -/
structure IndicatorScore where
  score : ℚ
  /-- The field `matches`. -/
  matches_ : List IndicatorMatch
  deriving DecidableEq

/-- The loop shared by `calculateUrgencyScore` and `calculateEmotionalScore`, over
indicators given as (source, flags, weight). -/
def scanIndicators (E : TextEngine) (indicators : List (String × String × ℚ)) (text : String) :
    IndicatorScore :=
  indicators.foldl (fun acc indicator =>
    let found := E.matchAll indicator.1 indicator.2.1 text
    if found.length = 0 then acc
    else
      { score := acc.score + indicator.2.2 * (found.length : ℚ),
        matches_ := acc.matches_ ++
          [{ pattern := indicator.1, matches_ := found.length, weight := indicator.2.2 }] })
    { score := 0, matches_ := [] }

/-- The array `urgencyIndicators`. -/
def urgencyIndicators : List (String × String × ℚ) :=
  [("urgent[e]?", "gi", 3), ("rapidement", "gi", 2), ("vite", "gi", 2),
   ("immédiatement", "gi", 3), ("tout de suite", "gi", 2), ("départ demain", "gi", 4),
   ("partir ce soir", "gi", 4), ("fin de semaine", "gi", 2), ("déménagement", "gi", 1),
   ("liquidation", "gi", 3), ("braderie", "gi", 2), ("!\x7b2,\x7d", "g", 1)]

/-- The method `calculateUrgencyScore`. -/
def calculateUrgencyScore (E : TextEngine) (text : String) : IndicatorScore :=
  scanIndicators E urgencyIndicators text

/-- The array `emotionalIndicators`. -/
def emotionalIndicators : List (String × String × ℚ) :=
  [("maladie", "gi", 3), ("décès", "gi", 4), ("divorce", "gi", 3),
   ("difficultés financières", "gi", 4), ("au chômage", "gi", 3), ("pour ma fille", "gi", 2),
   ("pour mon fils", "gi", 2), ("cadeau", "gi", 1), ("anniversaire", "gi", 1),
   ("surprise", "gi", 2), ("personne âgée", "gi", 3), ("handicapé", "gi", 3),
   ("hôpital", "gi", 3)]

/-- The method `calculateEmotionalScore`. -/
def calculateEmotionalScore (E : TextEngine) (text : String) : IndicatorScore :=
  scanIndicators E emotionalIndicators text

/-- An entry of the array `patterns` of `detectSuspiciousPatterns`. -/
structure PatternRule where
  name : String
  source : String
  flags : String
  description : String
  risk : String
  deriving DecidableEq

/-- An entry of the array returned by `detectSuspiciousPatterns`. -/
structure SuspiciousPattern where
  name : String
  description : String
  risk : String
  /-- The field `matches`. -/
  matches_ : List String
  count : ℕ
  deriving DecidableEq

/-- The array `patterns` of `detectSuspiciousPatterns`. -/
def suspiciousPatternRules : List PatternRule :=
  [{ name := "phone_in_text", source := "0[1-9](?:[0-9]\x7b8\x7d)", flags := "g",
     description := "Numéro de téléphone dans le texte", risk := "high" },
   { name := "email_in_text",
     source := "[a-zA-Z0-9._%+-]+@[a-zA-Z0-9.-]+\\.[a-zA-Z]\x7b2,\x7d", flags := "g",
     description := "Email dans le texte", risk := "high" },
   { name := "foreign_phone", source := "\\+(?!33)[0-9]\x7b10,15\x7d", flags := "g",
     description := "Numéro étranger", risk := "high" },
   { name := "external_platform",
     source := "(facebook|instagram|whatsapp|telegram|signal|viber)", flags := "gi",
     description := "Mention d'autres plateformes", risk := "medium" },
   { name := "payment_methods",
     source := "(western union|moneygram|paypal famille|bitcoin|crypto)", flags := "gi",
     description := "Méthodes de paiement suspectes", risk := "high" },
   { name := "shipping_only",
     source := "(expédition uniquement|envoi seulement|pas de remise)", flags := "gi",
     description := "Expédition uniquement", risk := "medium" },
   { name := "price_justification",
     source := "(prix sacrifié|bradé|liquidation|perte financière)", flags := "gi",
     description := "Justification de prix bas", risk := "medium" },
   { name := "authenticity_claims",
     source := "(100% authentique|garantie authenticité|certificat)", flags := "gi",
     description := "Revendications d'authenticité", risk := "low" },
   { name := "repeated_chars", source := "([a-zA-Z])\\1\x7b3,\x7d", flags := "g",
     description := "Caractères répétés", risk := "low" },
   { name := "excessive_caps", source := "[A-Z]\x7b5,\x7d", flags := "g",
     description := "Majuscules excessives", risk := "low" }]

/-- The method `detectSuspiciousPatterns`. -/
def detectSuspiciousPatterns (E : TextEngine) (text : String) : List SuspiciousPattern :=
  suspiciousPatternRules.filterMap (fun rule =>
    let found := E.matchAll rule.source rule.flags text
    if found.length = 0 then none
    else some { name := rule.name, description := rule.description, risk := rule.risk,
                matches_ := found, count := found.length })

/-- The method `calculateReadabilityScore`. -/
def calculateReadabilityScore (text : String) : ℚ :=
  let words : ℚ := ((splitSpaces text.toList).length : ℚ)
  let sentences : ℚ := ((splitSentences text.toList).length : ℚ)
  let avgWordsPerSentence : ℚ := if sentences = 0 then 0 else words / sentences
  let s0 : ℚ := 100
  let s1 : ℚ :=
    if avgWordsPerSentence > 20 then s0 - 20
    else if avgWordsPerSentence > 15 then s0 - 10
    else s0
  let s2 : ℚ := if words < 10 then s1 - 30 else s1
  let punctuationCount : ℕ := text.toList.countP isSentenceEnd
  let s3 : ℚ := if punctuationCount = 0 ∧ words > 20 then s2 - 15 else s2
  max 0 (min 100 s3)

/-- A value of the object `wordCount` of `assessLanguageQuality`: a number, or the
string that `+ 1` builds from an inherited function or from such a string. -/
inductive WordTally where
  | count (n : ℕ)
  | text
  deriving DecidableEq

/-- The statement `wordCount[word] = (wordCount[word] || 0) + 1`.  A word that names a
property inherited from `Object.prototype` reads that property, not `undefined`; the
assignment to `__proto__` sets no own property. -/
def tally (wordCount : List (String × WordTally)) (word : String) : List (String × WordTally) :=
  match wordCount.lookup word with
  | some (.count n) =>
    wordCount.map (fun e => if e.1 = word then (word, .count ((if n = 0 then 0 else n) + 1)) else e)
  | some .text => wordCount
  | none =>
    if word = "__proto__" then wordCount
    else if word ∈ objectPrototypeKeys then wordCount ++ [(word, .text)]
    else wordCount ++ [(word, .count 1)]

/-- The index that a property key is when it is an array index (a canonical numeric
string below `2^32 - 1`). -/
def arrayIndex (key : String) : Option ℕ :=
  match key.toNat? with
  | some n => if toString n = key ∧ n < 4294967295 then some n else none
  | none => none

/-- The call `Object.entries(wordCount)`: the array-index keys in ascending order, then
the other keys in the order of their creation. -/
def objectEntries (wordCount : List (String × WordTally)) : List (String × WordTally) :=
  ((wordCount.filterMap (fun e => (arrayIndex e.1).map (fun n => (n, e)))).insertionSort
      (fun a b => a.1 ≤ b.1)).map Prod.snd
    ++ wordCount.filter (fun e => (arrayIndex e.1).isNone)

/-- The object `{ score, issues }` returned by `assessLanguageQuality`. -/
structure LanguageQuality where
  score : ℚ
  issues : List String
  deriving DecidableEq

/-- The method `assessLanguageQuality`.  The vowel ratio of the empty text is `NaN`,
which is not below 0.2. -/
def assessLanguageQuality (E : TextEngine) (text : String) : LanguageQuality :=
  let words := splitSpaces (E.toLowerCase text).toList
  let wordCount : List (String × WordTally) :=
    words.foldl (fun wc word => if utf16Length word > 3 then tally wc (String.mk word) else wc) []
  let s1 : ℚ × List String :=
    (objectEntries wordCount).foldl (fun acc e =>
      match e.2 with
      | .count n =>
        if n > 3 then
          (acc.1 - 5, acc.2 ++ ["Répétition excessive: \"" ++ e.1 ++ "\" (" ++ toString n ++ " fois)"])
        else acc
      | .text => acc) (100, [])
  let vowels : ℕ := text.toList.countP isVowel
  let s2 : ℚ × List String :=
    if utf16Length text.toList ≠ 0 ∧
        (vowels : ℚ) / (utf16Length text.toList : ℚ) < 1 / 5 then
      (s1.1 - 20, s1.2 ++ ["Ratio de voyelles anormalement bas"])
    else s1
  { score := max 0 s2.1, issues := s2.2 }

/-- An entry of the array returned by `detectContactAttempts`. -/
structure ContactAttempt where
  type : String
  count : ℕ
  /-- The field `matches`. -/
  matches_ : List String
  deriving DecidableEq

/-- The array `contactPatterns`, as (type, source, flags). -/
def contactPatterns : List (String × String × String) :=
  [("phone", "(?:tel|téléphone|appel|appelle)", "gi"), ("sms", "(?:sms|texto|message)", "gi"),
   ("email", "(?:mail|email|e-mail)", "gi"), ("social", "(?:facebook|instagram|snap)", "gi"),
   ("messaging", "(?:whatsapp|telegram|signal)", "gi")]

/-- The method `detectContactAttempts`. -/
def detectContactAttempts (E : TextEngine) (text : String) : List ContactAttempt :=
  contactPatterns.filterMap (fun pattern =>
    let found := E.matchAll pattern.2.1 pattern.2.2 text
    if found.length = 0 then none
    else some { type := pattern.1, count := found.length, matches_ := found })

/-- An entry `{ keyword, count }` of a keyword extraction. -/
structure KeywordCount where
  keyword : String
  count : ℕ
  deriving DecidableEq

/-- The loop shared by `extractPriceKeywords` and `extractLocationKeywords`:
`new RegExp(keyword, 'gi')` for each keyword of a fixed list. -/
def extractKeywords (E : TextEngine) (keywords : List String) (text : String) :
    List KeywordCount :=
  keywords.filterMap (fun keyword =>
    let found := E.matchAll keyword "gi" text
    if found.length = 0 then none
    else some { keyword := keyword, count := found.length })

/-- The array `priceKeywords`. -/
def priceKeywords : List String :=
  ["négociable", "débattable", "ferme", "fixe", "bradé", "sacrifié",
   "liquidation", "affaire", "occasion", "bon prix", "pas cher",
   "gratuit", "offert", "cadeau", "bonus"]

/-- The method `extractPriceKeywords`. -/
def extractPriceKeywords (E : TextEngine) (text : String) : List KeywordCount :=
  extractKeywords E priceKeywords text

/-- The array `locationKeywords`. -/
def locationKeywords : List String :=
  ["région", "secteur", "alentours", "environ", "proche", "loin",
   "déplacement", "livraison", "expédition", "envoi", "poste",
   "remise", "rdv", "rendez-vous"]

/-- The method `extractLocationKeywords`. -/
def extractLocationKeywords (E : TextEngine) (text : String) : List KeywordCount :=
  extractKeywords E locationKeywords text

/-- The object returned by `analyzeText`. -/
structure TextAnalysis where
  originalText : String
  cleanText : String
  length : ℕ
  wordCount : ℕ
  sentences : Sentences
  urgencyScore : IndicatorScore
  emotionalScore : IndicatorScore
  suspiciousPatterns : List SuspiciousPattern
  readabilityScore : ℚ
  languageQuality : LanguageQuality
  contactAttempts : List ContactAttempt
  priceKeywords : List KeywordCount
  locationKeywords : List KeywordCount
  deriving DecidableEq

/-- The method `getEmptyAnalysis`. -/
def getEmptyAnalysis : TextAnalysis :=
  { originalText := "", cleanText := "", length := 0, wordCount := 0,
    sentences := { count := 0, avgLength := 0, sentences := [] },
    urgencyScore := { score := 0, matches_ := [] },
    emotionalScore := { score := 0, matches_ := [] },
    suspiciousPatterns := [], readabilityScore := 0,
    languageQuality := { score := 0, issues := [] },
    contactAttempts := [], priceKeywords := [], locationKeywords := [] }

/-- The method `analyzeText`.  The argument is `none` when it is not a string. -/
def analyzeText (E : TextEngine) (text : Option String) : TextAnalysis :=
  match text with
  | none => getEmptyAnalysis
  | some text =>
    if text = "" then getEmptyAnalysis
    else
      let cleanText := preprocessText E text
      { originalText := text,
        cleanText := cleanText,
        length := utf16Length text.toList,
        wordCount := countWords cleanText,
        sentences := getSentences text,
        urgencyScore := calculateUrgencyScore E text,
        emotionalScore := calculateEmotionalScore E text,
        suspiciousPatterns := detectSuspiciousPatterns E text,
        readabilityScore := calculateReadabilityScore cleanText,
        languageQuality := assessLanguageQuality E text,
        contactAttempts := detectContactAttempts E text,
        priceKeywords := extractPriceKeywords E text,
        locationKeywords := extractLocationKeywords E text }

/-- The table `weights` of `calculateOverallRisk`. -/
def patternWeights : List (String × ℚ) := [("high", 10), ("medium", 5), ("low", 2)]

/-- The method `calculateOverallRisk`; `Math.min(100, NaN)` is `NaN`. -/
def calculateOverallRisk (analysis : TextAnalysis) : JSVal :=
  let r0 : JSVal := .num 0
  let r1 := r0.add (.num (analysis.urgencyScore.score * 2))
  let r2 := r1.add (.num (analysis.emotionalScore.score * (3 / 2)))
  let r3 := analysis.suspiciousPatterns.foldl (fun riskScore pattern =>
    riskScore.add ((getProperty patternWeights pattern.risk).toVal.mul (.num (pattern.count : ℚ))))
    r2
  let r4 := r3.add (.num ((100 - analysis.languageQuality.score) * (3 / 10)))
  let r5 := r4.add (.num ((analysis.contactAttempts.length : ℚ) * 5))
  match r5 with
  | .num q => .num (min 100 q)
  | .nonNum => .nonNum

end TextAnalyzer

/-! ## Inputs used in the examples of the last properties -/

/-- An engine for which the pattern `(` is not a regular expression (the constructor
throws) and every other pattern compiles and does not match. -/
def strictEngine : Engine :=
  { toLowerCase := asciiLower,
    regexMatches := fun pattern _ => if pattern = "(" then none else some 0 }

/-- A pattern document whose one pattern, `(`, is not a regular expression. -/
def brokenPatterns : PatternTable :=
  [("broken", { pattern := "(", risk_level := "high", description := "unbalanced" })]

/-- A load that delivers an empty keyword document and the pattern document above. -/
def brokenLoad : LoadOutcome :=
  { fetched := true, keywords := some [],
    patterns := some { text_patterns := some brokenPatterns } }

/-- A text engine with the lowercasing of `A` to `Z` only and regular expressions that
never match. -/
def quietTextEngine : TextAnalyzer.TextEngine :=
  { toLowerCase := asciiLower, matchAll := fun _ _ _ => [] }

/-- A text of 21 words that ends with a full stop. -/
def punctuatedText : String := "a b c d e f g h i j k l m n o p q r s t u."

/-- A text with accented letters, a comma and digits. -/
def accentedText : String := "Vélo à vendre, été 2024"

/-- A short text with no word of urgency, no contact and enough vowels. -/
def calmText : String := "bon sac a dos"

/-- An ad at 300 in `vehicules` with one photo and no location, from a seller with a
5-day-old account, no review and 8 similar items; no word of its text is a keyword of
the example keyword document. -/
def worstQuietAd : AdData :=
  { title := "voiture", description := "bon etat", price := some 300, location := none,
    category := "vehicules", photosCount := 1,
    seller := some { reviewCount := some 0, accountAge := some 5, similarItemsCount := some 8 } }

/-! ## The content script (`src/content/content.js`) -/

namespace LeBonScamContent

/-- An ad element, as the content script reads it. -/
structure AdElement where
  /-- The `textContent` of the element that `querySelector(selector)` returns, and
  `none` when it returns `null`. -/
  querySelector : String → Option String
  /-- The length of the list that `querySelectorAll(selector)` returns. -/
  querySelectorAll : String → ℕ

/-- The object `data` built by `extractAdData`: the ad record and its `timestamp`. -/
structure ScrapedAd extends AdData where
  timestamp : ℕ
  deriving DecidableEq

/-- The method `extractTextBySelectors`: the trimmed text of the first selector that
finds an element, or `null`. -/
def extractTextBySelectors (element : AdElement) : List String → Option String
  | [] => none
  | selector :: selectors =>
    match element.querySelector selector with
    | some textContent => some (String.mk (TextAnalyzer.trim textContent.toList))
    | none => extractTextBySelectors element selectors

/-- The method `extractTitle`. -/
def extractTitle (adElement : AdElement) : Option String :=
  extractTextBySelectors adElement
    ["[data-qa-id=\"aditem_title\"]", ".styles_adCard__title", "h2", ".cardTitle",
     "[data-testid=\"ad-title\"]"]

/-- The method `extractDescription`: a `null` or empty text becomes the empty string. -/
def extractDescription (adElement : AdElement) : String :=
  (extractTextBySelectors adElement
    ["[data-qa-id=\"aditem_description\"]", ".styles_adCard__description", ".cardDescription",
     "[data-testid=\"ad-description\"]"]).getD ""

/-- The greedy match of `\d+(?:\s?\d+)*` at the head of a text that starts with a
digit: digits, and single spaces that a digit follows. -/
def priceRun : List Char → List Char
  | [] => []
  | c :: rest =>
    if c.isDigit then c :: priceRun rest
    else if TextAnalyzer.isSpaceChar c then
      match rest with
      | d :: _ => if d.isDigit then c :: priceRun rest else []
      | [] => []
    else []

/-- The group 1 of `priceText.match(/(\d+(?:\s?\d+)*)/)`: the match starts at the first
digit of the text; `none` when there is no digit. -/
def priceMatch (priceText : List Char) : Option (List Char) :=
  match priceText.dropWhile (fun c => !c.isDigit) with
  | [] => none
  | c :: rest => some (priceRun (c :: rest))

/-- The call `parseInt` on a text of decimal digits, as an exact number. -/
def parseInt (digits : List Char) : ℕ :=
  digits.foldl (fun n c => 10 * n + (c.toNat - '0'.toNat)) 0

/-- The method `extractPrice`. -/
def extractPrice (adElement : AdElement) : Option ℚ :=
  match extractTextBySelectors adElement
      ["[data-qa-id=\"aditem_price\"]", ".styles_adCard__price", ".cardPrice",
       "[data-testid=\"ad-price\"]"] with
  | none => none
  | some priceText =>
    if priceText = "" then none
    else
      match priceMatch priceText.toList with
      | some group =>
        some ((parseInt (group.filter (fun c => !TextAnalyzer.isSpaceChar c)) : ℕ) : ℚ)
      | none => none

/-- The method `extractLocation`. -/
def extractLocation (adElement : AdElement) : Option String :=
  extractTextBySelectors adElement
    ["[data-qa-id=\"aditem_location\"]", ".styles_adCard__location", ".cardLocation",
     "[data-testid=\"ad-location\"]"]

/-- The group 1 of `urlPath.match(/\/([^\/]+)\//)`: the first non-empty run without a
slash that stands between two slashes. -/
def categoryMatch : List Char → Option (List Char)
  | [] => none
  | c :: rest =>
    if c = '/' ∧ rest.takeWhile (fun d => d ≠ '/') ≠ [] ∧ rest.dropWhile (fun d => d ≠ '/') ≠ []
    then some (rest.takeWhile (fun d => d ≠ '/'))
    else categoryMatch rest

/-- The method `getCategoryFromUrl`, on the value of `window.location.pathname`. -/
def getCategoryFromUrl (pathname : String) : Option String :=
  (categoryMatch pathname.toList).map String.mk

/-- The method `extractCategory`. -/
def extractCategory (pathname : String) (adElement : AdElement) : String :=
  match getCategoryFromUrl pathname with
  | some categoryFromUrl => categoryFromUrl
  | none =>
    match extractTextBySelectors adElement
        ["[data-qa-id=\"aditem_category\"]", ".styles_adCard__category", ".cardCategory"] with
    | some text => if text = "" then "unknown" else text
    | none => "unknown"

/-- The method `extractPhotosCount`. -/
def extractPhotosCount (adElement : AdElement) : ℕ :=
  adElement.querySelectorAll "img, [data-qa-id=\"aditem_image\"]"

/-- The method `extractSellerInfo`. -/
def extractSellerInfo (adElement : AdElement) : SellerData :=
  { name := extractTextBySelectors adElement ["[data-qa-id=\"aditem_seller\"]"],
    reviewCount := some 0,
    accountAge := none,
    similarItemsCount := some 0 }

/-- The method `extractAdData`, with the values of `window.location.pathname` and of
`Date.now()`: `none` is the result `null`, returned when the title is `null` or empty. -/
def extractAdData (pathname : String) (now : ℕ) (adElement : AdElement) : Option ScrapedAd :=
  let title := extractTitle adElement
  let description := extractDescription adElement
  let price := extractPrice adElement
  let location := extractLocation adElement
  let category := extractCategory pathname adElement
  let photosCount := extractPhotosCount adElement
  let seller := extractSellerInfo adElement
  match title with
  | none => none
  | some title =>
    if title = "" then none
    else
      some { title := title, description := description, price := price, location := location,
             category := category, photosCount := photosCount, seller := some seller,
             timestamp := now }

/-- An ad element with a title, a price, two images and a seller name. -/
def exampleElement : AdElement :=
  { querySelector := fun selector =>
      if selector = "h2" then some " Velo de course "
      else if selector = ".cardPrice" then some "1 200 €"
      else if selector = "[data-qa-id=\"aditem_seller\"]" then some "Camille"
      else none,
    querySelectorAll := fun _ => 2 }

end LeBonScamContent

/-! ## Lemmas -/

theorem determineRiskLevel_num (s : ℚ) :
    determineRiskLevel (.num s) =
      if 60 ≤ s then "high" else if 30 ≤ s then "medium" else "low" := by
  simp [determineRiskLevel, JSVal.ge]

theorem analyzeAd_riskLevel (self : RiskAnalyzer) (load : LoadOutcome) (E : Engine) (now : ℕ)
    (adData : AdData) (a : Assessment) (h : (analyzeAd self load E now adData).2 = .ok a) :
    a.riskLevel = determineRiskLevel a.riskScore := by
  unfold analyzeAd at h
  simp only at h
  split at h
  · simp at h
  · split at h
    · split at h
      · simp at h
      · simp only [Except.ok.injEq] at h
        subst h
        rfl
    · simp at h

theorem sameThreat_self (t : Threat) : sameThreat t t = true := by
  simp [sameThreat]

theorem findIndex_append_cons (pre ts : List Threat) (t : Threat) :
    (findIndex (sameThreat t) (pre ++ t :: ts) == (pre.length : ℤ)) = !pre.any (sameThreat t) := by
  unfold findIndex
  rw [List.findIdx_append]
  by_cases h : pre.any (sameThreat t) = true
  · have h1 : List.findIdx (sameThreat t) pre < pre.length := by
      rw [List.findIdx_lt_length]
      simpa using h
    have h2 : List.findIdx (sameThreat t) pre < (pre ++ t :: ts).length := by
      rw [List.length_append]
      omega
    rw [if_pos h1, if_pos h2, h]
    have h3 : ((List.findIdx (sameThreat t) pre : ℕ) : ℤ) ≠ (pre.length : ℤ) := by omega
    simpa using h3
  · have h1 : ¬ List.findIdx (sameThreat t) pre < pre.length := by
      rw [List.findIdx_lt_length]
      simpa using h
    have h0 : pre.any (sameThreat t) = false := by simpa using h
    rw [if_neg h1, List.findIdx_cons, sameThreat_self, cond_true, h0]
    have h2 : 0 + pre.length < (pre ++ t :: ts).length := by
      rw [List.length_append, List.length_cons]
      omega
    rw [if_pos h2]
    simp

theorem uniqueThreats_aux (pre suf : List Threat) :
    ((List.enumFrom pre.length suf).filter
        (fun it => findIndex (sameThreat it.2) (pre ++ suf) == (it.1 : ℤ))).map Prod.snd
      = keepFirst pre suf := by
  induction suf generalizing pre with
  | nil => simp [keepFirst]
  | cons t ts ih =>
    have ih2 := ih (pre ++ [t])
    simp only [List.length_append, List.length_singleton, List.append_assoc,
      List.singleton_append] at ih2
    simp only [List.enumFrom_cons, List.filter_cons, findIndex_append_cons, keepFirst]
    by_cases h : pre.any (sameThreat t) = true
    · simp only [h, Bool.not_true, Bool.false_eq_true, if_false, if_true]
      exact ih2
    · simp only [h, Bool.not_false, if_true, if_false, List.map_cons]
      simp only [Bool.not_eq_true] at h
      simp only [h, Bool.not_false, if_true, List.map_cons, Bool.false_eq_true, if_false]
      rw [ih2]

theorem uniqueThreats_eq (all : List Threat) : uniqueThreats all = keepFirst [] all := by
  have := uniqueThreats_aux [] all
  simpa [uniqueThreats, filterIndexed, List.enum] using this


theorem keepFirst_sublist (seen l : List Threat) : (keepFirst seen l).Sublist l := by
  induction l generalizing seen with
  | nil => simp [keepFirst]
  | cons t ts ih =>
    unfold keepFirst
    split
    · exact List.Sublist.cons _ (ih _)
    · exact List.Sublist.cons₂ _ (ih _)

theorem sameThreat_iff (t s : Threat) :
    sameThreat t s = true ↔ s.type = t.type ∧ s.reason = t.reason := by
  simp [sameThreat]

theorem keepFirst_distinct (seen l : List Threat) :
    (∀ x ∈ keepFirst seen l, ∀ s ∈ seen, ¬ (s.type = x.type ∧ s.reason = x.reason)) ∧
    (keepFirst seen l).Pairwise (fun a b => ¬ (a.type = b.type ∧ a.reason = b.reason)) := by
  induction l generalizing seen with
  | nil => simp [keepFirst]
  | cons t ts ih =>
    obtain ⟨ih1, ih2⟩ := ih (seen ++ [t])
    unfold keepFirst
    split
    · refine ⟨fun x hx s hs => ih1 x hx s (List.mem_append_left _ hs), ih2⟩
    · rename_i hany
      have hany2 : ∀ s ∈ seen, ¬ (s.type = t.type ∧ s.reason = t.reason) := by
        intro s hs hk
        apply hany
        rw [List.any_eq_true]
        exact ⟨s, hs, (sameThreat_iff t s).mpr hk⟩
      refine ⟨?_, ?_⟩
      · intro x hx s hs
        rcases List.mem_cons.mp hx with rfl | hx
        · exact hany2 s hs
        · exact ih1 x hx s (List.mem_append_left _ hs)
      · rw [List.pairwise_cons]
        refine ⟨fun x hx => ih1 x hx t (by simp), ih2⟩

theorem mem_sortInsert {α : Type} (cmp : α → α → JSVal) (x z : α) (l : List α) :
    z ∈ sortInsert cmp x l ↔ z = x ∨ z ∈ l := by
  induction l with
  | nil => simp [sortInsert]
  | cons y ys ih =>
    unfold sortInsert
    split
    · simp
    · simp only [List.mem_cons, ih]
      tauto

theorem sortInsert_perm {α : Type} (cmp : α → α → JSVal) (x : α) (l : List α) :
    (sortInsert cmp x l).Perm (x :: l) := by
  induction l with
  | nil => simp [sortInsert]
  | cons y ys ih =>
    unfold sortInsert
    split
    · exact List.Perm.refl _
    · exact ((List.Perm.cons y ih).trans (List.Perm.swap x y ys))

theorem foldl_sortInsert_perm {α : Type} (cmp : α → α → JSVal) (l acc : List α) :
    (l.foldl (fun acc x => sortInsert cmp x acc) acc).Perm (acc ++ l) := by
  induction l generalizing acc with
  | nil => simp
  | cons x xs ih =>
    simp only [List.foldl_cons]
    refine (ih _).trans ?_
    refine ((sortInsert_perm cmp x acc).append_right xs).trans ?_
    simpa using (List.perm_middle : (acc ++ x :: xs).Perm (x :: (acc ++ xs))).symm

theorem sort_perm {α : Type} (cmp : α → α → JSVal) (l : List α) : (sort cmp l).Perm l := by
  simpa [sort] using foldl_sortInsert_perm cmp l []

theorem tierRank_valid (level : String) (h : level ∈ ["low", "medium", "high"]) :
    getProperty riskOrder level = .own (tierRank level) := by
  simp only [List.mem_cons, List.mem_singleton, List.not_mem_nil, or_false] at h
  rcases h with rfl | rfl | rfl <;> simp [getProperty, riskOrder, List.lookup, tierRank]

theorem compareThreats_neg_iff (x y : Threat) (hx : x.riskLevel ∈ ["low", "medium", "high"])
    (hy : y.riskLevel ∈ ["low", "medium", "high"]) :
    (match compareThreats x y with
      | .num v => decide (v < 0)
      | .nonNum => false) = true ↔ tierRank y.riskLevel < tierRank x.riskLevel := by
  simp only [compareThreats, tierRank_valid _ hx, tierRank_valid _ hy, Property.toVal, JSVal.sub]
  simp

theorem sortInsert_cons_valid (x y : Threat) (ys : List Threat)
    (hx : x.riskLevel ∈ ["low", "medium", "high"]) (hy : y.riskLevel ∈ ["low", "medium", "high"]) :
    sortInsert compareThreats x (y :: ys) =
      if tierRank y.riskLevel < tierRank x.riskLevel then x :: y :: ys
      else y :: sortInsert compareThreats x ys := by
  have h := compareThreats_neg_iff x y hx hy
  rw [sortInsert]
  by_cases hlt : tierRank y.riskLevel < tierRank x.riskLevel
  · rw [if_pos (h.mpr hlt), if_pos hlt]
  · rw [if_neg (fun hc => hlt (h.mp hc)), if_neg hlt]

theorem sortInsert_sorted (x : Threat) (l : List Threat)
    (hx : x.riskLevel ∈ ["low", "medium", "high"])
    (hl : ∀ t ∈ l, t.riskLevel ∈ ["low", "medium", "high"])
    (hs : l.Pairwise (fun a b => tierRank b.riskLevel ≤ tierRank a.riskLevel)) :
    (sortInsert compareThreats x l).Pairwise
      (fun a b => tierRank b.riskLevel ≤ tierRank a.riskLevel) := by
  induction l with
  | nil => simp [sortInsert]
  | cons y ys ih =>
    have hy := hl y (List.mem_cons_self _ _)
    have hys : ∀ t ∈ ys, t.riskLevel ∈ ["low", "medium", "high"] :=
      fun t ht => hl t (List.mem_cons_of_mem _ ht)
    rw [List.pairwise_cons] at hs
    rw [sortInsert_cons_valid x y ys hx hy]
    split
    · rename_i hlt
      rw [List.pairwise_cons]
      refine ⟨?_, List.pairwise_cons.mpr hs⟩
      intro z hz
      rcases List.mem_cons.mp hz with rfl | hz
      · exact Nat.le_of_lt hlt
      · exact le_trans (hs.1 z hz) (Nat.le_of_lt hlt)
    · rename_i hge
      rw [List.pairwise_cons]
      refine ⟨?_, ih hys hs.2⟩
      intro z hz
      rcases (mem_sortInsert compareThreats x z ys).mp hz with rfl | hz
      · exact Nat.le_of_not_lt hge
      · exact hs.1 z hz

theorem sortInsert_filter (x : Threat) (l : List Threat) (p : Threat → Bool)
    (hp : ∀ a b, p a = true → p b = true → tierRank a.riskLevel = tierRank b.riskLevel)
    (hx : x.riskLevel ∈ ["low", "medium", "high"])
    (hl : ∀ t ∈ l, t.riskLevel ∈ ["low", "medium", "high"])
    (hs : l.Pairwise (fun a b => tierRank b.riskLevel ≤ tierRank a.riskLevel)) :
    (sortInsert compareThreats x l).filter p = l.filter p ++ [x].filter p := by
  induction l with
  | nil => simp [sortInsert]
  | cons y ys ih =>
    have hy := hl y (List.mem_cons_self _ _)
    have hys : ∀ t ∈ ys, t.riskLevel ∈ ["low", "medium", "high"] :=
      fun t ht => hl t (List.mem_cons_of_mem _ ht)
    rw [List.pairwise_cons] at hs
    rw [sortInsert_cons_valid x y ys hx hy]
    split
    · rename_i hlt
      by_cases hpx : p x = true
      · have hnone : (y :: ys).filter p = [] := by
          rw [List.filter_eq_nil_iff]
          intro z hz hpz
          have := hp z x hpz hpx
          rcases List.mem_cons.mp hz with rfl | hz
          · omega
          · have := hs.1 z hz
            omega
        rw [hnone, List.filter_cons, if_pos hpx, hnone]
        simp [hpx]
      · simp [List.filter_cons, hpx]
    · rw [List.filter_cons, ih hys hs.2]
      by_cases hpy : p y = true
      · simp [List.filter_cons, hpy]
      · simp [List.filter_cons, hpy]

theorem foldl_sortInsert_spec (l acc : List Threat) (p : Threat → Bool)
    (hp : ∀ a b, p a = true → p b = true → tierRank a.riskLevel = tierRank b.riskLevel)
    (hacc : ∀ t ∈ acc, t.riskLevel ∈ ["low", "medium", "high"])
    (hl : ∀ t ∈ l, t.riskLevel ∈ ["low", "medium", "high"])
    (hs : acc.Pairwise (fun a b => tierRank b.riskLevel ≤ tierRank a.riskLevel)) :
    (l.foldl (fun acc x => sortInsert compareThreats x acc) acc).Pairwise
        (fun a b => tierRank b.riskLevel ≤ tierRank a.riskLevel) ∧
    (l.foldl (fun acc x => sortInsert compareThreats x acc) acc).filter p
      = acc.filter p ++ l.filter p := by
  induction l generalizing acc with
  | nil => simpa using hs
  | cons x xs ih =>
    have hx := hl x (List.mem_cons_self _ _)
    have hxs : ∀ t ∈ xs, t.riskLevel ∈ ["low", "medium", "high"] :=
      fun t ht => hl t (List.mem_cons_of_mem _ ht)
    have hacc2 : ∀ t ∈ sortInsert compareThreats x acc,
        t.riskLevel ∈ ["low", "medium", "high"] := by
      intro t ht
      rcases (mem_sortInsert compareThreats x t acc).mp ht with rfl | ht
      · exact hx
      · exact hacc t ht
    obtain ⟨h1, h2⟩ := ih (sortInsert compareThreats x acc) hacc2 hxs
      (sortInsert_sorted x acc hx hacc hs)
    refine ⟨h1, ?_⟩
    rw [List.foldl_cons, h2, sortInsert_filter x acc p hp hx hacc hs]
    simp [List.filter_cons]
    split <;> simp
theorem descriptor_eq_reason (a b : Threat) (h : descriptor a = descriptor b) :
    a.reason = b.reason := by
  unfold descriptor at h
  split at h <;> split at h <;> simp_all

theorem mem_allThreats (analyses : List PartialResult) (t : Threat) :
    t ∈ allThreats analyses ↔ ∃ p ∈ analyses, t ∈ p.threats := by
  simp [allThreats, List.mem_flatMap]

theorem sort_uniqueThreats_spec (analyses : List PartialResult)
    (h : ∀ p ∈ analyses, ∀ t ∈ p.threats, t.riskLevel ∈ ["low", "medium", "high"])
    (level : String) :
    (consolidateThreats analyses).Pairwise
        (fun a b => tierRank b.riskLevel ≤ tierRank a.riskLevel) ∧
    (consolidateThreats analyses).filter (fun t => t.riskLevel == level)
      = (uniqueThreats (allThreats analyses)).filter (fun t => t.riskLevel == level) := by
  have hu : ∀ t ∈ uniqueThreats (allThreats analyses),
      t.riskLevel ∈ ["low", "medium", "high"] := by
    intro t ht
    rw [uniqueThreats_eq] at ht
    obtain ⟨p, hp, htp⟩ := (mem_allThreats analyses t).mp ((keepFirst_sublist _ _).subset ht)
    exact h p hp t htp
  have := foldl_sortInsert_spec (uniqueThreats (allThreats analyses)) []
    (fun t => t.riskLevel == level)
    (fun a b ha hb => by
      simp only [beq_iff_eq] at ha hb
      rw [ha, hb])
    (by simp) hu List.Pairwise.nil
  simpa [consolidateThreats, sort] using this

theorem sourceWeight_eq (source : String) (h : source ∉ objectPrototypeKeys) :
    (getProperty sourceWeights source).orElse (1 / 10) = .num (specWeight source) := by
  unfold getProperty sourceWeights specWeight
  by_cases h1 : source = "text"
  · subst h1; simp [List.lookup, Property.orElse]
  by_cases h2 : source = "price"
  · subst h2; simp [List.lookup, Property.orElse]
  by_cases h3 : source = "seller"
  · subst h3; simp [List.lookup, Property.orElse]
  by_cases h4 : source = "behavior"
  · subst h4; simp [List.lookup, Property.orElse]
  by_cases h5 : source = "pattern"
  · subst h5; simp [List.lookup, Property.orElse]
  have b1 : (source == "text") = false := by simpa using h1
  have b2 : (source == "price") = false := by simpa using h2
  have b3 : (source == "seller") = false := by simpa using h3
  have b4 : (source == "behavior") = false := by simpa using h4
  have b5 : (source == "pattern") = false := by simpa using h5
  simp [List.lookup, h1, h2, h3, h4, h5, b1, b2, b3, b4, b5, h, Property.orElse]

theorem calculateFinalScore_foldl (l : List (ℚ × List Threat × String))
    (h : ∀ x ∈ l, x.2.2 ∉ objectPrototypeKeys) (acc : ℚ) :
    (l.map (fun x => ({ score := .num x.1, threats := x.2.1, type := x.2.2 } : PartialResult))).foldl
      (fun (total : JSVal) (analysis : PartialResult) =>
        total.add (analysis.score.mul ((getProperty sourceWeights analysis.type).orElse (1 / 10))))
      (.num acc)
    = .num (acc + (l.map (fun x => x.1 * specWeight x.2.2)).sum) := by
  induction l generalizing acc with
  | nil => simp
  | cons x xs ih =>
    have hx := h x (List.mem_cons_self _ _)
    have hxs : ∀ y ∈ xs, y.2.2 ∉ objectPrototypeKeys := fun y hy => h y (List.mem_cons_of_mem _ hy)
    simp only [List.map_cons, List.foldl_cons, sourceWeight_eq _ hx, List.sum_cons]
    have hstep : (JSVal.num acc).add ((JSVal.num x.1).mul (.num (specWeight x.2.2)))
        = .num (acc + x.1 * specWeight x.2.2) := rfl
    rw [hstep, ih hxs]
    congr 1
    ring

theorem calculateFinalScore_eq_sum (l : List (ℚ × List Threat × String))
    (h : ∀ x ∈ l, x.2.2 ∉ objectPrototypeKeys) :
    calculateFinalScore
      (l.map (fun x => ({ score := .num x.1, threats := x.2.1, type := x.2.2 } : PartialResult)))
    = .num ((l.map (fun x => x.1 * specWeight x.2.2)).sum) := by
  have := calculateFinalScore_foldl l h 0
  simpa [calculateFinalScore] using this

theorem jsRem_intCast (n : ℤ) (m : ℕ) : jsRem (n : ℚ) m = ((n.tmod m : ℤ) : ℚ) := by
  simp [jsRem]

theorem isPriceSuspiciouslyLow_iff (price : ℚ) (category : String)
    (hc : category ∉ objectPrototypeKeys) :
    isPriceSuspiciouslyLow price category = true ↔ price < categoryFloor category := by
  unfold isPriceSuspiciouslyLow getProperty suspiciousThresholds categoryFloor
  by_cases h1 : category = "informatique"
  · subst h1; simp [List.lookup, Property.orElse, JSVal.gtNum]
  by_cases h2 : category = "telephonie"
  · subst h2; simp [List.lookup, Property.orElse, JSVal.gtNum]
  by_cases h3 : category = "electromenager"
  · subst h3; simp [List.lookup, Property.orElse, JSVal.gtNum]
  by_cases h4 : category = "vehicules"
  · subst h4; simp [List.lookup, Property.orElse, JSVal.gtNum]
  have b1 : (category == "informatique") = false := by simpa using h1
  have b2 : (category == "telephonie") = false := by simpa using h2
  have b3 : (category == "electromenager") = false := by simpa using h3
  have b4 : (category == "vehicules") = false := by simpa using h4
  simp [List.lookup, h1, h2, h3, h4, b1, b2, b3, b4, hc, Property.orElse, JSVal.gtNum]

theorem isPriceSuspiciouslyLow_inherited (price : ℚ) (category : String)
    (hc : category ∈ objectPrototypeKeys) : isPriceSuspiciouslyLow price category = false := by
  have hl : suspiciousThresholds.lookup category = none := by
    simp only [objectPrototypeKeys, List.mem_cons, List.mem_singleton, List.not_mem_nil,
      or_false] at hc
    rcases hc with h | h | h | h | h | h | h | h | h | h | h | h <;> subst h <;> rfl
  simp [isPriceSuspiciouslyLow, getProperty, hl, hc, Property.orElse, JSVal.gtNum]

theorem isPriceSuspiciouslyLow_imp (price : ℚ) (category : String)
    (h : isPriceSuspiciouslyLow price category = true) : price < categoryFloor category := by
  by_cases hc : category ∈ objectPrototypeKeys
  · rw [isPriceSuspiciouslyLow_inherited price category hc] at h
    exact absurd h (by simp)
  · exact (isPriceSuspiciouslyLow_iff price category hc).mp h


/-- For a positive price and a category that is not a name inherited from
`Object.prototype`, the finding `price_too_low` is emitted exactly below the floor
of the category, and the score is the sum of the contributions of the three rules. -/
theorem analyzePrice_floor_rule (price : ℚ) (category : String) (hpos : 0 < price)
    (hc : category ∉ objectPrototypeKeys) :
    (priceTooLow ∈ (analyzePrice (some price) category).threats ↔ price < categoryFloor category) ∧
    (analyzePrice (some price) category).score
      = .num ((if jsRem price 100 = 0 ∧ price > 200 then 10 else 0)
          + (if jsRem price 100 = 99 ∨ jsRem price 100 = 95 then 5 else 0)
          + (if price < categoryFloor category then 50 else 0)) := by
  have hq : ¬ (price = 0 ∨ price ≤ 0) := by
    rintro (h | h) <;> linarith
  have hiff := isPriceSuspiciouslyLow_iff price category hc
  unfold analyzePrice
  simp only [hq, if_false]
  by_cases h1 : jsRem price 100 = 0 ∧ price > 200 <;>
  by_cases h2 : jsRem price 100 = 99 ∨ jsRem price 100 = 95 <;>
  by_cases h3 : price < categoryFloor category <;>
  simp [h1, h2, h3, hiff, priceTooLow]

theorem analyzeSeller_some (s : SellerData) :
    analyzeSeller (some s) =
      { score := .num
          ((if (match s.accountAge with
                | none => false
                | some age => decide (age ≠ 0) && decide (age < 30)) then 20 else 0)
           + (if s.reviewCount = some 0 then 15 else 0)
           + (if (match s.similarItemsCount with
                  | none => false
                  | some n => decide (n > 5)) then 30 else 0)),
        threats :=
          (if (match s.accountAge with
               | none => false
               | some age => decide (age ≠ 0) && decide (age < 30)) then [newAccount] else [])
          ++ (if s.reviewCount = some 0 then [noReviews] else [])
          ++ (if (match s.similarItemsCount with
                  | none => false
                  | some n => decide (n > 5)) then [multipleItems] else []),
        type := "seller" } := by
  unfold analyzeSeller
  simp only
  split_ifs <;> simp [newAccount, noReviews, multipleItems]

theorem analyzeSeller_newAccount_iff (s : SellerData) :
    newAccount ∈ (analyzeSeller (some s)).threats ↔
      ∃ age, s.accountAge = some age ∧ age ≠ 0 ∧ age < 30 := by
  rw [analyzeSeller_some]
  have hd : newAccount ≠ noReviews ∧ newAccount ≠ multipleItems := by decide
  rcases s with ⟨name, reviewCount, accountAge, similarItemsCount⟩
  rcases accountAge with _ | age
  · simp only
    split_ifs <;> simp_all
  · simp only
    split_ifs <;> simp_all

theorem analyzeBehavior_eq (E : Engine) (adData : AdData) :
    analyzeBehavior E adData =
      { score := .num ((if adData.photosCount = 1 then 15 else 0)
                        + (if isLocationVague E adData.location then 20 else 0)),
        threats := (if adData.photosCount = 1 then [singlePhoto] else [])
                    ++ (if isLocationVague E adData.location then [vagueLocation] else []),
        type := "behavior" } := by
  unfold analyzeBehavior
  simp only
  split_ifs <;> simp [singlePhoto, vagueLocation]

theorem isLocationVague_iff (E : Engine) (location : Option String) :
    isLocationVague E location = true ↔ LocationVague E location := by
  unfold isLocationVague LocationVague
  cases location with
  | none => simp
  | some loc =>
    by_cases h : loc = ""
    · simp [h]
    · simp [h, includes, List.any_eq_true]

theorem foldl_flatMap_eq {α β γ : Type} (f : α → List β) (g : γ → β → γ) (l : List α) (a : γ) :
    (l.flatMap f).foldl g a = l.foldl (fun a x => (f x).foldl g a) a := by
  induction l generalizing a with
  | nil => simp
  | cons x xs ih => simp [List.flatMap_cons, List.foldl_append, ih]

theorem getRiskWeight_tier (tier : String) (h : tier ∈ ["low", "medium", "high"]) :
    getRiskWeight tier = .num (tierWeight tier) := by
  simp only [List.mem_cons, List.mem_singleton, List.not_mem_nil, or_false] at h
  rcases h with rfl | rfl | rfl <;>
    simp [getRiskWeight, getProperty, riskWeights, List.lookup, Property.orElse, tierWeight]

theorem analyzeText_eq_foldl (E : Engine) (table : KeywordTable) (title description : String) :
    analyzeText E table title description =
      { score := ((keywordTriples table).foldl
                    (keywordStep E (E.toLowerCase (title ++ " " ++ description))) (.num 0, [])).1,
        threats := ((keywordTriples table).foldl
                    (keywordStep E (E.toLowerCase (title ++ " " ++ description))) (.num 0, [])).2,
        type := "text" } := by
  unfold analyzeText keywordTriples
  simp only [foldl_flatMap_eq, List.foldl_map]
  rfl

theorem foldl_keywordStep_threats (E : Engine) (fullText : String)
    (l : List (String × String × String)) (acc : JSVal × List Threat) :
    (l.foldl (keywordStep E fullText) acc).2
      = acc.2 ++ (l.filter (fun tr => includes fullText (E.toLowerCase tr.2.2))).map
          keywordFinding := by
  induction l generalizing acc with
  | nil => simp
  | cons x xs ih =>
    rw [List.foldl_cons, ih, List.filter_cons]
    unfold keywordStep
    split <;> simp

theorem foldl_keywordStep_score (E : Engine) (fullText : String)
    (l : List (String × String × String)) (q : ℚ) (ts : List Threat)
    (h : ∀ tr ∈ l.filter (fun tr => includes fullText (E.toLowerCase tr.2.2)),
      tr.2.1 ∈ ["low", "medium", "high"]) :
    (l.foldl (keywordStep E fullText) (.num q, ts)).1
      = .num (q + ((l.filter (fun tr => includes fullText (E.toLowerCase tr.2.2))).map
          (fun tr => tierWeight tr.2.1)).sum) := by
  induction l generalizing q ts with
  | nil => simp
  | cons x xs ih =>
    rw [List.foldl_cons]
    by_cases hx : includes fullText (E.toLowerCase x.2.2) = true
    · have hmem : x ∈ (x :: xs).filter (fun tr => includes fullText (E.toLowerCase tr.2.2)) := by
        simp [List.filter_cons, hx]
      have hxs : ∀ tr ∈ xs.filter (fun tr => includes fullText (E.toLowerCase tr.2.2)),
          tr.2.1 ∈ ["low", "medium", "high"] := by
        intro tr htr
        apply h
        rw [List.filter_cons, if_pos hx]
        exact List.mem_cons_of_mem _ htr
      have hstep : keywordStep E fullText (.num q, ts) x
          = (.num (q + tierWeight x.2.1), ts ++ [keywordFinding x]) := by
        simp only [keywordStep, hx, if_true, getRiskWeight_tier _ (h x hmem), JSVal.add]
      rw [hstep, ih _ _ hxs, List.filter_cons, if_pos hx, List.map_cons, List.sum_cons]
      congr 1
      ring
    · have hxs : ∀ tr ∈ xs.filter (fun tr => includes fullText (E.toLowerCase tr.2.2)),
          tr.2.1 ∈ ["low", "medium", "high"] := by
        intro tr htr
        apply h
        rw [List.filter_cons, if_neg hx]
        exact htr
      have hstep : keywordStep E fullText (.num q, ts) x = (.num q, ts) := by
        simp only [keywordStep, hx]
        simp
      rw [hstep, ih _ _ hxs, List.filter_cons, if_neg hx]

theorem analyzePatterns_eq_foldlM (E : Engine) (table : PatternTable) (adData : AdData) :
    analyzePatterns E table adData =
      (table.foldlM (patternStep E (E.toLowerCase (adData.title ++ " " ++ adData.description)))
        (.num 0, [])).map
        (fun acc => { score := acc.1, threats := acc.2, type := "pattern" }) := by
  rfl

theorem foldlM_patternStep (E : Engine) (fullText : String) (count : String × PatternData → ℕ)
    (l : PatternTable) (acc : JSVal × List Threat)
    (h : ∀ entry ∈ l, E.regexMatches entry.2.pattern fullText = some (count entry)) :
    l.foldlM (patternStep E fullText) acc =
      .ok ((l.filter (fun e => decide (0 < count e))).foldl
              (fun v e => v.add ((getRiskWeight e.2.risk_level).mul (.num (count e)))) acc.1,
           acc.2 ++ (l.filter (fun e => decide (0 < count e))).map
              (fun e => patternFinding e (count e))) := by
  induction l generalizing acc with
  | nil => simp [pure, Except.pure]
  | cons x xs ih =>
    have hx := h x (List.mem_cons_self _ _)
    have hxs : ∀ entry ∈ xs, E.regexMatches entry.2.pattern fullText = some (count entry) :=
      fun e he => h e (List.mem_cons_of_mem _ he)
    rw [List.foldlM_cons]
    cases hc : count x with
    | zero =>
      have hstep : patternStep E fullText acc x = .ok acc := by
        simp [patternStep, hx, hc, pure, Except.pure]
      rw [hstep]
      simp only [bind, Except.bind]
      rw [ih acc hxs, List.filter_cons]
      simp [hc]
    | succ n =>
      have hstep : patternStep E fullText acc x
          = .ok (acc.1.add ((getRiskWeight x.2.risk_level).mul (.num ((n + 1 : ℕ) : ℚ))),
                 acc.2 ++ [patternFinding x (n + 1)]) := by
        simp [patternStep, hx, hc, pure, Except.pure]
      rw [hstep]
      simp only [bind, Except.bind]
      rw [ih _ hxs, List.filter_cons]
      simp [hc]

theorem foldl_patternScore (count : String × PatternData → ℕ) (l : PatternTable) (q : ℚ)
    (h : ∀ e ∈ l, e.2.risk_level ∈ ["low", "medium", "high"]) :
    l.foldl (fun (v : JSVal) (e : String × PatternData) =>
        v.add ((getRiskWeight e.2.risk_level).mul (.num (count e)))) (.num q)
      = .num (q + (l.map (fun e => tierWeight e.2.risk_level * (count e : ℚ))).sum) := by
  induction l generalizing q with
  | nil => simp
  | cons x xs ih =>
    have hx := h x (List.mem_cons_self _ _)
    have hxs : ∀ e ∈ xs, e.2.risk_level ∈ ["low", "medium", "high"] :=
      fun e he => h e (List.mem_cons_of_mem _ he)
    rw [List.foldl_cons, getRiskWeight_tier _ hx]
    have hstep : (JSVal.num q).add ((JSVal.num (tierWeight x.2.risk_level)).mul (.num (count x)))
        = .num (q + tierWeight x.2.risk_level * (count x : ℚ)) := rfl
    rw [hstep, ih _ hxs, List.map_cons, List.sum_cons]
    congr 1
    ring

theorem analyzeAd_loaded (keywords : KeywordTable) (patterns : PatternTable) (load : LoadOutcome)
    (E : Engine) (now : ℕ) (adData : AdData) (pr : PartialResult)
    (h : analyzePatterns E patterns adData = .ok pr) :
    ∃ a, (analyzeAd (RiskAnalyzer.loaded keywords patterns) load E now adData).2 = .ok a ∧
      a.riskScore = calculateFinalScore
        [analyzeText E keywords adData.title adData.description,
         analyzePrice adData.price adData.category, analyzeSeller adData.seller,
         analyzeBehavior E adData, pr] ∧
      a.riskLevel = determineRiskLevel a.riskScore ∧
      a.detectedThreats = consolidateThreats
        [analyzeText E keywords adData.title adData.description,
         analyzePrice adData.price adData.category, analyzeSeller adData.seller,
         analyzeBehavior E adData, pr] ∧
      a.timestamp = now := by
  have h1 : ∃ a, (analyzeAd (RiskAnalyzer.loaded keywords patterns) load E now adData).2
      = .ok a ∧ a.riskScore = calculateFinalScore
        [analyzeText E keywords adData.title adData.description,
         analyzePrice adData.price adData.category, analyzeSeller adData.seller,
         analyzeBehavior E adData, pr] ∧
      a.detectedThreats = consolidateThreats
        [analyzeText E keywords adData.title adData.description,
         analyzePrice adData.price adData.category, analyzeSeller adData.seller,
         analyzeBehavior E adData, pr] ∧
      a.timestamp = now := by
    unfold analyzeAd
    simp only [RiskAnalyzer.loaded, Bool.not_true, Bool.false_eq_true, if_false]
    split
    · rename_i e he
      rw [h] at he
      exact absurd he (by simp)
    · rename_i pr2 he
      rw [h] at he
      simp only [Except.ok.injEq] at he
      subst he
      exact ⟨_, rfl, rfl, rfl, rfl⟩
  obtain ⟨a, ha, h2, h3, h4⟩ := h1
  exact ⟨a, ha, h2, analyzeAd_riskLevel _ _ _ _ _ a ha, h3, h4⟩

theorem mem_keepFirst (t : Threat) (l seen : List Threat) (ht : t ∈ l)
    (hseen : ∀ s ∈ seen, ¬ (s.type = t.type ∧ s.reason = t.reason))
    (huniq : ∀ s ∈ l, s.type = t.type → s.reason = t.reason → s = t) :
    t ∈ keepFirst seen l := by
  induction l generalizing seen with
  | nil => simp at ht
  | cons x xs ih =>
    have hxs : ∀ s ∈ xs, s.type = t.type → s.reason = t.reason → s = t :=
      fun s hs => huniq s (List.mem_cons_of_mem _ hs)
    by_cases hx : x = t
    · subst hx
      have hany : ¬ (seen.any (sameThreat x) = true) := by
        rw [List.any_eq_true]
        rintro ⟨s, hs, hk⟩
        exact hseen s hs ((sameThreat_iff x s).mp hk)
      rw [keepFirst, if_neg hany]
      exact List.mem_cons_self _ _
    · have htx : t ∈ xs := by
        rcases List.mem_cons.mp ht with h | h
        · exact absurd h.symm hx
        · exact h
      have hkey : ¬ (x.type = t.type ∧ x.reason = t.reason) :=
        fun hk => hx (huniq x (List.mem_cons_self _ _) hk.1 hk.2)
      have hseen2 : ∀ s ∈ seen ++ [x], ¬ (s.type = t.type ∧ s.reason = t.reason) := by
        intro s hs
        rcases List.mem_append.mp hs with h | h
        · exact hseen s h
        · rw [List.mem_singleton] at h
          subst h
          exact hkey
      have := ih (seen ++ [x]) htx hseen2 hxs
      rw [keepFirst]
      split
      · exact this
      · exact List.mem_cons_of_mem _ this

theorem mem_consolidateThreats (analyses : List PartialResult) (t : Threat)
    (ht : t ∈ allThreats analyses)
    (huniq : ∀ s ∈ allThreats analyses, s.type = t.type → s.reason = t.reason → s = t) :
    t ∈ consolidateThreats analyses := by
  unfold consolidateThreats
  rw [(sort_perm compareThreats _).mem_iff, uniqueThreats_eq]
  exact mem_keepFirst t _ [] ht (by simp) huniq

theorem analyzeText_threats_type (E : Engine) (table : KeywordTable) (title description : String)
    (t : Threat) (ht : t ∈ (analyzeText E table title description).threats) :
    t.type = "keyword" := by
  rw [analyzeText_eq_foldl] at ht
  simp only at ht
  rw [foldl_keywordStep_threats] at ht
  simp only [List.nil_append, List.mem_map] at ht
  obtain ⟨tr, _, rfl⟩ := ht
  rfl

theorem foldlM_patternStep_type (E : Engine) (fullText : String) (l : PatternTable)
    (acc acc' : JSVal × List Threat) (h : l.foldlM (patternStep E fullText) acc = .ok acc') :
    ∀ t ∈ acc'.2, t ∈ acc.2 ∨ t.type = "pattern_match" := by
  induction l generalizing acc with
  | nil =>
    simp only [List.foldlM_nil, pure, Except.pure, Except.ok.injEq] at h
    subst h
    exact fun t ht => Or.inl ht
  | cons x xs ih =>
    rw [List.foldlM_cons] at h
    cases hs : patternStep E fullText acc x with
    | error e =>
      rw [hs] at h
      simp [bind, Except.bind] at h
    | ok acc₁ =>
      rw [hs] at h
      simp only [bind, Except.bind] at h
      intro t ht
      rcases ih acc₁ h t ht with h1 | h1
      · unfold patternStep at hs
        split at hs
        · simp at hs
        · simp only [pure, Except.pure, Except.ok.injEq] at hs
          subst hs
          exact Or.inl h1
        · simp only [pure, Except.pure, Except.ok.injEq] at hs
          subst hs
          rcases List.mem_append.mp h1 with h2 | h2
          · exact Or.inl h2
          · rw [List.mem_singleton] at h2
            subst h2
            exact Or.inr rfl
      · exact Or.inr h1

theorem analyzePatterns_threats_type (E : Engine) (table : PatternTable) (adData : AdData)
    (pr : PartialResult) (h : analyzePatterns E table adData = .ok pr) (t : Threat)
    (ht : t ∈ pr.threats) : t.type = "pattern_match" := by
  rw [analyzePatterns_eq_foldlM] at h
  cases hf : table.foldlM
      (patternStep E (E.toLowerCase (adData.title ++ " " ++ adData.description))) (.num 0, []) with
  | error e =>
    rw [hf] at h
    simp [Except.map] at h
  | ok acc =>
    rw [hf] at h
    simp only [Except.map, Except.ok.injEq] at h
    subst h
    rcases foldlM_patternStep_type E _ table _ acc hf t ht with h1 | h1
    · simp at h1
    · exact h1

theorem analyzeText_hits (E : Engine) (table : KeywordTable) (title description : String) :
    (analyzeText E table title description).type = "text" ∧
    (analyzeText E table title description).threats
      = ((keywordTriples table).filter (fun tr =>
          decide ((E.toLowerCase tr.2.2).toList <:+:
            (E.toLowerCase (title ++ " " ++ description)).toList))).map keywordFinding ∧
    ((∀ tr ∈ (keywordTriples table).filter (fun tr =>
          decide ((E.toLowerCase tr.2.2).toList <:+:
            (E.toLowerCase (title ++ " " ++ description)).toList)),
        tr.2.1 ∈ ["low", "medium", "high"]) →
      (analyzeText E table title description).score
        = .num ((((keywordTriples table).filter (fun tr =>
            decide ((E.toLowerCase tr.2.2).toList <:+:
              (E.toLowerCase (title ++ " " ++ description)).toList))).map
            (fun tr => tierWeight tr.2.1)).sum) ∧
      ∀ t ∈ (analyzeText E table title description).threats,
        t.weight = some (.num (tierWeight t.riskLevel))) := by
  rw [analyzeText_eq_foldl]
  refine ⟨rfl, ?_, fun h => ⟨?_, ?_⟩⟩
  · simpa [includes] using foldl_keywordStep_threats E
      (E.toLowerCase (title ++ " " ++ description)) (keywordTriples table) (.num 0, [])
  · simpa [includes] using foldl_keywordStep_score E
      (E.toLowerCase (title ++ " " ++ description)) (keywordTriples table) 0 [] h
  · intro t ht
    simp only at ht
    rw [foldl_keywordStep_threats] at ht
    simp only [List.nil_append, List.mem_map] at ht
    obtain ⟨tr, htr, rfl⟩ := ht
    simp only [keywordFinding]
    rw [getRiskWeight_tier _ (h tr htr)]

theorem analyzePatterns_counts (E : Engine) (table : PatternTable) (adData : AdData)
    (count : String × PatternData → ℕ)
    (h : ∀ entry ∈ table,
      E.regexMatches entry.2.pattern (E.toLowerCase (adData.title ++ " " ++ adData.description))
        = some (count entry)) :
    ∃ r, analyzePatterns E table adData = .ok r ∧ r.type = "pattern" ∧
      r.threats = (table.filter (fun e => decide (0 < count e))).map
        (fun e => patternFinding e (count e)) ∧
      ((∀ e ∈ table.filter (fun e => decide (0 < count e)),
          e.2.risk_level ∈ ["low", "medium", "high"]) →
        r.score = .num (((table.filter (fun e => decide (0 < count e))).map
          (fun e => tierWeight e.2.risk_level * (count e : ℚ))).sum)) := by
  rw [analyzePatterns_eq_foldlM, foldlM_patternStep E _ count table _ h]
  refine ⟨_, rfl, rfl, by simp, fun hv => ?_⟩
  have := foldl_patternScore count _ 0 hv
  simpa using this

theorem calculateFinalScore_five (tx pc sl bh pt : PartialResult) (t a b c p : ℚ)
    (h1 : tx.type = "text") (h2 : pc.type = "price") (h3 : sl.type = "seller")
    (h4 : bh.type = "behavior") (h5 : pt.type = "pattern")
    (s1 : tx.score = .num t) (s2 : pc.score = .num a) (s3 : sl.score = .num b)
    (s4 : bh.score = .num c) (s5 : pt.score = .num p) :
    calculateFinalScore [tx, pc, sl, bh, pt]
      = .num (t / 4 + a / 5 + b / 5 + 3 * c / 20 + p / 5) := by
  simp only [calculateFinalScore, List.foldl_cons, List.foldl_nil, h1, h2, h3, h4, h5, s1, s2,
    s3, s4, s5]
  simp [getProperty, sourceWeights, List.lookup, Property.orElse, JSVal.add, JSVal.mul]
  ring

theorem analyzePatterns_returns (E : Engine) (table : PatternTable) (adData : AdData)
    (h : ∀ entry ∈ table,
      E.regexMatches entry.2.pattern (E.toLowerCase (adData.title ++ " " ++ adData.description))
        ≠ none) :
    ∃ pr, analyzePatterns E table adData = .ok pr ∧ pr.type = "pattern" := by
  obtain ⟨r, hr, ht, _⟩ := analyzePatterns_counts E table adData
    (fun e => (E.regexMatches e.2.pattern
      (E.toLowerCase (adData.title ++ " " ++ adData.description))).getD 0)
    (by
      intro entry he
      obtain ⟨n, hn⟩ := Option.ne_none_iff_exists'.mp (h entry he)
      simp [hn])
  exact ⟨r, hr, ht⟩

theorem analyzePrice_exampleOne :
    analyzePrice exampleOne.price exampleOne.category
      = { score := .num 10, threats := [roundPrice], type := "price" } := by
  have h1 : jsRem 300 100 = 0 := by
    have := jsRem_intCast 300 100
    simpa using this
  have h2 : isPriceSuspiciouslyLow 300 "telephonie" = false := by
    simp [isPriceSuspiciouslyLow, getProperty, suspiciousThresholds, List.lookup,
      Property.orElse, JSVal.gtNum]
    norm_num
  simp only [exampleOne, analyzePrice, h1, h2]
  norm_num [roundPrice]

theorem analyzeSeller_exampleOne :
    analyzeSeller exampleOne.seller
      = { score := .num 65, threats := [newAccount, noReviews, multipleItems],
          type := "seller" } := by
  simp only [exampleOne, analyzeSeller_some]
  norm_num

theorem analyzeBehavior_exampleOne (E : Engine)
    (hE : E.toLowerCase "région proche" = "région proche") :
    analyzeBehavior E exampleOne
      = { score := .num 35, threats := [singlePhoto, vagueLocation], type := "behavior" } := by
  have hv : isLocationVague E exampleOne.location = true := by
    simp only [exampleOne, isLocationVague, hE]
    decide
  rw [analyzeBehavior_eq, hv]
  simp [exampleOne]
  norm_num

theorem analyzePrice_exampleTwo :
    analyzePrice exampleTwo.price exampleTwo.category
      = { score := .num 50, threats := [priceTooLow], type := "price" } := by
  have h1 : jsRem 45 100 = 45 := by
    have := jsRem_intCast 45 100
    simpa using this
  have h2 : isPriceSuspiciouslyLow 45 "informatique" = true := by
    simp [isPriceSuspiciouslyLow, getProperty, suspiciousThresholds, List.lookup,
      Property.orElse, JSVal.gtNum]
    norm_num
  simp only [exampleTwo, analyzePrice, h1, h2]
  norm_num [priceTooLow]

theorem analyzeSeller_exampleTwo :
    analyzeSeller exampleTwo.seller = { score := .num 0, threats := [], type := "seller" } := by
  simp only [exampleTwo, analyzeSeller_some]
  norm_num

theorem analyzeBehavior_exampleTwo (E : Engine) (hE : E.toLowerCase "Lyon 3e" = "lyon 3e") :
    analyzeBehavior E exampleTwo = { score := .num 0, threats := [], type := "behavior" } := by
  have hv : isLocationVague E exampleTwo.location = false := by
    simp only [exampleTwo, isLocationVague, hE]
    decide
  rw [analyzeBehavior_eq, hv]
  simp [exampleTwo]

theorem analyzeText_no_hit (E : Engine) (table : KeywordTable) (title description : String)
    (h : ∀ tr ∈ keywordTriples table,
      ¬ ((E.toLowerCase tr.2.2).toList <:+:
          (E.toLowerCase (title ++ " " ++ description)).toList)) :
    analyzeText E table title description = { score := .num 0, threats := [], type := "text" } := by
  have hf : (keywordTriples table).filter (fun tr =>
      decide ((E.toLowerCase tr.2.2).toList <:+:
        (E.toLowerCase (title ++ " " ++ description)).toList)) = [] := by
    rw [List.filter_eq_nil_iff]
    intro tr htr
    simpa using h tr htr
  obtain ⟨h1, h2, h3⟩ := analyzeText_hits E table title description
  rw [hf] at h2 h3
  have h4 := (h3 (by simp)).1
  cases hr : analyzeText E table title description with
  | mk score threats type =>
    rw [hr] at h1 h2 h4
    simp only at h1 h2 h4
    simp only [List.map_nil, List.sum_nil] at h2 h4
    rw [h1, h2, h4]

theorem analyzePatterns_no_hit (E : Engine) (table : PatternTable) (adData : AdData)
    (h : ∀ entry ∈ table,
      E.regexMatches entry.2.pattern (E.toLowerCase (adData.title ++ " " ++ adData.description))
        = some 0) :
    analyzePatterns E table adData
      = .ok { score := .num 0, threats := [], type := "pattern" } := by
  obtain ⟨r, hr, h1, h2, h3⟩ := analyzePatterns_counts E table adData (fun _ => 0) h
  simp only [lt_self_iff_false, decide_False, List.filter_false, List.map_nil,
    List.sum_nil] at h2 h3
  have h4 := h3 (by simp)
  rw [hr]
  cases r with
  | mk score threats type =>
    simp only at h1 h2 h4
    rw [h1, h2, h4]

theorem exampleOne_assessment (E : Engine) (keywords : KeywordTable) (patterns : PatternTable)
    (load : LoadOutcome) (now : ℕ)
    (hE : E.toLowerCase "région proche" = "région proche")
    (hp : ∀ entry ∈ patterns,
      E.regexMatches entry.2.pattern
        (E.toLowerCase (exampleOne.title ++ " " ++ exampleOne.description)) ≠ none) :
    ∃ pr a, analyzePatterns E patterns exampleOne = .ok pr ∧
      (analyzeAd (RiskAnalyzer.loaded keywords patterns) load E now exampleOne).2 = .ok a ∧
      newAccount ∈ a.detectedThreats ∧ noReviews ∈ a.detectedThreats ∧
      multipleItems ∈ a.detectedThreats ∧ singlePhoto ∈ a.detectedThreats ∧
      vagueLocation ∈ a.detectedThreats ∧
      ∀ t p : ℚ,
        (analyzeText E keywords exampleOne.title exampleOne.description).score = .num t →
        pr.score = .num p →
        a.riskScore = .num (81 / 4 + t / 4 + p / 5) ∧
        (a.riskLevel = "high" ↔ 60 ≤ 81 / 4 + t / 4 + p / 5) := by
  obtain ⟨pr, hpr, hpt⟩ := analyzePatterns_returns E patterns exampleOne hp
  obtain ⟨a, ha, hs, hl, hth, _⟩ := analyzeAd_loaded keywords patterns load E now exampleOne pr hpr
  rw [analyzePrice_exampleOne, analyzeSeller_exampleOne, analyzeBehavior_exampleOne E hE] at hs hth
  have hall : allThreats
      [analyzeText E keywords exampleOne.title exampleOne.description,
       { score := .num 10, threats := [roundPrice], type := "price" },
       { score := .num 65, threats := [newAccount, noReviews, multipleItems], type := "seller" },
       { score := .num 35, threats := [singlePhoto, vagueLocation], type := "behavior" }, pr]
      = (analyzeText E keywords exampleOne.title exampleOne.description).threats
        ++ [roundPrice, newAccount, noReviews, multipleItems, singlePhoto, vagueLocation]
        ++ pr.threats := by
    simp [allThreats]
  have hmem : ∀ t ∈ [newAccount, noReviews, multipleItems, singlePhoto, vagueLocation],
      t ∈ a.detectedThreats := by
    intro t ht
    rw [hth]
    apply mem_consolidateThreats
    · rw [hall]
      apply List.mem_append_left
      apply List.mem_append_right
      simp only [List.mem_cons, List.mem_singleton, List.not_mem_nil, or_false] at ht ⊢
      tauto
    · intro s hs2 hty _
      rw [hall] at hs2
      rcases List.mem_append.mp hs2 with h1 | h1
      · rcases List.mem_append.mp h1 with h2 | h2
        · have := analyzeText_threats_type E keywords _ _ s h2
          rw [this] at hty
          simp only [List.mem_cons, List.mem_singleton, List.not_mem_nil, or_false] at ht
          rcases ht with rfl | rfl | rfl | rfl | rfl <;> exact absurd hty (by decide)
        · simp only [List.mem_cons, List.mem_singleton, List.not_mem_nil, or_false] at ht h2
          rcases ht with rfl | rfl | rfl | rfl | rfl <;>
            rcases h2 with rfl | rfl | rfl | rfl | rfl | rfl <;>
            first | rfl | exact absurd hty (by decide)
      · have := analyzePatterns_threats_type E patterns exampleOne pr hpr s h1
        rw [this] at hty
        simp only [List.mem_cons, List.mem_singleton, List.not_mem_nil, or_false] at ht
        rcases ht with rfl | rfl | rfl | rfl | rfl <;> exact absurd hty (by decide)
  refine ⟨pr, a, hpr, ha, hmem _ (by simp), hmem _ (by simp), hmem _ (by simp),
    hmem _ (by simp), hmem _ (by simp), ?_⟩
  intro t p ht hp2
  have hscore : a.riskScore = .num (81 / 4 + t / 4 + p / 5) := by
    rw [hs, calculateFinalScore_five _ _ _ _ _ t 10 65 35 p (analyzeText_hits E keywords _ _).1
      rfl rfl rfl hpt ht rfl rfl rfl hp2]
    congr 1
    ring
  refine ⟨hscore, ?_⟩
  rw [hl, hscore, determineRiskLevel_num]
  by_cases h60 : (60 : ℚ) ≤ 81 / 4 + t / 4 + p / 5
  · simp [h60]
  · by_cases h30 : (30 : ℚ) ≤ 81 / 4 + t / 4 + p / 5 <;> simp [h60, h30]

theorem exampleTwo_assessment (E : Engine) (keywords : KeywordTable) (patterns : PatternTable)
    (load : LoadOutcome) (now : ℕ)
    (hE : E.toLowerCase "Lyon 3e" = "lyon 3e")
    (hk : ∀ tr ∈ keywordTriples keywords,
      ¬ ((E.toLowerCase tr.2.2).toList <:+:
          (E.toLowerCase (exampleTwo.title ++ " " ++ exampleTwo.description)).toList))
    (hp : ∀ entry ∈ patterns,
      E.regexMatches entry.2.pattern
        (E.toLowerCase (exampleTwo.title ++ " " ++ exampleTwo.description)) = some 0) :
    ∃ a, (analyzeAd (RiskAnalyzer.loaded keywords patterns) load E now exampleTwo).2 = .ok a ∧
      a.riskScore = .num 10 ∧ a.riskLevel = "low" ∧ a.detectedThreats = [priceTooLow] := by
  obtain ⟨a, ha, hs, hl, hth, _⟩ := analyzeAd_loaded keywords patterns load E now exampleTwo _
    (analyzePatterns_no_hit E patterns exampleTwo hp)
  rw [analyzePrice_exampleTwo, analyzeSeller_exampleTwo, analyzeBehavior_exampleTwo E hE,
    analyzeText_no_hit E keywords _ _ hk] at hs hth
  have hscore : a.riskScore = .num 10 := by
    rw [hs, calculateFinalScore_five _ _ _ _ _ 0 50 0 0 0 rfl rfl rfl rfl rfl rfl rfl rfl rfl rfl]
    norm_num
  refine ⟨a, ha, hscore, ?_, ?_⟩
  · rw [hl, hscore, determineRiskLevel_num]
    norm_num
  · rw [hth]
    decide

namespace TextAnalyzer

theorem scanIndicators_foldl_le (E : TextEngine) (text : String)
    (l : List (String × String × ℚ)) (acc : IndicatorScore) (h : ∀ i ∈ l, 0 ≤ i.2.2) :
    acc.score ≤ (l.foldl (fun (acc : IndicatorScore) (indicator : String × String × ℚ) =>
      if (E.matchAll indicator.1 indicator.2.1 text).length = 0 then acc
      else
        { score := acc.score + indicator.2.2 * ((E.matchAll indicator.1 indicator.2.1 text).length : ℚ),
          matches_ := acc.matches_ ++
            [{ pattern := indicator.1,
               matches_ := (E.matchAll indicator.1 indicator.2.1 text).length,
               weight := indicator.2.2 }] }) acc).score := by
  induction l generalizing acc with
  | nil => simp
  | cons x xs ih =>
    have hx := h x (List.mem_cons_self _ _)
    have hxs : ∀ i ∈ xs, 0 ≤ i.2.2 := fun i hi => h i (List.mem_cons_of_mem _ hi)
    rw [List.foldl_cons]
    refine le_trans ?_ (ih _ hxs)
    split
    · exact le_refl _
    · have : (0 : ℚ) ≤ x.2.2 * ((E.matchAll x.1 x.2.1 text).length : ℚ) :=
        mul_nonneg hx (Nat.cast_nonneg _)
      simp only
      linarith

theorem scanIndicators_nonneg (E : TextEngine) (text : String)
    (l : List (String × String × ℚ)) (h : ∀ i ∈ l, 0 ≤ i.2.2) :
    0 ≤ (scanIndicators E l text).score :=
  scanIndicators_foldl_le E text l { score := 0, matches_ := [] } h

theorem urgencyIndicators_nonneg : ∀ i ∈ urgencyIndicators, (0 : ℚ) ≤ i.2.2 := by
  intro i hi
  simp only [urgencyIndicators, List.mem_cons, List.mem_singleton, List.not_mem_nil,
    or_false] at hi
  rcases hi with h | h | h | h | h | h | h | h | h | h | h | h <;> subst h <;> norm_num

theorem emotionalIndicators_nonneg : ∀ i ∈ emotionalIndicators, (0 : ℚ) ≤ i.2.2 := by
  intro i hi
  simp only [emotionalIndicators, List.mem_cons, List.mem_singleton, List.not_mem_nil,
    or_false] at hi
  rcases hi with h | h | h | h | h | h | h | h | h | h | h | h | h <;> subst h <;> norm_num

theorem detectSuspiciousPatterns_risk (E : TextEngine) (text : String) :
    ∀ p ∈ detectSuspiciousPatterns E text, p.risk ∈ ["high", "medium", "low"] := by
  intro p hp
  simp only [detectSuspiciousPatterns, List.mem_filterMap] at hp
  obtain ⟨rule, hrule, hsome⟩ := hp
  have hr : ∀ r ∈ suspiciousPatternRules, r.risk ∈ ["high", "medium", "low"] := by decide
  split at hsome
  · simp at hsome
  · simp only [Option.some.injEq] at hsome
    subst hsome
    exact hr rule hrule

theorem patternWeight_pos (risk : String) (h : risk ∈ ["high", "medium", "low"]) :
    ∃ w : ℚ, (getProperty patternWeights risk).toVal = .num w ∧ 0 ≤ w := by
  simp only [List.mem_cons, List.mem_singleton, List.not_mem_nil, or_false] at h
  rcases h with rfl | rfl | rfl
  · exact ⟨10, by simp [getProperty, patternWeights, List.lookup, Property.toVal], by norm_num⟩
  · exact ⟨5, by simp [getProperty, patternWeights, List.lookup, Property.toVal], by norm_num⟩
  · exact ⟨2, by simp [getProperty, patternWeights, List.lookup, Property.toVal], by norm_num⟩

theorem patterns_foldl_num (l : List SuspiciousPattern) (q : ℚ)
    (h : ∀ p ∈ l, p.risk ∈ ["high", "medium", "low"]) :
    ∃ q' : ℚ, l.foldl (fun (riskScore : JSVal) (pattern : SuspiciousPattern) =>
        riskScore.add ((getProperty patternWeights pattern.risk).toVal.mul
          (.num (pattern.count : ℚ)))) (.num q) = .num q' ∧ q ≤ q' := by
  induction l generalizing q with
  | nil => exact ⟨q, rfl, le_refl _⟩
  | cons x xs ih =>
    obtain ⟨w, hw, hw0⟩ := patternWeight_pos x.risk (h x (List.mem_cons_self _ _))
    have hxs : ∀ p ∈ xs, p.risk ∈ ["high", "medium", "low"] :=
      fun p hp => h p (List.mem_cons_of_mem _ hp)
    rw [List.foldl_cons, hw]
    have hstep : (JSVal.num q).add ((JSVal.num w).mul (.num (x.count : ℚ)))
        = .num (q + w * (x.count : ℚ)) := rfl
    rw [hstep]
    obtain ⟨q', hq', hle⟩ := ih (q + w * (x.count : ℚ)) hxs
    refine ⟨q', hq', le_trans ?_ hle⟩
    have : (0 : ℚ) ≤ w * (x.count : ℚ) := mul_nonneg hw0 (Nat.cast_nonneg _)
    linarith

theorem calculateOverallRisk_bounds (a : TextAnalysis)
    (hu : 0 ≤ a.urgencyScore.score) (he : 0 ≤ a.emotionalScore.score)
    (hp : ∀ p ∈ a.suspiciousPatterns, p.risk ∈ ["high", "medium", "low"])
    (hl : a.languageQuality.score ≤ 100) :
    ∃ q : ℚ, calculateOverallRisk a = .num q ∧ 0 ≤ q ∧ q ≤ 100 := by
  obtain ⟨q3, h3, hle⟩ := patterns_foldl_num a.suspiciousPatterns
    (0 + a.urgencyScore.score * 2 + a.emotionalScore.score * (3 / 2)) hp
  have hcalc : calculateOverallRisk a
      = .num (min 100 (q3 + (100 - a.languageQuality.score) * (3 / 10)
          + (a.contactAttempts.length : ℚ) * 5)) := by
    have e1 : ((JSVal.num 0).add (.num (a.urgencyScore.score * 2))).add
        (.num (a.emotionalScore.score * (3 / 2)))
        = .num (0 + a.urgencyScore.score * 2 + a.emotionalScore.score * (3 / 2)) := rfl
    unfold calculateOverallRisk
    simp only []
    rw [e1, h3]
    rfl
  refine ⟨_, hcalc, ?_, min_le_left _ _⟩
  have hc : (0 : ℚ) ≤ (a.contactAttempts.length : ℚ) * 5 :=
    mul_nonneg (Nat.cast_nonneg _) (by norm_num)
  have hq : (0 : ℚ) ≤ (100 - a.languageQuality.score) * (3 / 10) :=
    mul_nonneg (by linarith) (by norm_num)
  apply le_min (by norm_num)
  linarith

theorem languageQuality_foldl_le (l : List (String × WordTally)) (acc : ℚ × List String) :
    (l.foldl (fun (acc : ℚ × List String) (e : String × WordTally) =>
      match e.2 with
      | .count n =>
        if n > 3 then
          (acc.1 - 5, acc.2 ++ ["Répétition excessive: \"" ++ e.1 ++ "\" (" ++ toString n ++ " fois)"])
        else acc
      | .text => acc) acc).1 ≤ acc.1 := by
  induction l generalizing acc with
  | nil => simp
  | cons x xs ih =>
    rw [List.foldl_cons]
    refine le_trans (ih _) ?_
    split
    · split
      · simp
      · exact le_refl _
    · exact le_refl _

theorem assessLanguageQuality_le (E : TextEngine) (text : String) :
    (assessLanguageQuality E text).score ≤ 100 := by
  unfold assessLanguageQuality
  simp only
  apply max_le (by norm_num)
  split
  · have := languageQuality_foldl_le
      (objectEntries ((splitSpaces (E.toLowerCase text).toList).foldl
        (fun wc word => if utf16Length word > 3 then tally wc (String.mk word) else wc) []))
      (100, [])
    simp only at this ⊢
    linarith
  · exact languageQuality_foldl_le _ (100, [])

end TextAnalyzer

theorem analyzeAd_ok_inv (self : RiskAnalyzer) (load : LoadOutcome) (E : Engine) (now : ℕ)
    (adData : AdData) (a : Assessment) (h : (analyzeAd self load E now adData).2 = .ok a) :
    ∃ keywords patterns pr,
      (analyzeAd self load E now adData).1 = RiskAnalyzer.loaded keywords patterns ∧
      analyzePatterns E patterns adData = .ok pr ∧
      a.riskScore = calculateFinalScore
        [analyzeText E keywords adData.title adData.description,
         analyzePrice adData.price adData.category, analyzeSeller adData.seller,
         analyzeBehavior E adData, pr] ∧
      a.detectedThreats = consolidateThreats
        [analyzeText E keywords adData.title adData.description,
         analyzePrice adData.price adData.category, analyzeSeller adData.seller,
         analyzeBehavior E adData, pr] ∧
      a.recommendations = generateRecommendations a ∧
      a.timestamp = now := by
  rcases self with ⟨sk, sp, ini⟩
  rcases load with ⟨f, k, p⟩
  cases ini
  · -- not initialized: the load decides
    cases f
    · simp [analyzeAd, initializeAnalyzer] at h
    · cases k with
      | none => simp [analyzeAd, initializeAnalyzer] at h
      | some kws =>
        cases p with
        | none => simp [analyzeAd, initializeAnalyzer] at h
        | some doc =>
          rcases doc with ⟨tp⟩
          cases tp with
          | none => simp [analyzeAd, initializeAnalyzer] at h
          | some pats =>
            simp only [analyzeAd, initializeAnalyzer, Bool.not_false, Bool.not_true,
              Bool.false_eq_true, if_true, if_false] at h ⊢
            split at h
            · simp at h
            · rename_i pr hpr
              simp only [Except.ok.injEq] at h
              subst h
              refine ⟨kws, pats, pr, ?_, hpr, rfl, rfl, rfl, rfl⟩
              rfl
  · cases sk with
    | none => simp [analyzeAd] at h
    | some kws =>
      cases sp with
      | none => simp [analyzeAd] at h
      | some doc =>
        rcases doc with ⟨tp⟩
        cases tp with
        | none => simp [analyzeAd] at h
        | some pats =>
          simp only [analyzeAd, Bool.not_true, Bool.false_eq_true, if_false] at h ⊢
          split at h
          · simp at h
          · rename_i pr hpr
            simp only [Except.ok.injEq] at h
            subst h
            refine ⟨kws, pats, pr, ?_, hpr, rfl, rfl, rfl, rfl⟩
            rfl

theorem analyzeAd_clock (self : RiskAnalyzer) (load : LoadOutcome) (E : Engine) (now₁ now₂ : ℕ)
    (adData : AdData) (a : Assessment) (h : (analyzeAd self load E now₁ adData).2 = .ok a) :
    (analyzeAd self load E now₂ adData).2 = .ok { a with timestamp := now₂ } ∧
    (analyzeAd self load E now₂ adData).1 = (analyzeAd self load E now₁ adData).1 := by
  rcases self with ⟨sk, sp, ini⟩
  rcases load with ⟨f, k, p⟩
  cases ini
  · cases f
    · simp [analyzeAd, initializeAnalyzer] at h
    · cases k with
      | none => simp [analyzeAd, initializeAnalyzer] at h
      | some kws =>
        cases p with
        | none => simp [analyzeAd, initializeAnalyzer] at h
        | some doc =>
          rcases doc with ⟨tp⟩
          cases tp with
          | none => simp [analyzeAd, initializeAnalyzer] at h
          | some pats =>
            simp only [analyzeAd, initializeAnalyzer, Bool.not_false, Bool.not_true,
              Bool.false_eq_true, if_true, if_false] at h ⊢
            split at h
            · simp at h
            · simp only [Except.ok.injEq] at h
              subst h
              exact ⟨rfl, rfl⟩
  · cases sk with
    | none => simp [analyzeAd] at h
    | some kws =>
      cases sp with
      | none => simp [analyzeAd] at h
      | some doc =>
        rcases doc with ⟨tp⟩
        cases tp with
        | none => simp [analyzeAd] at h
        | some pats =>
          simp only [analyzeAd, Bool.not_true, Bool.false_eq_true, if_false] at h ⊢
          split at h
          · simp at h
          · simp only [Except.ok.injEq] at h
            subst h
            exact ⟨rfl, rfl⟩

theorem foldlM_patternStep_error (E : Engine) (fullText : String) (l : PatternTable)
    (acc : JSVal × List Threat)
    (h : ∃ entry ∈ l, E.regexMatches entry.2.pattern fullText = none) :
    ∃ p, l.foldlM (patternStep E fullText) acc = .error (.syntaxError p) := by
  induction l generalizing acc with
  | nil => simp at h
  | cons x xs ih =>
    rw [List.foldlM_cons]
    cases hx : E.regexMatches x.2.pattern fullText with
    | none =>
      refine ⟨x.2.pattern, ?_⟩
      simp [patternStep, hx, bind, Except.bind]
    | some n =>
      have hxs : ∃ entry ∈ xs, E.regexMatches entry.2.pattern fullText = none := by
        obtain ⟨e, he, hn⟩ := h
        rcases List.mem_cons.mp he with rfl | he
        · rw [hx] at hn
          exact absurd hn (by simp)
        · exact ⟨e, he, hn⟩
      cases n with
      | zero =>
        have hstep : patternStep E fullText acc x = .ok acc := by
          simp [patternStep, hx, pure, Except.pure]
        rw [hstep]
        simp only [bind, Except.bind]
        exact ih acc hxs
      | succ m =>
        have hstep : patternStep E fullText acc x
            = .ok (acc.1.add ((getRiskWeight x.2.risk_level).mul (.num ((m + 1 : ℕ) : ℚ))),
                   acc.2 ++ [patternFinding x (m + 1)]) := by
          simp [patternStep, hx, pure, Except.pure]
        rw [hstep]
        simp only [bind, Except.bind]
        exact ih _ hxs

theorem analyzePatterns_error (E : Engine) (table : PatternTable) (adData : AdData)
    (h : ∃ entry ∈ table,
      E.regexMatches entry.2.pattern (E.toLowerCase (adData.title ++ " " ++ adData.description))
        = none) :
    ∃ p, analyzePatterns E table adData = .error (.syntaxError p) := by
  obtain ⟨p, hp⟩ := foldlM_patternStep_error E _ table (.num 0, []) h
  refine ⟨p, ?_⟩
  rw [analyzePatterns_eq_foldlM, hp]
  rfl

theorem analyzeAd_loaded_error (keywords : KeywordTable) (patterns : PatternTable)
    (load : LoadOutcome) (E : Engine) (now : ℕ) (adData : AdData) (e : JSError)
    (h : analyzePatterns E patterns adData = .error e) :
    (analyzeAd (RiskAnalyzer.loaded keywords patterns) load E now adData).2 = .error e := by
  unfold analyzeAd
  simp only [RiskAnalyzer.loaded, Bool.not_true, Bool.false_eq_true, if_false]
  split
  · rename_i e2 he
    rw [h] at he
    simp only [Except.error.injEq] at he
    rw [he]
  · rename_i pr he
    rw [h] at he
    exact absurd he (by simp)

theorem analyzeAd_loaded_iff (keywords : KeywordTable) (patterns : PatternTable)
    (load : LoadOutcome) (E : Engine) (now : ℕ) (adData : AdData) :
    (∃ a, (analyzeAd (RiskAnalyzer.loaded keywords patterns) load E now adData).2 = .ok a) ↔
      ∀ entry ∈ patterns,
        E.regexMatches entry.2.pattern
          (E.toLowerCase (adData.title ++ " " ++ adData.description)) ≠ none := by
  constructor
  · rintro ⟨a, ha⟩
    by_contra hne
    push_neg at hne
    obtain ⟨p, hp⟩ := analyzePatterns_error E patterns adData hne
    rw [analyzeAd_loaded_error keywords patterns load E now adData _ hp] at ha
    exact absurd ha (by simp)
  · intro h
    obtain ⟨pr, hpr, _⟩ := analyzePatterns_returns E patterns adData h
    obtain ⟨a, ha, _⟩ := analyzeAd_loaded keywords patterns load E now adData pr hpr
    exact ⟨a, ha⟩

namespace TextAnalyzer

theorem isSpaceChar_space : isSpaceChar ' ' = true := by decide

theorem mem_trim (c : Char) (s : List Char) (h : c ∈ trim s) : c ∈ s := by
  unfold trim at h
  rw [List.mem_reverse] at h
  have h1 := (List.dropWhile_sublist isSpaceChar).subset h
  rw [List.mem_reverse] at h1
  exact (List.dropWhile_sublist isSpaceChar).subset h1

theorem mem_collapseSpaces (c : Char) (s : List Char) (inRun : Bool)
    (h : c ∈ collapseSpaces inRun s) : c = ' ' ∨ (c ∈ s ∧ isSpaceChar c = false) := by
  induction s generalizing inRun with
  | nil => simp [collapseSpaces] at h
  | cons x xs ih =>
    unfold collapseSpaces at h
    split at h
    · split at h
      · rcases ih true h with h1 | h1
        · exact Or.inl h1
        · exact Or.inr ⟨List.mem_cons_of_mem _ h1.1, h1.2⟩
      · rcases List.mem_cons.mp h with h1 | h1
        · exact Or.inl h1
        · rcases ih true h1 with h2 | h2
          · exact Or.inl h2
          · exact Or.inr ⟨List.mem_cons_of_mem _ h2.1, h2.2⟩
    · rename_i hx
      rcases List.mem_cons.mp h with h1 | h1
      · subst h1
        exact Or.inr ⟨List.mem_cons_self _ _, by simpa using hx⟩
      · rcases ih false h1 with h2 | h2
        · exact Or.inl h2
        · exact Or.inr ⟨List.mem_cons_of_mem _ h2.1, h2.2⟩

theorem mem_replaceNonWord (c : Char) (s : List Char) (h : c ∈ replaceNonWord s) :
    isWordChar c = true ∨ isSpaceChar c = true := by
  unfold replaceNonWord at h
  rw [List.mem_flatMap] at h
  obtain ⟨x, _, hx⟩ := h
  split at hx
  · rename_i hw
    rw [List.mem_singleton] at hx
    subst hx
    simpa using hw
  · split at hx
    · simp only [List.mem_cons, List.mem_singleton, List.not_mem_nil, or_false, or_self] at hx
      subst hx
      exact Or.inr isSpaceChar_space
    · rw [List.mem_singleton] at hx
      subst hx
      exact Or.inr isSpaceChar_space

theorem preprocessText_chars (E : TextEngine) (text : String) :
    ∀ c ∈ (preprocessText E text).toList, isWordChar c = true ∨ c = ' ' := by
  intro c hc
  simp only [preprocessText] at hc
  rcases mem_collapseSpaces c _ false (mem_trim c _ hc) with h | h
  · exact Or.inr h
  · rcases mem_replaceNonWord c _ h.1 with h1 | h1
    · exact Or.inl h1
    · rw [h.2] at h1
      exact absurd h1 (by simp)

theorem isSentenceEnd_of_clean (c : Char) (h : isWordChar c = true ∨ c = ' ') :
    isSentenceEnd c = false := by
  rcases h with h | h
  · by_contra hc
    simp only [Bool.not_eq_false] at hc
    simp only [isSentenceEnd, Bool.or_eq_true, beq_iff_eq] at hc
    rcases hc with (rfl | rfl) | rfl <;> exact absurd h (by decide)
  · subst h
    decide

theorem splitRuns_none (p : Char → Bool) (l cur : List Char) (inRun : Bool)
    (h : ∀ c ∈ l, p c = false) : splitRuns p cur inRun l = [cur.reverse ++ l] := by
  induction l generalizing cur inRun with
  | nil => simp [splitRuns]
  | cons x xs ih =>
    have hx := h x (List.mem_cons_self _ _)
    have hxs : ∀ c ∈ xs, p c = false := fun c hc => h c (List.mem_cons_of_mem _ hc)
    rw [splitRuns, hx]
    simp only [Bool.false_eq_true, if_false]
    rw [ih _ _ hxs]
    simp

theorem calculateReadabilityScore_clean (E : TextEngine) (text : String) :
    calculateReadabilityScore (preprocessText E text) =
      max 0 (min 100
        ((if (((splitSpaces (preprocessText E text).toList).length : ℚ)) > 20 then 100 - 20
          else if (((splitSpaces (preprocessText E text).toList).length : ℚ)) > 15 then 100 - 10
          else 100)
         - (if (((splitSpaces (preprocessText E text).toList).length : ℚ)) < 10 then 30 else 0)
         - (if (((splitSpaces (preprocessText E text).toList).length : ℚ)) > 20 then 15
            else 0))) := by
  have hclean : ∀ c ∈ (preprocessText E text).toList, isSentenceEnd c = false :=
    fun c hc => isSentenceEnd_of_clean c (preprocessText_chars E text c hc)
  have hs : (splitSentences (preprocessText E text).toList).length = 1 := by
    rw [splitSentences, splitRuns_none _ _ _ _ hclean]
    rfl
  have hp : (preprocessText E text).toList.countP isSentenceEnd = 0 := by
    rw [List.countP_eq_zero]
    intro c hc
    simp [hclean c hc]
  unfold calculateReadabilityScore
  simp only [hs, hp]
  simp only [Nat.cast_one, one_ne_zero, if_false, div_one, true_and]
  congr 2
  split_ifs <;> ring

theorem calculateOverallRisk_quiet (a : TextAnalysis) (hu : a.urgencyScore.score = 0)
    (he : a.emotionalScore.score = 0) (hp : a.suspiciousPatterns = [])
    (hc : a.contactAttempts = []) :
    calculateOverallRisk a = .num (min 100 ((100 - a.languageQuality.score) * (3 / 10))) := by
  unfold calculateOverallRisk
  simp only [hu, he, hp, hc, List.foldl_nil, List.length_nil, JSVal.add]
  norm_num

theorem scanIndicators_quiet (E : TextEngine) (l : List (String × String × ℚ)) (text : String)
    (h : ∀ source flags, E.matchAll source flags text = []) :
    scanIndicators E l text = { score := 0, matches_ := [] } := by
  have hconst : ∀ (l : List (String × String × ℚ)) (a : IndicatorScore),
      l.foldl (fun acc _ => acc) a = a := by
    intro l
    induction l with
    | nil => intro a; rfl
    | cons x xs ih => intro a; rw [List.foldl_cons]; exact ih a
  unfold scanIndicators
  simp only [h, List.length_nil, if_true]
  exact hconst l _

end TextAnalyzer

theorem analyzePrice_type (price : Option ℚ) (category : String) :
    (analyzePrice price category).type = "price" := by
  unfold analyzePrice
  cases price with
  | none => rfl
  | some p =>
    simp only
    split_ifs <;> rfl

theorem analyzePrice_score_bounds (price : Option ℚ) (category : String) :
    ∃ q, (analyzePrice price category).score = .num q ∧ 0 ≤ q ∧ q ≤ 60 := by
  unfold analyzePrice
  cases price with
  | none => exact ⟨0, rfl, le_refl _, by norm_num⟩
  | some p =>
    have hex : ¬ ((jsRem p 100 = 0 ∧ p > 200) ∧ (jsRem p 100 = 99 ∨ jsRem p 100 = 95)) := by
      rintro ⟨⟨h, _⟩, h2 | h2⟩ <;> rw [h] at h2 <;> norm_num at h2
    simp only
    split_ifs <;>
      first
      | exact absurd ⟨‹jsRem p 100 = 0 ∧ p > 200›, ‹jsRem p 100 = 99 ∨ jsRem p 100 = 95›⟩ hex
      | (refine ⟨_, rfl, ?_, ?_⟩ <;> norm_num)

theorem analyzePrice_threats_type (price : Option ℚ) (category : String) (t : Threat)
    (ht : t ∈ (analyzePrice price category).threats) :
    t.type = "price_pattern" ∨ t.type = "price_too_low" := by
  unfold analyzePrice at ht
  cases price with
  | none => simp at ht
  | some p =>
    simp only at ht
    split_ifs at ht <;>
      simp only [List.nil_append, List.cons_append, List.mem_cons, List.mem_singleton,
        List.not_mem_nil, or_false] at ht <;>
      (rcases ht with rfl | rfl | rfl <;> simp)

theorem analyzeSeller_score_bounds (sellerData : Option SellerData) :
    (analyzeSeller sellerData).type = "seller" ∧
    ∃ q, (analyzeSeller sellerData).score = .num q ∧ 0 ≤ q ∧ q ≤ 65 := by
  cases sellerData with
  | none => exact ⟨rfl, 0, rfl, le_refl _, by norm_num⟩
  | some s =>
    rw [analyzeSeller_some]
    refine ⟨rfl, _, rfl, ?_, ?_⟩ <;> split_ifs <;> norm_num

theorem analyzeBehavior_score_bounds (E : Engine) (adData : AdData) :
    (analyzeBehavior E adData).type = "behavior" ∧
    ∃ q, (analyzeBehavior E adData).score = .num q ∧ 0 ≤ q ∧ q ≤ 35 := by
  rw [analyzeBehavior_eq]
  refine ⟨rfl, _, rfl, ?_, ?_⟩ <;> split_ifs <;> norm_num

theorem analyzeBehavior_threats_type (E : Engine) (adData : AdData) (t : Threat)
    (ht : t ∈ (analyzeBehavior E adData).threats) :
    t.type = "single_photo" ∨ t.type = "vague_location" := by
  rw [analyzeBehavior_eq] at ht
  simp only [List.mem_append] at ht
  rcases ht with ht | ht
  · split_ifs at ht
    · rw [List.mem_singleton] at ht
      subst ht
      exact Or.inl rfl
    · simp at ht
  · split_ifs at ht
    · rw [List.mem_singleton] at ht
      subst ht
      exact Or.inr rfl
    · simp at ht

theorem analyzeText_quiet (E : Engine) (table : KeywordTable) (title description : String)
    (h : (analyzeText E table title description).threats = []) :
    (analyzeText E table title description).score = .num 0 := by
  obtain ⟨_, h2, h3⟩ := analyzeText_hits E table title description
  rw [h] at h2
  have hf := List.map_eq_nil_iff.mp h2.symm
  rw [hf] at h3
  simpa using (h3 (by simp)).1

theorem analyzePatterns_ok_valid (E : Engine) (table : PatternTable) (adData : AdData)
    (pr : PartialResult) (h : analyzePatterns E table adData = .ok pr) :
    ∀ entry ∈ table,
      E.regexMatches entry.2.pattern (E.toLowerCase (adData.title ++ " " ++ adData.description))
        ≠ none := by
  intro entry he hn
  obtain ⟨p, hp⟩ := analyzePatterns_error E table adData ⟨entry, he, hn⟩
  rw [hp] at h
  exact absurd h (by simp)

theorem analyzePatterns_quiet (E : Engine) (table : PatternTable) (adData : AdData)
    (pr : PartialResult) (h : analyzePatterns E table adData = .ok pr) :
    pr.type = "pattern" ∧ (pr.threats = [] → pr.score = .num 0) := by
  obtain ⟨r, hr, ht, hth, hs⟩ := analyzePatterns_counts E table adData
    (fun e => (E.regexMatches e.2.pattern
      (E.toLowerCase (adData.title ++ " " ++ adData.description))).getD 0)
    (by
      intro entry he
      obtain ⟨n, hn⟩ := Option.ne_none_iff_exists'.mp (analyzePatterns_ok_valid E table adData pr h
        entry he)
      simp [hn])
  rw [h] at hr
  simp only [Except.ok.injEq] at hr
  subst hr
  refine ⟨ht, fun hnil => ?_⟩
  rw [hnil] at hth
  have hf := List.map_eq_nil_iff.mp hth.symm
  rw [hf] at hs
  simpa using hs (by simp)

theorem calculateFinalScore_quiet (E : Engine) (keywords : KeywordTable) (adData : AdData)
    (pr : PartialResult) (hty : pr.type = "pattern")
    (ht : (analyzeText E keywords adData.title adData.description).score = .num 0)
    (hs : pr.score = .num 0) :
    ∃ q, calculateFinalScore
        [analyzeText E keywords adData.title adData.description,
         analyzePrice adData.price adData.category, analyzeSeller adData.seller,
         analyzeBehavior E adData, pr] = .num q ∧ 0 ≤ q ∧ q ≤ 121 / 4 := by
  obtain ⟨a, ha, ha0, ha1⟩ := analyzePrice_score_bounds adData.price adData.category
  obtain ⟨hbt, b, hb, hb0, hb1⟩ := analyzeSeller_score_bounds adData.seller
  obtain ⟨hct, c, hc, hc0, hc1⟩ := analyzeBehavior_score_bounds E adData
  refine ⟨_, calculateFinalScore_five _ _ _ _ _ 0 a b c 0 (analyzeText_hits E keywords _ _).1
    (analyzePrice_type _ _) hbt hct hty ht ha hb hc hs, ?_, ?_⟩ <;> linarith

theorem analyzeAd_quiet (keywords : KeywordTable) (patterns : PatternTable) (load : LoadOutcome)
    (E : Engine) (now : ℕ) (adData : AdData) (pr : PartialResult)
    (hp : analyzePatterns E patterns adData = .ok pr) :
    ∃ a, (analyzeAd (RiskAnalyzer.loaded keywords patterns) load E now adData).2 = .ok a ∧
      ((analyzeText E keywords adData.title adData.description).score = .num 0 →
        pr.score = .num 0 →
        ∃ q, a.riskScore = .num q ∧ 0 ≤ q ∧ q ≤ 121 / 4 ∧ a.riskLevel ≠ "high") ∧
      (a.riskLevel = "high" →
        (analyzeText E keywords adData.title adData.description).threats ≠ [] ∨
          pr.threats ≠ []) := by
  obtain ⟨a, ha, hs, hl, _, _⟩ := analyzeAd_loaded keywords patterns load E now adData pr hp
  obtain ⟨hty, hquiet⟩ := analyzePatterns_quiet E patterns adData pr hp
  have key : (analyzeText E keywords adData.title adData.description).score = .num 0 →
      pr.score = .num 0 →
      ∃ q, a.riskScore = .num q ∧ 0 ≤ q ∧ q ≤ 121 / 4 ∧ a.riskLevel ≠ "high" := by
    intro ht hps
    obtain ⟨q, hq, hq0, hq1⟩ := calculateFinalScore_quiet E keywords adData pr hty ht hps
    refine ⟨q, hs.trans hq, hq0, hq1, ?_⟩
    rw [hl, hs, hq, determineRiskLevel_num]
    have h60 : ¬ (60 : ℚ) ≤ q := by linarith
    rw [if_neg h60]
    split_ifs <;> decide
  refine ⟨a, ha, key, fun hhigh => ?_⟩
  by_contra hne
  push_neg at hne
  obtain ⟨_, _, _, _, hnot⟩ := key (analyzeText_quiet E keywords _ _ hne.1) (hquiet hne.2)
  exact hnot hhigh

theorem analyzeAd_ok_state (self : RiskAnalyzer) (load : LoadOutcome) (E : Engine) (now : ℕ)
    (adData : AdData) (a : Assessment) (h : (analyzeAd self load E now adData).2 = .ok a) :
    ∃ keywords patterns, ∀ (now' : ℕ) (adData' : AdData),
      analyzeAd self load E now' adData'
        = analyzeAd (RiskAnalyzer.loaded keywords patterns) load E now' adData' := by
  rcases self with ⟨sk, sp, ini⟩
  rcases load with ⟨f, k, p⟩
  cases ini
  · cases f
    · simp [analyzeAd, initializeAnalyzer] at h
    · cases k with
      | none => simp [analyzeAd, initializeAnalyzer] at h
      | some kws =>
        cases p with
        | none => simp [analyzeAd, initializeAnalyzer] at h
        | some doc =>
          rcases doc with ⟨tp⟩
          cases tp with
          | none => simp [analyzeAd, initializeAnalyzer] at h
          | some pats => exact ⟨kws, pats, fun _ _ => rfl⟩
  · cases sk with
    | none => simp [analyzeAd] at h
    | some kws =>
      cases sp with
      | none => simp [analyzeAd] at h
      | some doc =>
        rcases doc with ⟨tp⟩
        cases tp with
        | none => simp [analyzeAd] at h
        | some pats => exact ⟨kws, pats, fun _ _ => rfl⟩

theorem calculateFinalScore_seller (tx pc bh pt : PartialResult) (th : List Threat) (p b : ℚ)
    (h1 : tx.type = "text") (h2 : pc.type = "price") (h4 : bh.type = "behavior")
    (h5 : pt.type = "pattern") (s2 : pc.score = .num p) (s4 : bh.score = .num b) :
    calculateFinalScore [tx, pc, { score := .num 15, threats := th, type := "seller" }, bh, pt]
      = (calculateFinalScore
          [tx, pc, { score := .num 0, threats := [], type := "seller" }, bh, pt]).add (.num 3) := by
  simp only [calculateFinalScore, List.foldl_cons, List.foldl_nil, h1, h2, h4, h5, s2, s4]
  simp only [getProperty, sourceWeights, List.lookup, Property.orElse]
  cases tx.score <;> cases pt.score <;> simp [JSVal.add, JSVal.mul]
  ring

theorem analyzeSeller_scraped (name : Option String) :
    analyzeSeller (some { name := name, reviewCount := some 0, accountAge := none,
                          similarItemsCount := some 0 })
      = { score := .num 15, threats := [noReviews], type := "seller" } := by
  rw [analyzeSeller_some]
  norm_num

theorem analyzeAd_scraped_seller (self : RiskAnalyzer) (load : LoadOutcome) (E : Engine) (now : ℕ)
    (adData : AdData) (a : Assessment) (name : Option String)
    (hseller : adData.seller = some { name := name, reviewCount := some 0, accountAge := none,
                                      similarItemsCount := some 0 })
    (h : (analyzeAd self load E now adData).2 = .ok a) :
    noReviews ∈ a.detectedThreats ∧
    ∃ a₀, (analyzeAd self load E now { adData with seller := none }).2 = .ok a₀ ∧
      a.riskScore = a₀.riskScore.add (.num 3) := by
  obtain ⟨kws, pats, hall⟩ := analyzeAd_ok_state self load E now adData a h
  rw [hall] at h ⊢
  obtain ⟨pr, hpr, hpt⟩ := analyzePatterns_returns E pats adData
    ((analyzeAd_loaded_iff kws pats load E now adData).mp ⟨a, h⟩)
  obtain ⟨a', ha', hs, _, hth, _⟩ := analyzeAd_loaded kws pats load E now adData pr hpr
  have haa : a = a' := by
    rw [h] at ha'
    simpa using ha'
  subst haa
  have hpr₀ : analyzePatterns E pats { adData with seller := none } = .ok pr := hpr
  obtain ⟨a₀, ha₀, hs₀, _, _, _⟩ :=
    analyzeAd_loaded kws pats load E now { adData with seller := none } pr hpr₀
  rw [hseller, analyzeSeller_scraped] at hs hth
  obtain ⟨p, hp, _, _⟩ := analyzePrice_score_bounds adData.price adData.category
  obtain ⟨hbt, b, hb, _, _⟩ := analyzeBehavior_score_bounds E adData
  constructor
  · rw [hth]
    apply mem_consolidateThreats
    · rw [mem_allThreats]
      exact ⟨{ score := .num 15, threats := [noReviews], type := "seller" }, by simp,
        List.mem_singleton_self _⟩
    · intro s hs2 hty _
      rw [mem_allThreats] at hs2
      obtain ⟨part, hpart, hmem⟩ := hs2
      simp only [List.mem_cons, List.mem_singleton, List.not_mem_nil, or_false] at hpart
      rcases hpart with rfl | rfl | rfl | rfl | rfl
      · rw [analyzeText_threats_type E kws _ _ s hmem] at hty
        exact absurd hty (by decide)
      · rcases analyzePrice_threats_type _ _ s hmem with h1 | h1 <;>
          (rw [h1] at hty; exact absurd hty (by decide))
      · simpa using hmem
      · rcases analyzeBehavior_threats_type E adData s hmem with h1 | h1 <;>
          (rw [h1] at hty; exact absurd hty (by decide))
      · rw [analyzePatterns_threats_type E pats adData _ hpr s hmem] at hty
        exact absurd hty (by decide)
  · refine ⟨a₀, ha₀, ?_⟩
    rw [hs, hs₀]
    exact calculateFinalScore_seller _ _ _ _ _ p b (analyzeText_hits E kws _ _).1
      (analyzePrice_type _ _) hbt hpt hp hb

namespace LeBonScamContent

theorem extractAdData_seller (pathname : String) (now : ℕ) (adElement : AdElement)
    (data : ScrapedAd) (h : extractAdData pathname now adElement = some data) :
    data.seller = some (extractSellerInfo adElement) := by
  unfold extractAdData at h
  simp only at h
  split at h
  · simp at h
  · split_ifs at h
    simp only [Option.some.injEq] at h
    subst h
    rfl

end LeBonScamContent

/-! ## The claims -/

/-- Claim C1: `determineRiskLevel` is `high` from 60 up, `medium` from 30 up to 60
excluded, `low` below 30; the tier is monotone in the score; and every assessment
that `analyzeAd` returns has `riskLevel = determineRiskLevel riskScore`. -/
theorem riskLevel_tiering :
    (∀ s : ℚ, (60 ≤ s → determineRiskLevel (.num s) = "high") ∧
        (30 ≤ s → s < 60 → determineRiskLevel (.num s) = "medium") ∧
        (s < 30 → determineRiskLevel (.num s) = "low")) ∧
    (∀ s t : ℚ, s ≤ t →
        tierRank (determineRiskLevel (.num s)) ≤ tierRank (determineRiskLevel (.num t))) ∧
    (∀ (self : RiskAnalyzer) (load : LoadOutcome) (E : Engine) (now : ℕ) (adData : AdData)
        (a : Assessment), (analyzeAd self load E now adData).2 = .ok a →
        a.riskLevel = determineRiskLevel a.riskScore) := by
  refine ⟨fun s => ⟨fun h => ?_, fun h1 h2 => ?_, fun h => ?_⟩, fun s t hst => ?_, analyzeAd_riskLevel⟩
  · rw [determineRiskLevel_num, if_pos h]
  · rw [determineRiskLevel_num, if_neg (not_le.mpr h2), if_pos h1]
  · rw [determineRiskLevel_num, if_neg (by linarith [h] : ¬ (60 ≤ s)), if_neg (not_le.mpr h)]
  · rw [determineRiskLevel_num, determineRiskLevel_num]
    by_cases h1 : 60 ≤ s
    · have h2 : 60 ≤ t := le_trans h1 hst
      simp [h1, h2]
    · by_cases h3 : 30 ≤ s
      · have h4 : 30 ≤ t := le_trans h3 hst
        by_cases h5 : 60 ≤ t <;> simp [h1, h3, h4, h5, tierRank]
      · by_cases h5 : 60 ≤ t <;> by_cases h4 : 30 ≤ t <;> simp [h1, h3, h4, h5, tierRank]

/-- Witness of C1: the thresholds at 60, 30 and 29, and a run of `analyzeAd` that
returns an assessment. -/
theorem riskLevel_tiering_witness :
    determineRiskLevel (.num 60) = "high" ∧ determineRiskLevel (.num 30) = "medium" ∧
    determineRiskLevel (.num 29) = "low" ∧
    (∃ a, (analyzeAd loadedAnalyzer failedLoad plainEngine 0 exampleAd).2 = .ok a ∧
      a.riskLevel = determineRiskLevel a.riskScore) :=
  ⟨(riskLevel_tiering.1 60).1 le_rfl, (riskLevel_tiering.1 30).2.1 le_rfl (by norm_num),
   (riskLevel_tiering.1 29).2.2 (by norm_num),
   ⟨_, rfl, riskLevel_tiering.2.2 loadedAnalyzer failedLoad plainEngine 0 exampleAd _ rfl⟩⟩

/-- Claim C2, at the failing input: a partial result of score 10 whose `type` is
`constructor` makes `calculateFinalScore` return `NaN`, where the claim gives
10 × 0.1: the lookup `weights[analysis.type]` finds the inherited
`Object.prototype.constructor`, which is truthy, so the default 0.1 is not taken. -/
theorem calculateFinalScore_inherited_type :
    calculateFinalScore [{ score := .num 10, threats := [], type := "constructor" }] = .nonNum ∧
    calculateFinalScore [{ score := .num 10, threats := [], type := "constructor" }]
      ≠ .num (10 * specWeight "constructor") := by
  have h : calculateFinalScore [{ score := .num 10, threats := [], type := "constructor" }]
      = .nonNum := by
    simp [calculateFinalScore, getProperty, sourceWeights, List.lookup, objectPrototypeKeys,
      Property.orElse, JSVal.mul, JSVal.add]
  exact ⟨h, by rw [h]; simp⟩

/-- Claim C3: the list returned by `consolidateThreats` has no two findings, at
distinct positions, with the same `type` and the same descriptor. -/
theorem consolidateThreats_no_duplicates (analyses : List PartialResult) :
    (consolidateThreats analyses).Pairwise
      (fun a b => ¬ (a.type = b.type ∧ descriptor a = descriptor b)) := by
  have hsym : ∀ {x y : Threat}, ¬ (x.type = y.type ∧ descriptor x = descriptor y) →
      ¬ (y.type = x.type ∧ descriptor y = descriptor x) :=
    fun h hc => h ⟨hc.1.symm, hc.2.symm⟩
  unfold consolidateThreats
  rw [List.Perm.pairwise_iff hsym (sort_perm compareThreats _), uniqueThreats_eq]
  exact (keepFirst_distinct [] _).2.imp
    (fun {a b} hk hc => hk ⟨hc.1, descriptor_eq_reason a b hc.2⟩)

/-- Claim C4, at the failing input: `analyzeText` emits two keyword findings for two
different keywords, whose descriptors differ, and `consolidateThreats` returns
only the first.  Keyword findings have no `reason` field, so the test
`t.reason === threat.reason` compares `undefined` with `undefined`. -/
theorem consolidateThreats_collapses_keywords :
    (analyzeText plainEngine exampleKeywords "urgent vite" "").threats
      = [keywordUrgent, keywordVite] ∧
    keywordUrgent.type = keywordVite.type ∧
    descriptor keywordUrgent ≠ descriptor keywordVite ∧
    consolidateThreats [analyzeText plainEngine exampleKeywords "urgent vite" ""]
      = [keywordUrgent] := by
  decide

/-- Claim C5: when every finding has a `riskLevel` among `low`, `medium`, `high`, the
output of `consolidateThreats` is sorted by descending tier rank: no finding is
followed, at any later position, by one of strictly higher rank. -/
theorem consolidateThreats_sorted (analyses : List PartialResult)
    (h : ∀ p ∈ analyses, ∀ t ∈ p.threats, t.riskLevel ∈ ["low", "medium", "high"]) :
    (consolidateThreats analyses).Pairwise
      (fun a b => tierRank b.riskLevel ≤ tierRank a.riskLevel) :=
  (sort_uniqueThreats_spec analyses h "").1

/-- Witness of C5 on the price and seller results of an example ad. -/
theorem consolidateThreats_sorted_witness :
    (consolidateThreats exampleAnalyses).Pairwise
      (fun a b => tierRank b.riskLevel ≤ tierRank a.riskLevel) :=
  consolidateThreats_sorted exampleAnalyses (by decide)

/-- Claim C6: the sort of `consolidateThreats` is stable.  When every finding has a
`riskLevel` among `low`, `medium`, `high` (the tiers for which the comparator is a
consistent ordering), the deduplicated list is a subsequence of the flattened
input, the findings of each tier appear in the output in the order they have in
the deduplicated list, and any two findings of equal tier, one before the other
in the deduplicated list, are in that order in the output. -/
theorem consolidateThreats_stable (analyses : List PartialResult)
    (h : ∀ p ∈ analyses, ∀ t ∈ p.threats, t.riskLevel ∈ ["low", "medium", "high"]) :
    (uniqueThreats (allThreats analyses)).Sublist (allThreats analyses) ∧
    (∀ level : String,
      (consolidateThreats analyses).filter (fun t => t.riskLevel == level)
        = (uniqueThreats (allThreats analyses)).filter (fun t => t.riskLevel == level)) ∧
    (∀ a b : Threat, a.riskLevel = b.riskLevel →
      [a, b].Sublist (uniqueThreats (allThreats analyses)) →
      [a, b].Sublist (consolidateThreats analyses)) := by
  refine ⟨?_, fun level => (sort_uniqueThreats_spec analyses h level).2, ?_⟩
  · rw [uniqueThreats_eq]
    exact keepFirst_sublist _ _
  · intro a b hab hsub
    have h1 := hsub.filter (fun t => t.riskLevel == a.riskLevel)
    rw [← (sort_uniqueThreats_spec analyses h a.riskLevel).2] at h1
    have h2 : [a, b].filter (fun t => t.riskLevel == a.riskLevel) = [a, b] := by
      simp [List.filter_cons, hab]
    rw [h2] at h1
    exact h1.trans (List.filter_sublist _)

/-- Witness of C6 on the price and seller results of an example ad: the two medium
findings keep their order. -/
theorem consolidateThreats_stable_witness :
    [newAccount, noReviews].Sublist (consolidateThreats exampleAnalyses) :=
  (consolidateThreats_stable exampleAnalyses (by decide)).2.2 newAccount noReviews rfl
    (by decide)

/-- Claim C7: for every category, `analyzePrice` returns score 0, no finding and type
`price` when the price is `null` and when it is a number at most 0. -/
theorem analyzePrice_no_price (category : String) :
    analyzePrice none category = { score := .num 0, threats := [], type := "price" } ∧
    ∀ price : ℚ, price ≤ 0 →
      analyzePrice (some price) category = { score := .num 0, threats := [], type := "price" } := by
  refine ⟨rfl, fun price h => ?_⟩
  simp [analyzePrice, h]

/-- Witness of C7 at price -3. -/
theorem analyzePrice_no_price_witness :
    analyzePrice (some (-3)) "vehicules" = { score := .num 0, threats := [], type := "price" } :=
  (analyzePrice_no_price "vehicules").2 (-3) (by norm_num)

/-- Claim C8: `analyzeSeller(null)` returns score 0, no finding and type `seller`. -/
theorem analyzeSeller_null :
    analyzeSeller none = { score := .num 0, threats := [], type := "seller" } := rfl

/-- Claim C9: for a positive integer price whose remainder modulo 100 is 95 or 99 and
which is not below the floor of its category, `analyzePrice` returns score 5 and
exactly the finding `unusual psychological price`; such a price is not a multiple
of 100. -/
theorem analyzePrice_psychological (n : ℤ) (category : String) (hpos : 0 < n)
    (hmod : n % 100 = 95 ∨ n % 100 = 99) (hfloor : ¬ ((n : ℚ) < categoryFloor category)) :
    analyzePrice (some (n : ℚ)) category
      = { score := .num 5, threats := [psychologicalPrice], type := "price" } ∧
    ¬ (100 ∣ n) := by
  have htm : n.tmod 100 = n % 100 := Int.tmod_eq_emod (le_of_lt hpos) (by norm_num)
  have hlow : isPriceSuspiciouslyLow (n : ℚ) category = false := by
    by_contra hc
    exact hfloor (isPriceSuspiciouslyLow_imp _ _ (by simpa using hc))
  have hq : ¬ ((n : ℚ) = 0 ∨ (n : ℚ) ≤ 0) := by
    have : (0 : ℚ) < n := by exact_mod_cast hpos
    rintro (h | h) <;> linarith
  have hrem : jsRem (n : ℚ) 100 = ((n % 100 : ℤ) : ℚ) := by
    rw [jsRem_intCast]
    exact_mod_cast congrArg (fun z : ℤ => (z : ℚ)) htm
  refine ⟨?_, ?_⟩
  · unfold analyzePrice
    simp only [hq, if_false, hrem, hlow]
    rcases hmod with h | h <;> rw [h] <;> norm_num [psychologicalPrice]
  · intro hd
    have := Int.emod_eq_zero_of_dvd hd
    omega

/-- Witness of C9 at price 299 in an unknown category (floor 10). -/
theorem analyzePrice_psychological_witness :
    analyzePrice (some ((299 : ℤ) : ℚ)) "unknown"
      = { score := .num 5, threats := [psychologicalPrice], type := "price" } ∧
    ¬ (100 ∣ (299 : ℤ)) :=
  analyzePrice_psychological 299 "unknown" (by decide) (by decide)
    (by norm_num +decide [categoryFloor])

/-- Claim C10, at the failing input: price 5 in category `constructor` is below the
default floor 10, and `analyzePrice` emits nothing and scores 0.  The lookup
`suspiciousThresholds[category]` finds the inherited `Object.prototype.constructor`,
which is truthy, so the default 10 is not taken and `price < NaN` is false. -/
theorem analyzePrice_inherited_category :
    (5 : ℚ) < categoryFloor "constructor" ∧
    analyzePrice (some 5) "constructor" = { score := .num 0, threats := [], type := "price" } := by
  constructor
  · norm_num +decide [categoryFloor]
  · have h1 : jsRem 5 100 = 5 := by
      have := jsRem_intCast 5 100
      simpa using this
    have h2 : isPriceSuspiciouslyLow 5 "constructor" = false := by
      simp [isPriceSuspiciouslyLow, getProperty, suspiciousThresholds, List.lookup,
        objectPrototypeKeys, Property.orElse, JSVal.gtNum]
    unfold analyzePrice
    simp only [h1, h2]
    norm_num

/-- Claim C11, at the failing input: a seller whose account is 0 days old (with 12
reviews and 1 similar item) gets score 0 and no finding, although 0 is present and
below 30.  The test `sellerData.accountAge && sellerData.accountAge < 30` reads the
age 0 as absent. -/
theorem analyzeSeller_age_zero :
    sellerAgeZero.accountAge = some 0 ∧
    analyzeSeller (some sellerAgeZero) = { score := .num 0, threats := [], type := "seller" } := by
  refine ⟨rfl, ?_⟩
  rw [analyzeSeller_some]
  simp [sellerAgeZero]

/-- Claim C12: for every non-null seller, `no_reviews` is emitted exactly when
`reviewCount` is 0 (a null count does not trigger it), `multiple_items` exactly when
`similarItemsCount` exceeds 5, every finding is one of the three seller findings and
occurs once, and the score is the sum of the contributions of the findings emitted. -/
theorem analyzeSeller_reviews_items (s : SellerData) :
    (noReviews ∈ (analyzeSeller (some s)).threats ↔ s.reviewCount = some 0) ∧
    (multipleItems ∈ (analyzeSeller (some s)).threats ↔
      ∃ n, s.similarItemsCount = some n ∧ 5 < n) ∧
    (∀ t ∈ (analyzeSeller (some s)).threats, t = newAccount ∨ t = noReviews ∨ t = multipleItems) ∧
    (analyzeSeller (some s)).threats.Nodup ∧
    (analyzeSeller (some s)).score
      = .num (((analyzeSeller (some s)).threats.map sellerContribution).sum) := by
  rw [analyzeSeller_some]
  rcases s with ⟨name, reviewCount, accountAge, similarItemsCount⟩
  simp only
  have hd : newAccount ≠ noReviews ∧ newAccount ≠ multipleItems ∧ noReviews ≠ multipleItems := by
    decide
  have hc : sellerContribution newAccount = 20 ∧ sellerContribution noReviews = 15 ∧
      sellerContribution multipleItems = 30 := by
    simp [sellerContribution, newAccount, noReviews, multipleItems]
  obtain ⟨hd1, hd2, hd3⟩ := hd
  obtain ⟨hc1, hc2, hc3⟩ := hc
  rcases similarItemsCount with _ | n
  · split_ifs <;> simp_all [Ne.symm hd1, Ne.symm hd2, Ne.symm hd3]
  · split_ifs <;> simp_all [Ne.symm hd1, Ne.symm hd2, Ne.symm hd3]
    norm_num

/-- Claim C13: for every ad, `analyzeBehavior` returns the score
15·[photosCount = 1] + 20·[location is vague] and exactly the matching `single_photo`
and `vague_location` findings, in that order; the location is vague exactly when it
is null, empty, or its lowercased form contains one of the five vague terms, so two
non-empty locations with the same lowercased form are vague together. -/
theorem analyzeBehavior_spec (E : Engine) (adData : AdData) :
    analyzeBehavior E adData =
      { score := .num ((if adData.photosCount = 1 then 15 else 0)
                        + (if isLocationVague E adData.location then 20 else 0)),
        threats := (if adData.photosCount = 1 then [singlePhoto] else [])
                    ++ (if isLocationVague E adData.location then [vagueLocation] else []),
        type := "behavior" } ∧
    (isLocationVague E adData.location = true ↔ LocationVague E adData.location) ∧
    (∀ l₁ l₂ : String, l₁ ≠ "" → l₂ ≠ "" → E.toLowerCase l₁ = E.toLowerCase l₂ →
      isLocationVague E (some l₁) = isLocationVague E (some l₂)) := by
  refine ⟨analyzeBehavior_eq E adData, isLocationVague_iff E adData.location, ?_⟩
  intro l₁ l₂ h₁ h₂ h
  simp [isLocationVague, h₁, h₂, h]

/-- Witness of C13: an ad with one photo located at `Secteur Lyon`, with an engine
that lowercases that location to `secteur lyon`, scores 35 with both findings. -/
theorem analyzeBehavior_spec_witness :
    analyzeBehavior asciiEngine vagueAd
      = { score := .num 35, threats := [singlePhoto, vagueLocation], type := "behavior" } ∧
    isLocationVague asciiEngine (some "SECTEUR") = isLocationVague asciiEngine (some "secteur") := by
  have h := analyzeBehavior_spec asciiEngine vagueAd
  have hv : isLocationVague asciiEngine vagueAd.location = true := by decide
  refine ⟨?_, h.2.2 "SECTEUR" "secteur" (by decide) (by decide) (by decide)⟩
  rw [h.1, hv]
  simp [vagueAd]
  norm_num

/-- Claim C14: for every title, description and keyword table, `analyzeText` emits one
keyword finding per (category, tier, keyword) triple whose lowercased keyword is a
substring of the lowercased `title + ' ' + description`, in table order, and nothing
else; when the tiers of those triples are among `low`, `medium`, `high`, its score is
the sum of their tier weights 5, 15, 30 and each finding carries its tier weight. -/
theorem analyzeText_keywords (E : Engine) (table : KeywordTable) (title description : String) :
    (analyzeText E table title description).type = "text" ∧
    (analyzeText E table title description).threats
      = ((keywordTriples table).filter (fun tr =>
          decide ((E.toLowerCase tr.2.2).toList <:+:
            (E.toLowerCase (title ++ " " ++ description)).toList))).map keywordFinding ∧
    ((∀ tr ∈ (keywordTriples table).filter (fun tr =>
          decide ((E.toLowerCase tr.2.2).toList <:+:
            (E.toLowerCase (title ++ " " ++ description)).toList)),
        tr.2.1 ∈ ["low", "medium", "high"]) →
      (analyzeText E table title description).score
        = .num ((((keywordTriples table).filter (fun tr =>
            decide ((E.toLowerCase tr.2.2).toList <:+:
              (E.toLowerCase (title ++ " " ++ description)).toList))).map
            (fun tr => tierWeight tr.2.1)).sum) ∧
      ∀ t ∈ (analyzeText E table title description).threats,
        t.weight = some (.num (tierWeight t.riskLevel))) :=
  analyzeText_hits E table title description

/-- Witness of C14: with the keywords `urgent`, `vite` (high) and `soir` (low), the
title `Urgent ce soir` gives the findings for `urgent` and `soir` and the score 35. -/
theorem analyzeText_keywords_witness :
    (analyzeText asciiEngine mixedKeywords "Urgent ce soir" "").threats
      = [keywordFinding ("urgence", "high", "urgent"), keywordFinding ("urgence", "low", "soir")] ∧
    (analyzeText asciiEngine mixedKeywords "Urgent ce soir" "").score = .num 35 := by
  have h := analyzeText_keywords asciiEngine mixedKeywords "Urgent ce soir" ""
  have hf : (keywordTriples mixedKeywords).filter (fun tr =>
      decide ((asciiEngine.toLowerCase tr.2.2).toList <:+:
        (asciiEngine.toLowerCase ("Urgent ce soir" ++ " " ++ "")).toList))
      = [("urgence", "high", "urgent"), ("urgence", "low", "soir")] := by decide
  refine ⟨?_, ?_⟩
  · rw [h.2.1, hf]
    rfl
  · rw [(h.2.2 (by decide)).1, hf]
    norm_num +decide [tierWeight]

/-- Claim C15: for every ad and pattern table whose patterns have the given numbers
of matches in the lowercased `title + ' ' + description`, `analyzePatterns` returns a
result of type `pattern` with one `pattern_match` finding per pattern with at least
one match, in table order, carrying that number, and nothing for the others; when the
tiers of the matching patterns are among `low`, `medium`, `high`, its score is the
sum of tier weight × number of matches over them. -/
theorem analyzePatterns_matches (E : Engine) (table : PatternTable) (adData : AdData)
    (count : String × PatternData → ℕ)
    (h : ∀ entry ∈ table,
      E.regexMatches entry.2.pattern (E.toLowerCase (adData.title ++ " " ++ adData.description))
        = some (count entry)) :
    ∃ r, analyzePatterns E table adData = .ok r ∧ r.type = "pattern" ∧
      r.threats = (table.filter (fun e => decide (0 < count e))).map
        (fun e => patternFinding e (count e)) ∧
      ((∀ e ∈ table.filter (fun e => decide (0 < count e)),
          e.2.risk_level ∈ ["low", "medium", "high"]) →
        r.score = .num (((table.filter (fun e => decide (0 < count e))).map
          (fun e => tierWeight e.2.risk_level * (count e : ℚ))).sum)) :=
  analyzePatterns_counts E table adData count h

/-- Witness of C15: with a medium pattern that matches twice and a high pattern that
does not match, the result has the one finding with count 2 and the score 30. -/
theorem analyzePatterns_matches_witness :
    ∃ r, analyzePatterns bangEngine examplePatterns vagueAd = .ok r ∧
      r.threats = [patternFinding
        ("bang", { pattern := "!!", risk_level := "medium", description := "exclamations" }) 2] ∧
      r.score = .num 30 := by
  obtain ⟨r, hr, _, ht, hs⟩ := analyzePatterns_matches bangEngine examplePatterns vagueAd
    (fun e => if e.2.pattern = "!!" then 2 else 0) (by decide)
  have hf : examplePatterns.filter
      (fun e => decide (0 < (fun e : String × PatternData =>
        if e.2.pattern = "!!" then 2 else 0) e))
      = [("bang", { pattern := "!!", risk_level := "medium", description := "exclamations" })] := by
    decide
  refine ⟨r, hr, ?_, ?_⟩
  · rw [ht, hf]
    rfl
  · rw [hs (by decide), hf]
    norm_num +decide [tierWeight]

/-- Claim C16: `generateRecommendations` depends only on `riskLevel`: two analyses with
the same `riskLevel` get the same list, whatever their score and threats; the list
has three lines for `high`, three for `medium` and two for `low`. -/
theorem generateRecommendations_riskLevel :
    (∀ a b : Assessment, a.riskLevel = b.riskLevel →
      generateRecommendations a = generateRecommendations b) ∧
    (∀ a : Assessment, (a.riskLevel = "high" → (generateRecommendations a).length = 3) ∧
      (a.riskLevel = "medium" → (generateRecommendations a).length = 3) ∧
      (a.riskLevel = "low" → (generateRecommendations a).length = 2)) := by
  refine ⟨fun a b h => ?_, fun a => ⟨fun h => ?_, fun h => ?_, fun h => ?_⟩⟩
  · simp [generateRecommendations, h]
  · simp [generateRecommendations, h]
  · simp [generateRecommendations, h]
  · simp [generateRecommendations, h]

/-- Witness of C16: two `high` analyses with different scores and threats get the
same three lines. -/
theorem generateRecommendations_riskLevel_witness :
    generateRecommendations
        { riskScore := .num 61, riskLevel := "high", detectedThreats := [priceTooLow],
          recommendations := [], timestamp := 1 }
      = generateRecommendations
        { riskScore := .num 90, riskLevel := "high", detectedThreats := [multipleItems, newAccount],
          recommendations := [], timestamp := 2 } ∧
    (generateRecommendations
        { riskScore := .num 61, riskLevel := "high", detectedThreats := [priceTooLow],
          recommendations := [], timestamp := 1 }).length = 3 :=
  ⟨generateRecommendations_riskLevel.1 _ _ rfl, (generateRecommendations_riskLevel.2 _).1 rfl⟩

/-- Claim C17: for every input (a text, the empty string included, or a value that is
not a string), `calculateOverallRisk(analyzeText(text))` is a number of the interval
[0, 100]. -/
theorem calculateOverallRisk_range (E : TextAnalyzer.TextEngine) (text : Option String) :
    ∃ q : ℚ, TextAnalyzer.calculateOverallRisk (TextAnalyzer.analyzeText E text) = .num q ∧
      0 ≤ q ∧ q ≤ 100 := by
  have hempty : ∃ q : ℚ, TextAnalyzer.calculateOverallRisk TextAnalyzer.getEmptyAnalysis = .num q ∧
      0 ≤ q ∧ q ≤ 100 :=
    TextAnalyzer.calculateOverallRisk_bounds _ (le_refl _) (le_refl _) (by simp [TextAnalyzer.getEmptyAnalysis])
      (by simp [TextAnalyzer.getEmptyAnalysis])
  cases text with
  | none => exact hempty
  | some t =>
    unfold TextAnalyzer.analyzeText
    simp only
    split
    · exact hempty
    · exact TextAnalyzer.calculateOverallRisk_bounds _
        (TextAnalyzer.scanIndicators_nonneg E t _ TextAnalyzer.urgencyIndicators_nonneg)
        (TextAnalyzer.scanIndicators_nonneg E t _ TextAnalyzer.emotionalIndicators_nonneg)
        (TextAnalyzer.detectSuspiciousPatterns_risk E t)
        (TextAnalyzer.assessLanguageQuality_le E t)

/-- Counterexample to C18: with a loaded corpus that is empty, the first example ad
gets riskScore 20.25 and riskLevel `low`, not `high` with a score of at least 60. -/
theorem analyzeAd_exampleOne_empty_corpus :
    ∃ a, (analyzeAd (RiskAnalyzer.loaded [] []) failedLoad asciiEngine 0 exampleOne).2 = .ok a ∧
      a.riskScore = .num (81 / 4) ∧ a.riskLevel = "low" ∧ a.riskLevel ≠ "high" ∧
      a.riskScore.ge 60 = false := by
  obtain ⟨pr, a, hpr, ha, _, _, _, _, _, h⟩ :=
    exampleOne_assessment asciiEngine [] [] failedLoad 0 (by decide) (by simp)
  have hpr0 : pr.score = .num 0 := by
    have h0 : analyzePatterns asciiEngine [] exampleOne
        = .ok { score := .num 0, threats := [], type := "pattern" } := rfl
    rw [h0] at hpr
    simp only [Except.ok.injEq] at hpr
    rw [← hpr]
  obtain ⟨hs, hl⟩ := h 0 0 rfl hpr0
  have hs2 : a.riskScore = .num (81 / 4) := by
    rw [hs]
    norm_num
  have hl2 : a.riskLevel = "low" := by
    rw [analyzeAd_riskLevel _ _ _ _ _ a ha, hs2, determineRiskLevel_num]
    norm_num
  refine ⟨a, ha, hs2, hl2, ?_, ?_⟩
  · rw [hl2]
    decide
  · rw [hs2]
    simp [JSVal.ge]
    norm_num

/-- Claim C18, amended: for the first example ad and every loaded corpus whose
patterns are regular expressions, `analyzeAd` returns an assessment that contains
`new_account`, `no_reviews`, `multiple_items`, `single_photo` and `vague_location`;
its riskScore is 20.25 + 0.25 × keyword score + 0.2 × pattern score, and its
riskLevel is `high` exactly when that score is at least 60. -/
theorem analyzeAd_exampleOne (E : Engine) (keywords : KeywordTable) (patterns : PatternTable)
    (load : LoadOutcome) (now : ℕ)
    (hE : E.toLowerCase "région proche" = "région proche")
    (hp : ∀ entry ∈ patterns,
      E.regexMatches entry.2.pattern
        (E.toLowerCase (exampleOne.title ++ " " ++ exampleOne.description)) ≠ none) :
    ∃ pr a, analyzePatterns E patterns exampleOne = .ok pr ∧
      (analyzeAd (RiskAnalyzer.loaded keywords patterns) load E now exampleOne).2 = .ok a ∧
      newAccount ∈ a.detectedThreats ∧ noReviews ∈ a.detectedThreats ∧
      multipleItems ∈ a.detectedThreats ∧ singlePhoto ∈ a.detectedThreats ∧
      vagueLocation ∈ a.detectedThreats ∧
      ∀ t p : ℚ,
        (analyzeText E keywords exampleOne.title exampleOne.description).score = .num t →
        pr.score = .num p →
        a.riskScore = .num (81 / 4 + t / 4 + p / 5) ∧
        (a.riskLevel = "high" ↔ 60 ≤ 81 / 4 + t / 4 + p / 5) :=
  exampleOne_assessment E keywords patterns load now hE hp

/-- Witness of C18: with the keywords `urgent`, `vite` (high), `soir` (low) and a
medium pattern that matches twice, the first example ad contains `new_account` and
gets riskScore 35, which is not `high`. -/
theorem analyzeAd_exampleOne_witness :
    ∃ a, (analyzeAd (RiskAnalyzer.loaded mixedKeywords examplePatterns) failedLoad bangEngine 0
        exampleOne).2 = .ok a ∧
      newAccount ∈ a.detectedThreats ∧ a.riskScore = .num 35 ∧ a.riskLevel ≠ "high" := by
  obtain ⟨pr, a, hpr, ha, h1, _, _, _, _, h⟩ :=
    analyzeAd_exampleOne bangEngine mixedKeywords examplePatterns failedLoad 0 (by decide)
      (by decide)
  have ht : (analyzeText bangEngine mixedKeywords exampleOne.title exampleOne.description).score
      = .num 35 := by
    have hh := analyzeText_hits bangEngine mixedKeywords exampleOne.title exampleOne.description
    have hf : (keywordTriples mixedKeywords).filter (fun tr =>
        decide ((bangEngine.toLowerCase tr.2.2).toList <:+:
          (bangEngine.toLowerCase (exampleOne.title ++ " " ++ exampleOne.description)).toList))
        = [("urgence", "high", "urgent"), ("urgence", "low", "soir")] := by decide
    rw [(hh.2.2 (by decide)).1, hf]
    norm_num +decide [tierWeight]
  have hp : pr.score = .num 30 := by
    obtain ⟨r, hr, _, _, hs⟩ := analyzePatterns_counts bangEngine examplePatterns exampleOne
      (fun e => if e.2.pattern = "!!" then 2 else 0) (by decide)
    rw [hr] at hpr
    simp only [Except.ok.injEq] at hpr
    subst hpr
    have hf : examplePatterns.filter
        (fun e => decide (0 < (fun e : String × PatternData =>
          if e.2.pattern = "!!" then 2 else 0) e))
        = [("bang", { pattern := "!!", risk_level := "medium", description := "exclamations" })] := by
      decide
    rw [hs (by decide), hf]
    norm_num +decide [tierWeight]
  obtain ⟨hs, hl⟩ := h 35 30 ht hp
  have hs2 : a.riskScore = .num 35 := by
    rw [hs]
    norm_num
  refine ⟨a, ha, h1, hs2, ?_⟩
  intro hhigh
  have := hl.mp hhigh
  norm_num at this

/-- Claim C19: for the second example ad and every loaded corpus none of whose
keywords or patterns matches the text of the ad, `analyzeAd` returns an assessment
with riskLevel `low` and riskScore 10, below 30. -/
theorem analyzeAd_exampleTwo_low (E : Engine) (keywords : KeywordTable)
    (patterns : PatternTable) (load : LoadOutcome) (now : ℕ)
    (hE : E.toLowerCase "Lyon 3e" = "lyon 3e")
    (hk : ∀ tr ∈ keywordTriples keywords,
      ¬ ((E.toLowerCase tr.2.2).toList <:+:
          (E.toLowerCase (exampleTwo.title ++ " " ++ exampleTwo.description)).toList))
    (hp : ∀ entry ∈ patterns,
      E.regexMatches entry.2.pattern
        (E.toLowerCase (exampleTwo.title ++ " " ++ exampleTwo.description)) = some 0) :
    ∃ a, (analyzeAd (RiskAnalyzer.loaded keywords patterns) load E now exampleTwo).2 = .ok a ∧
      a.riskLevel = "low" ∧ ∃ q : ℚ, a.riskScore = .num q ∧ q = 10 ∧ q < 30 := by
  obtain ⟨a, ha, hs, hl, _⟩ := exampleTwo_assessment E keywords patterns load now hE hk hp
  exact ⟨a, ha, hl, 10, hs, rfl, by norm_num⟩

/-- Witness of C19 with the keywords `urgent` and `vite` and two patterns, none of
which matches the second example ad. -/
theorem analyzeAd_exampleTwo_low_witness :
    ∃ a, (analyzeAd (RiskAnalyzer.loaded exampleKeywords examplePatterns) failedLoad asciiEngine 0
        exampleTwo).2 = .ok a ∧
      a.riskLevel = "low" ∧ ∃ q : ℚ, a.riskScore = .num q ∧ q = 10 ∧ q < 30 :=
  analyzeAd_exampleTwo_low asciiEngine exampleKeywords examplePatterns failedLoad 0 (by decide)
    (by decide) (by decide)

/-- Counterexample to C20: with a loaded corpus that is empty, the threat list of the
second example ad is the one finding `price_too_low`, of tier `high`: it is neither
empty nor made of low-tier findings. -/
theorem analyzeAd_exampleTwo_high_finding :
    ∃ a, (analyzeAd (RiskAnalyzer.loaded [] []) failedLoad asciiEngine 0 exampleTwo).2 = .ok a ∧
      a.detectedThreats = [priceTooLow] ∧ priceTooLow.riskLevel = "high" ∧
      ¬ (a.detectedThreats = [] ∨ ∀ t ∈ a.detectedThreats, t.riskLevel = "low") := by
  obtain ⟨a, ha, _, _, hth⟩ :=
    exampleTwo_assessment asciiEngine [] [] failedLoad 0 (by decide) (by simp [keywordTriples])
      (by simp)
  refine ⟨a, ha, hth, rfl, ?_⟩
  rw [hth]
  decide

/-- Claim C20, amended: for the second example ad and every loaded corpus none of
whose keywords or patterns matches the text of the ad, the threat list returned by
`analyzeAd` is exactly the one high-tier finding `price_too_low` (45 is below the
floor 50 of `informatique`). -/
theorem analyzeAd_exampleTwo_threats (E : Engine) (keywords : KeywordTable)
    (patterns : PatternTable) (load : LoadOutcome) (now : ℕ)
    (hE : E.toLowerCase "Lyon 3e" = "lyon 3e")
    (hk : ∀ tr ∈ keywordTriples keywords,
      ¬ ((E.toLowerCase tr.2.2).toList <:+:
          (E.toLowerCase (exampleTwo.title ++ " " ++ exampleTwo.description)).toList))
    (hp : ∀ entry ∈ patterns,
      E.regexMatches entry.2.pattern
        (E.toLowerCase (exampleTwo.title ++ " " ++ exampleTwo.description)) = some 0) :
    ∃ a, (analyzeAd (RiskAnalyzer.loaded keywords patterns) load E now exampleTwo).2 = .ok a ∧
      a.detectedThreats = [priceTooLow] ∧ priceTooLow.riskLevel = "high" := by
  obtain ⟨a, ha, _, _, hth⟩ := exampleTwo_assessment E keywords patterns load now hE hk hp
  exact ⟨a, ha, hth, rfl⟩

/-- Witness of C20 with the keywords `urgent` and `vite` and two patterns, none of
which matches the second example ad. -/
theorem analyzeAd_exampleTwo_threats_witness :
    ∃ a, (analyzeAd (RiskAnalyzer.loaded exampleKeywords examplePatterns) failedLoad asciiEngine 0
        exampleTwo).2 = .ok a ∧
      a.detectedThreats = [priceTooLow] ∧ priceTooLow.riskLevel = "high" :=
  analyzeAd_exampleTwo_threats asciiEngine exampleKeywords examplePatterns failedLoad 0
    (by decide) (by decide) (by decide)

/-- Counterexample to C21: `initialize` succeeds on a corpus whose one pattern is `(`,
and `analyzeAd` on the initialized instance then throws the `SyntaxError` of the
`RegExp` constructor instead of returning an assessment. -/
theorem analyzeAd_throws_on_loaded_pattern :
    (initializeAnalyzer RiskAnalyzer.new brokenLoad).2 = .ok () ∧
    (analyzeAd (initializeAnalyzer RiskAnalyzer.new brokenLoad).1 failedLoad strictEngine 0
      exampleAd).2 = .error (.syntaxError "(") := by
  constructor
  · rfl
  · rfl

/-- Claim C21, amended: `initialize` stores the two documents it fetched and parsed
without examining them, so it succeeds whatever the pattern strings are and also on a
patterns document without `text_patterns`.  Once it has succeeded on a corpus whose
keyword document has the shape category, tier, word list: when the patterns document
has `text_patterns` entries, `analyzeAd` returns an assessment exactly when every
pattern string is a regular expression, and a pattern string that is not one makes it
throw a `SyntaxError` at analysis time; when the patterns document has no
`text_patterns`, `analyzeAd` throws a `TypeError`. -/
theorem analyzeAd_returns_iff (E : Engine) (keywords : KeywordTable)
    (scamPatterns : ScamPatterns) (load : LoadOutcome) (now : ℕ) (adData : AdData) :
    (initializeAnalyzer RiskAnalyzer.new
      { fetched := true, keywords := some keywords, patterns := some scamPatterns }).2
        = .ok () ∧
    (∀ patterns, scamPatterns.text_patterns = some patterns →
      ((∃ a, (analyzeAd
            (initializeAnalyzer RiskAnalyzer.new
              { fetched := true, keywords := some keywords, patterns := some scamPatterns }).1
            load E now adData).2 = .ok a) ↔
        ∀ entry ∈ patterns,
          E.regexMatches entry.2.pattern
            (E.toLowerCase (adData.title ++ " " ++ adData.description)) ≠ none) ∧
      ((∃ entry ∈ patterns,
          E.regexMatches entry.2.pattern
            (E.toLowerCase (adData.title ++ " " ++ adData.description)) = none) →
        ∃ p, (analyzeAd
            (initializeAnalyzer RiskAnalyzer.new
              { fetched := true, keywords := some keywords, patterns := some scamPatterns }).1
            load E now adData).2 = .error (.syntaxError p))) ∧
    (scamPatterns.text_patterns = none →
      (analyzeAd
        (initializeAnalyzer RiskAnalyzer.new
          { fetched := true, keywords := some keywords, patterns := some scamPatterns }).1
        load E now adData).2 = .error .typeError) := by
  rcases scamPatterns with ⟨tp⟩
  refine ⟨rfl, ?_, ?_⟩
  · intro patterns htp
    simp only at htp
    subst htp
    refine ⟨analyzeAd_loaded_iff keywords patterns load E now adData, fun h => ?_⟩
    obtain ⟨p, hp⟩ := analyzePatterns_error E patterns adData h
    exact ⟨p, analyzeAd_loaded_error keywords patterns load E now adData _ hp⟩
  · intro htp
    simp only at htp
    subst htp
    rfl

/-- Witness of C21: after `initialize`, with two patterns that compile `analyzeAd`
returns an assessment, with the pattern `(` it throws a `SyntaxError`, and with a
patterns document without `text_patterns` it throws a `TypeError`. -/
theorem analyzeAd_returns_iff_witness :
    (∃ a, (analyzeAd
        (initializeAnalyzer RiskAnalyzer.new
          { fetched := true, keywords := some exampleKeywords,
            patterns := some { text_patterns := some examplePatterns } }).1
        failedLoad strictEngine 0 exampleAd).2 = .ok a) ∧
    (∃ p, (analyzeAd
        (initializeAnalyzer RiskAnalyzer.new
          { fetched := true, keywords := some exampleKeywords,
            patterns := some { text_patterns := some brokenPatterns } }).1
        failedLoad strictEngine 0 exampleAd).2 = .error (.syntaxError p)) ∧
    (analyzeAd
        (initializeAnalyzer RiskAnalyzer.new
          { fetched := true, keywords := some exampleKeywords,
            patterns := some { text_patterns := none } }).1
        failedLoad strictEngine 0 exampleAd).2 = .error .typeError :=
  ⟨((analyzeAd_returns_iff strictEngine exampleKeywords { text_patterns := some examplePatterns }
      failedLoad 0 exampleAd).2.1 examplePatterns rfl).1.mpr (by decide),
   ((analyzeAd_returns_iff strictEngine exampleKeywords { text_patterns := some brokenPatterns }
      failedLoad 0 exampleAd).2.1 brokenPatterns rfl).2 (by decide),
   (analyzeAd_returns_iff strictEngine exampleKeywords { text_patterns := none }
      failedLoad 0 exampleAd).2.2 rfl⟩

/-- Claim C22: `analyzeAd` is deterministic in the ad and the corpus.  When a run
returns an assessment, a run on the same instance at another clock value, and a
second run on the instance as the first run left it (whatever a new load would
deliver), return an assessment with the same riskScore, riskLevel, threat list and
recommendations; only the timestamp follows the clock. -/
theorem analyzeAd_deterministic (self : RiskAnalyzer) (load₁ load₂ : LoadOutcome) (E : Engine)
    (now₁ now₂ : ℕ) (adData : AdData) (a₁ : Assessment)
    (h : (analyzeAd self load₁ E now₁ adData).2 = .ok a₁) :
    (∃ a₂, (analyzeAd self load₁ E now₂ adData).2 = .ok a₂ ∧
      a₂.riskScore = a₁.riskScore ∧ a₂.riskLevel = a₁.riskLevel ∧
      a₂.detectedThreats = a₁.detectedThreats ∧ a₂.recommendations = a₁.recommendations ∧
      a₂.timestamp = now₂) ∧
    (∃ a₂, (analyzeAd (analyzeAd self load₁ E now₁ adData).1 load₂ E now₂ adData).2 = .ok a₂ ∧
      a₂.riskScore = a₁.riskScore ∧ a₂.riskLevel = a₁.riskLevel ∧
      a₂.detectedThreats = a₁.detectedThreats ∧ a₂.recommendations = a₁.recommendations ∧
      a₂.timestamp = now₂) := by
  constructor
  · exact ⟨_, (analyzeAd_clock self load₁ E now₁ now₂ adData a₁ h).1, rfl, rfl, rfl, rfl, rfl⟩
  · obtain ⟨kws, pats, pr, hst, hpr, hs, hth, hrec, _⟩ :=
      analyzeAd_ok_inv self load₁ E now₁ adData a₁ h
    rw [hst]
    obtain ⟨a₂, ha₂, hs₂, hl₂, hth₂, ht₂⟩ := analyzeAd_loaded kws pats load₂ E now₂ adData pr hpr
    obtain ⟨_, _, _, _, _, _, _, hrec₂, _⟩ := analyzeAd_ok_inv _ load₂ E now₂ adData a₂ ha₂
    have hl₁ := analyzeAd_riskLevel self load₁ E now₁ adData a₁ h
    have hscore : a₂.riskScore = a₁.riskScore := by rw [hs₂, hs]
    have hlevel : a₂.riskLevel = a₁.riskLevel := by rw [hl₂, hl₁, hscore]
    refine ⟨a₂, ha₂, hscore, hlevel, by rw [hth₂, hth], ?_, ht₂⟩
    rw [hrec₂, hrec]
    simp [generateRecommendations, hlevel]

/-- Witness of C22: two runs of an example ad on a loaded instance, at clock values 1
and 2, agree on the riskScore and on the threat list. -/
theorem analyzeAd_deterministic_witness :
    ∃ a₁ a₂, (analyzeAd loadedAnalyzer failedLoad plainEngine 1 exampleAd).2 = .ok a₁ ∧
      (analyzeAd loadedAnalyzer failedLoad plainEngine 2 exampleAd).2 = .ok a₂ ∧
      a₂.riskScore = a₁.riskScore ∧ a₂.detectedThreats = a₁.detectedThreats ∧
      a₁.timestamp = 1 ∧ a₂.timestamp = 2 := by
  obtain ⟨a₂, h₂, hs, _, ht, _, hts⟩ :=
    (analyzeAd_deterministic loadedAnalyzer failedLoad failedLoad plainEngine 1 2 exampleAd _
      rfl).1
  exact ⟨_, a₂, rfl, h₂, hs, ht, rfl, hts⟩

/-- Claim C23, at the failing input: `preprocessText` turns `Vélo à vendre, été 2024`
into `v lo vendre t 2024`.  The letters `é` and `à` of the lowercased text are
replaced by spaces like the comma, because the class `\w` of the pattern
`/[^\w\s]/g` holds the letters `a` to `z` and `A` to `Z` only. -/
theorem preprocessText_drops_accents :
    TextAnalyzer.preprocessText quietTextEngine accentedText = "v lo vendre t 2024" ∧
    'é' ∈ (quietTextEngine.toLowerCase accentedText).toList ∧
    'é' ∉ (TextAnalyzer.preprocessText quietTextEngine accentedText).toList := by
  decide

/-- Claim C24, at the failing input: a text of 21 words that ends with a full stop
gets the readability score 65 from `analyzeText`, which is 100 less 20 less the 15
points of the no-punctuation penalty, although it contains a `.`; the same rule read
on the text itself gives 100.  `analyzeText` passes `cleanText`, from which
`preprocessText` has removed every `.`, `!` and `?`. -/
theorem readabilityScore_ignores_punctuation :
    punctuatedText.toList.countP TextAnalyzer.isSentenceEnd = 1 ∧
    (TextAnalyzer.splitSpaces punctuatedText.toList).length = 21 ∧
    (TextAnalyzer.analyzeText quietTextEngine (some punctuatedText)).readabilityScore = 65 ∧
    TextAnalyzer.calculateReadabilityScore punctuatedText = 100 := by
  have h1 : punctuatedText.toList.countP TextAnalyzer.isSentenceEnd = 1 := by decide
  have h2 : (TextAnalyzer.splitSpaces punctuatedText.toList).length = 21 := by decide
  have h3 : (TextAnalyzer.splitSentences punctuatedText.toList).length = 2 := by decide
  have h4 : (TextAnalyzer.splitSpaces
      (TextAnalyzer.preprocessText quietTextEngine punctuatedText).toList).length = 21 := by
    decide
  refine ⟨h1, h2, ?_, ?_⟩
  · have hne : punctuatedText ≠ "" := by decide
    simp only [TextAnalyzer.analyzeText, hne, if_false]
    rw [TextAnalyzer.calculateReadabilityScore_clean, h4]
    norm_num
  · unfold TextAnalyzer.calculateReadabilityScore
    simp only [h1, h2, h3]
    norm_num

/-- Claim C25: on an initialized instance, for every ad on which the pattern
sub-analyzer returns, `analyzeAd` returns an assessment; when the keyword sub-analyzer
and the pattern sub-analyzer both score 0 its riskScore is a number between 0 and
30.25 and its riskLevel is not `high`; hence a riskLevel `high` comes with at least
one keyword finding or one pattern finding. -/
theorem analyzeAd_quiet_bound (keywords : KeywordTable) (patterns : PatternTable)
    (load : LoadOutcome) (E : Engine) (now : ℕ) (adData : AdData) (pr : PartialResult)
    (hp : analyzePatterns E patterns adData = .ok pr) :
    ∃ a, (analyzeAd (RiskAnalyzer.loaded keywords patterns) load E now adData).2 = .ok a ∧
      ((analyzeText E keywords adData.title adData.description).score = .num 0 →
        pr.score = .num 0 →
        ∃ q, a.riskScore = .num q ∧ 0 ≤ q ∧ q ≤ 121 / 4 ∧ a.riskLevel ≠ "high") ∧
      (a.riskLevel = "high" →
        (analyzeText E keywords adData.title adData.description).threats ≠ [] ∨
          pr.threats ≠ []) :=
  analyzeAd_quiet keywords patterns load E now adData pr hp

/-- Witness of C25: an ad with no keyword and no pattern hit whose price, seller and
behaviour analyzers all reach their maxima has the riskScore 30.25 and the riskLevel
`medium`. -/
theorem analyzeAd_quiet_bound_witness :
    ∃ a, (analyzeAd (RiskAnalyzer.loaded exampleKeywords examplePatterns) failedLoad plainEngine 0
        worstQuietAd).2 = .ok a ∧
      a.riskScore = .num (121 / 4) ∧ a.riskLevel = "medium" ∧ a.riskLevel ≠ "high" := by
  have htext : analyzeText plainEngine exampleKeywords worstQuietAd.title worstQuietAd.description
      = { score := .num 0, threats := [], type := "text" } :=
    analyzeText_no_hit plainEngine exampleKeywords _ _ (by decide)
  have hpat : analyzePatterns plainEngine examplePatterns worstQuietAd
      = .ok { score := .num 0, threats := [], type := "pattern" } :=
    analyzePatterns_no_hit plainEngine examplePatterns worstQuietAd (fun _ _ => rfl)
  obtain ⟨a, ha, hb, _⟩ := analyzeAd_quiet_bound exampleKeywords examplePatterns failedLoad
    plainEngine 0 worstQuietAd _ hpat
  obtain ⟨q, _, _, _, hne⟩ := hb (by rw [htext]) rfl
  obtain ⟨a', ha', hs, hl, _, _⟩ := analyzeAd_loaded exampleKeywords examplePatterns failedLoad
    plainEngine 0 worstQuietAd _ hpat
  have haa : a = a' := by
    rw [ha] at ha'
    simpa using ha'
  subst haa
  have h1 : jsRem 300 100 = 0 := by
    have := jsRem_intCast 300 100
    simpa using this
  have h2 : isPriceSuspiciouslyLow 300 "vehicules" = true := by
    simp [isPriceSuspiciouslyLow, getProperty, suspiciousThresholds, List.lookup,
      Property.orElse, JSVal.gtNum]
    norm_num
  have hprice : (analyzePrice worstQuietAd.price worstQuietAd.category).score = .num 60 := by
    simp only [worstQuietAd, analyzePrice, h1, h2]
    norm_num
  have hseller : (analyzeSeller worstQuietAd.seller).score = .num 65 := by
    simp only [worstQuietAd, analyzeSeller_some]
    norm_num
  have hbehavior : (analyzeBehavior plainEngine worstQuietAd).score = .num 35 := by
    rw [analyzeBehavior_eq]
    simp [worstQuietAd, isLocationVague]
    norm_num
  have hscore : a.riskScore = .num (121 / 4) := by
    rw [hs, calculateFinalScore_five _ _ _ _ _ 0 60 65 35 0 rfl (analyzePrice_type _ _)
      (analyzeSeller_score_bounds _).1 rfl rfl (by rw [htext]) hprice hseller hbehavior rfl]
    norm_num
  refine ⟨a, ha, hscore, ?_, hne⟩
  rw [hl, hscore, determineRiskLevel_num]
  norm_num

/-- Claim C26: for a value that is not a string and for the empty string,
`analyzeText` returns the empty analysis, whose `languageQuality.score` is 0, and
`calculateOverallRisk` of it is 30; an analysis with no urgency, no emotion, no
suspicious pattern, no contact attempt and a `languageQuality.score` of 100 gets 0. -/
theorem analyzeText_empty_risk (E : TextAnalyzer.TextEngine) :
    TextAnalyzer.analyzeText E none = TextAnalyzer.getEmptyAnalysis ∧
    TextAnalyzer.analyzeText E (some "") = TextAnalyzer.getEmptyAnalysis ∧
    TextAnalyzer.getEmptyAnalysis.languageQuality.score = 0 ∧
    TextAnalyzer.calculateOverallRisk TextAnalyzer.getEmptyAnalysis = .num 30 ∧
    (∀ a : TextAnalyzer.TextAnalysis, a.urgencyScore.score = 0 → a.emotionalScore.score = 0 →
      a.suspiciousPatterns = [] → a.contactAttempts = [] → a.languageQuality.score = 100 →
      TextAnalyzer.calculateOverallRisk a = .num 0) := by
  refine ⟨rfl, rfl, rfl, ?_, ?_⟩
  · rw [TextAnalyzer.calculateOverallRisk_quiet _ rfl rfl rfl rfl]
    norm_num [TextAnalyzer.getEmptyAnalysis]
  · intro a hu he hp hc hl
    rw [TextAnalyzer.calculateOverallRisk_quiet a hu he hp hc, hl]
    norm_num

/-- Witness of C26: the text `bon sac a dos`, in which nothing matches, has a
`languageQuality.score` of 100 and an overall risk of 0, below the 30 of the empty
text. -/
theorem analyzeText_empty_risk_witness :
    (TextAnalyzer.analyzeText quietTextEngine (some calmText)).languageQuality.score = 100 ∧
    TextAnalyzer.calculateOverallRisk (TextAnalyzer.analyzeText quietTextEngine (some calmText))
      = .num 0 ∧
    TextAnalyzer.calculateOverallRisk (TextAnalyzer.analyzeText quietTextEngine (some ""))
      = .num 30 := by
  have hne : calmText ≠ "" := by decide
  have hlq : (TextAnalyzer.analyzeText quietTextEngine (some calmText)).languageQuality.score
      = 100 := by
    have hv : calmText.toList.countP TextAnalyzer.isVowel = 4 := by decide
    have hlen : TextAnalyzer.utf16Length calmText.toList = 13 := by decide
    have hfold : (TextAnalyzer.objectEntries
        ((TextAnalyzer.splitSpaces (quietTextEngine.toLowerCase calmText).toList).foldl
          (fun wc word =>
            if TextAnalyzer.utf16Length word > 3 then TextAnalyzer.tally wc (String.mk word)
            else wc) []))
        = [] := by decide
    simp only [TextAnalyzer.analyzeText, hne, if_false, TextAnalyzer.assessLanguageQuality,
      hfold, hv, hlen]
    norm_num
  have h := analyzeText_empty_risk quietTextEngine
  refine ⟨hlq, ?_, ?_⟩
  · apply h.2.2.2.2 _ _ _ _ _ hlq
    · simp only [TextAnalyzer.analyzeText, hne, if_false]
      exact congrArg _ (TextAnalyzer.scanIndicators_quiet quietTextEngine _ _ (fun _ _ => rfl))
    · simp only [TextAnalyzer.analyzeText, hne, if_false]
      exact congrArg _ (TextAnalyzer.scanIndicators_quiet quietTextEngine _ _ (fun _ _ => rfl))
    · simp only [TextAnalyzer.analyzeText, hne, if_false]
      rfl
    · simp only [TextAnalyzer.analyzeText, hne, if_false]
      rfl
  · rw [h.2.1]
    exact h.2.2.2.1

/-- Claim C27: for every ad element, the seller record built by `extractSellerInfo` has
reviewCount 0, accountAge null and similarItemsCount 0, and `analyzeSeller` on it
returns the score 15 with one finding, the medium-tier `no_reviews` finding.  The ad
record that `extractAdData` builds carries that seller record, so every assessment
`analyzeAd` returns for it lists the `no_reviews` finding, and its riskScore is the
riskScore of the same ad without a seller record plus 3. -/
theorem extractSellerInfo_no_reviews (adElement : LeBonScamContent.AdElement) :
    (LeBonScamContent.extractSellerInfo adElement).reviewCount = some 0 ∧
    (LeBonScamContent.extractSellerInfo adElement).accountAge = none ∧
    (LeBonScamContent.extractSellerInfo adElement).similarItemsCount = some 0 ∧
    analyzeSeller (some (LeBonScamContent.extractSellerInfo adElement))
      = { score := .num 15, threats := [noReviews], type := "seller" } ∧
    noReviews.type = "no_reviews" ∧ noReviews.riskLevel = "medium" ∧
    ∀ (pathname : String) (clock : ℕ) (data : LeBonScamContent.ScrapedAd),
      LeBonScamContent.extractAdData pathname clock adElement = some data →
      data.seller = some (LeBonScamContent.extractSellerInfo adElement) ∧
      ∀ (self : RiskAnalyzer) (load : LoadOutcome) (E : Engine) (now : ℕ) (a : Assessment),
        (analyzeAd self load E now data.toAdData).2 = .ok a →
        noReviews ∈ a.detectedThreats ∧
        ∃ a₀, (analyzeAd self load E now { data.toAdData with seller := none }).2 = .ok a₀ ∧
          a.riskScore = a₀.riskScore.add (.num 3) := by
  refine ⟨rfl, rfl, rfl, analyzeSeller_scraped _, rfl, rfl, ?_⟩
  intro pathname clock data hdata
  have hseller := LeBonScamContent.extractAdData_seller pathname clock adElement data hdata
  exact ⟨hseller, fun self load E now a h =>
    analyzeAd_scraped_seller self load E now data.toAdData a _ hseller h⟩

/-- Witness of C27: the ad record scraped from an example element whose seller is
named `Camille` is assessed with the `no_reviews` finding, and 3 of its riskScore come
from the seller record. -/
theorem extractSellerInfo_no_reviews_witness :
    ∃ data a a₀,
      LeBonScamContent.extractAdData "/ad/velos/1" 7 LeBonScamContent.exampleElement = some data ∧
      data.seller = some { name := some "Camille", reviewCount := some 0, accountAge := none,
                           similarItemsCount := some 0 } ∧
      (analyzeAd loadedAnalyzer failedLoad plainEngine 8 data.toAdData).2 = .ok a ∧
      noReviews ∈ a.detectedThreats ∧
      (analyzeAd loadedAnalyzer failedLoad plainEngine 8
        { data.toAdData with seller := none }).2 = .ok a₀ ∧
      a.riskScore = a₀.riskScore.add (.num 3) := by
  obtain ⟨hs, hrest⟩ := (extractSellerInfo_no_reviews LeBonScamContent.exampleElement).2.2.2.2.2.2
    "/ad/velos/1" 7 _ rfl
  obtain ⟨hmem, a₀, ha₀, hscore⟩ := hrest loadedAnalyzer failedLoad plainEngine 8 _ rfl
  exact ⟨_, _, a₀, rfl, by rw [hs]; decide, rfl, hmem, ha₀, hscore⟩

end LeBonScam
